import Mathlib

/-!
# libvips `composite`: a shallow embedding of `libvips/conversion/composite.cpp`

Pixel arithmetic is carried out over `ℚ` (exact arithmetic): every finite value of the
C element types is a rational, and `double`/`float` rounding is not modelled.
C arrays and pixel pointers are functions `Nat → ℚ` (`X b` is `X[b]`).
Division is the total division of `ℚ` (`x / 0 = 0`); statements that depend on a
divisor being non-zero carry that as a hypothesis.

Where the rounding of `double` arithmetic or the result of a division by 0 decides a
statement, the scalar kernel and the combiner are embedded a second time with the rounding
and the division of the machine as parameters (section "Machine arithmetic"); with the
identity as rounding and the division of `ℚ` these definitions are the exact ones.
-/

namespace Composite

/-! ## Constants and enumerations -/

/-- Maximum number of input images (`#define MAX_INPUT_IMAGES (64)`). -/
def MAX_INPUT_IMAGES : Nat := 64

/-- Maximum number of image bands (`#define MAX_BANDS (64)`). -/
def MAX_BANDS : Nat := 64

/-- The 25 blend modes of `VipsBlendMode`, in the order of the enumeration. -/
inductive VipsBlendMode
  | CLEAR | SOURCE | OVER | IN | OUT | ATOP | DEST | DEST_OVER | DEST_IN | DEST_OUT
  | DEST_ATOP | XOR | ADD | SATURATE | MULTIPLY | SCREEN | OVERLAY | DARKEN | LIGHTEN
  | COLOUR_DODGE | COLOUR_BURN | HARD_LIGHT | SOFT_LIGHT | DIFFERENCE | EXCLUSION
  deriving DecidableEq, Repr

/-- Modelled from the spec: the header enumeration `VipsInterpretation` is not part of the
source file; these are the colour interpretations it names (the compositing spaces of the
spec and the others the library knows). -/
inductive VipsInterpretation
  | MULTIBAND | B_W | HISTOGRAM | XYZ | LAB | CMYK | LABQ | RGB | CMC | LCH | LABS | sRGB
  | YXY | FOURIER | RGB16 | GREY16 | MATRIX | scRGB | HSV
  deriving DecidableEq, Repr

/-- Modelled from the spec: the header enumeration `VipsBandFormat` is not part of the
source file; these are the eight element types the tile driver dispatches on and the two
complex ones, which it does not support. -/
inductive VipsBandFormat
  | UCHAR | CHAR | USHORT | SHORT | UINT | INT | FLOAT | COMPLEX | DOUBLE | DPCOMPLEX
  deriving DecidableEq, Repr

/-- The limits of the C integer types named by the tile driver. -/
def UCHAR_MAX : ℤ := 255

/-- See `UCHAR_MAX`. -/
def SCHAR_MIN : ℤ := -128

/-- See `UCHAR_MAX`. -/
def SCHAR_MAX : ℤ := 127

/-- See `UCHAR_MAX`. -/
def USHRT_MAX : ℤ := 65535

/-- See `UCHAR_MAX`. -/
def SHRT_MIN : ℤ := -32768

/-- See `UCHAR_MAX`. -/
def SHRT_MAX : ℤ := 32767

/-- See `UCHAR_MAX`. -/
def UINT_MAX : ℤ := 4294967295

/-- See `UCHAR_MAX`. -/
def INT_MIN : ℤ := -2147483648

/-- See `UCHAR_MAX`. -/
def INT_MAX : ℤ := 2147483647

/-- Modelled from the spec: the header macro `VIPS_MIN( A, B )`, absent from the source
file, is `((A) < (B) ? (A) : (B))`. -/
def VIPS_MIN (A B : ℚ) : ℚ := if A < B then A else B

/-- Modelled from the spec: the header macro `VIPS_MAX( A, B )`, absent from the source
file, is `((A) > (B) ? (A) : (B))`. -/
def VIPS_MAX (A B : ℚ) : ℚ := if A > B then A else B

/-- Modelled from the spec: the header macro `VIPS_CLIP( A, V, B )`, absent from the source
file, clips `V` to the range `[A, B]`: `VIPS_MAX( (A), VIPS_MIN( (B), (V) ) )`. -/
def VIPS_CLIP (A V B : ℚ) : ℚ := VIPS_MAX A (VIPS_MIN B V)

/-! ## Arrays -/

/-- The loop `for( b = 0; b < n; b++ ) X[b] = g(b);` on the array `X`, where `g(b)` is
computed from values the loop does not overwrite before reading them (every loop of the
source reads only index `b` of the array it writes). -/
def for_bands (n : Nat) (g : Nat → ℚ) (X : Nat → ℚ) : Nat → ℚ :=
  fun b => if b < n then g b else X b

/-- The assignment `X[i] = v;`. -/
def set_band (X : Nat → ℚ) (i : Nat) (v : ℚ) : Nat → ℚ :=
  fun b => if b = i then v else X b

/-- A vector of four floats (`typedef float v4f __attribute__((vector_size(...)))`). -/
abbrev v4f := Fin 4 → ℚ

/-- The assignment `V[i] = v;` on one lane of a vector. -/
def set_lane (V : v4f) (i : Fin 4) (v : ℚ) : v4f :=
  fun l => if l = i then v else V l

/-- The four lanes of a vector as the first four entries of an array (0 above). -/
def v4f_array (V : v4f) : Nat → ℚ :=
  fun b => if h : b < 4 then V ⟨b, h⟩ else 0

/-! ## The operation state -/

/-- The fields of `struct _VipsComposite` read by the per-pixel code. `mode k` is
`((VipsBlendMode *) composite->mode->area.data)[k]`. -/
structure VipsComposite where
  mode : Nat → VipsBlendMode
  compositing_space : VipsInterpretation
  premultiplied : Bool
  n : Nat
  bands : Nat
  max_band : Nat → ℚ
  max_band_vec : v4f

/-! ## The channel limit table -/

/-- For each of the supported interpretations, the maximum value of each band
(`vips_composite_max_band`). `D65_X0`, `D65_Y0`, `D65_Z0` stand for the header constants
`VIPS_D65_X0`, `VIPS_D65_Y0`, `VIPS_D65_Z0`; `max_band` is the array on entry. The result is
`none` where the source returns -1. -/
def vips_composite_max_band (D65_X0 D65_Y0 D65_Z0 : ℚ)
    (compositing_space : VipsInterpretation) (bands : Nat) (max_band : Nat → ℚ) :
    Option (Nat → ℚ) :=
  let max_alpha : ℚ :=
    if compositing_space = .GREY16 ∨ compositing_space = .RGB16 then 65535 else 255
  let max_band := for_bands (bands + 1) (fun _ => max_alpha) max_band
  let set3 (v0 v1 v2 : ℚ) : Nat → ℚ := set_band (set_band (set_band max_band 0 v0) 1 v1) 2 v2
  match compositing_space with
  | .XYZ => some (set3 D65_X0 D65_Y0 D65_Z0)
  | .LAB => some (set3 100 128 128)
  | .LCH => some (set3 100 128 360)
  | .CMC => some (set3 100 128 360)
  | .scRGB => some (set3 1 1 1)
  | .sRGB => some (set3 255 255 255)
  | .HSV => some (set3 255 255 255)
  | .RGB16 => some (set3 65535 65535 65535)
  | .GREY16 => some (set_band max_band 0 65535)
  | .YXY => some (set3 100 1 1)
  | .B_W => some (set_band max_band 0 256)
  | _ => none

/-! ## The scalar blend kernel -/

/-- The scalar kernel `vips_composite_blend<T>`: blend the incoming pixel `p` onto the
accumulator `B` with `mode`, returning the updated accumulator. `sqrt` stands for the C
library function used by `VIPS_BLEND_MODE_SOFT_LIGHT`; `abs` is the absolute value.
The two nested `switch` statements are flattened: the eleven PDF modes share `pdf`, the code
after the inner `switch`. Entries of the local arrays `A` and `f` above `bands` are never
read and start as 0. -/
def vips_composite_blend (sqrt : ℚ → ℚ) (composite : VipsComposite) (mode : VipsBlendMode)
    (B : Nat → ℚ) (p : Nat → ℚ) : Nat → ℚ :=
  let bands := composite.bands
  -- Load and scale the pixel to 0 - 1.
  let A := for_bands (bands + 1) (fun b => p b / composite.max_band b) (fun _ => 0)
  let aA := A bands
  let aB := B bands
  -- We may need to premultiply A.
  let A := if !composite.premultiplied then for_bands bands (fun b => A b * aA) A else A
  let f0 : Nat → ℚ := fun _ => 0
  -- The code shared by the PDF modes, after the inner switch.
  let pdf (f : Nat → ℚ) : ℚ × (Nat → ℚ) :=
    let aR := aA + aB * (1 - aA)
    let t1 := 1 - aB
    let t2 := 1 - aA
    let t3 := aA * aB
    (aR, for_bands bands (fun b => t1 * A b + t2 * B b + t3 * f b) B)
  let r : ℚ × (Nat → ℚ) :=
    match mode with
    | .CLEAR => (0, for_bands bands (fun _ => 0) B)
    | .SOURCE => (aA, for_bands bands (fun b => A b) B)
    | .OVER =>
      let aR := aA + aB * (1 - aA)
      let t1 := 1 - aA
      (aR, for_bands bands (fun b => A b + t1 * B b) B)
    | .IN => (aA * aB, for_bands bands (fun b => A b) B)
    | .OUT => (aA * (1 - aB), for_bands bands (fun b => A b) B)
    | .ATOP =>
      let t1 := 1 - aA
      (aB, for_bands bands (fun b => A b + t1 * B b) B)
    | .DEST => (aB, B)
    | .DEST_OVER =>
      let t1 := 1 - aB
      (aB + aA * (1 - aB), for_bands bands (fun b => B b + t1 * A b) B)
    | .DEST_IN => (aA * aB, B)
    | .DEST_OUT => ((1 - aA) * aB, B)
    | .DEST_ATOP =>
      let t1 := 1 - aA
      (aA, for_bands bands (fun b => t1 * A b + B b) B)
    | .XOR =>
      let t1 := 1 - aB
      let t2 := 1 - aA
      (aA + aB - 2 * aA * aB, for_bands bands (fun b => t1 * A b + t2 * B b) B)
    | .ADD => (VIPS_MIN 1 (aA + aB), for_bands bands (fun b => A b + B b) B)
    | .SATURATE =>
      let t1 := VIPS_MIN aA (1 - aB)
      (VIPS_MIN 1 (aA + aB), for_bands bands (fun b => t1 * A b + B b) B)
    | .MULTIPLY => pdf (for_bands bands (fun b => A b * B b) f0)
    | .SCREEN => pdf (for_bands bands (fun b => A b + B b - A b * B b) f0)
    | .OVERLAY =>
      pdf (for_bands bands (fun b =>
        if B b ≤ 1 / 2 then 2 * A b * B b else 1 - 2 * (1 - A b) * (1 - B b)) f0)
    | .DARKEN => pdf (for_bands bands (fun b => VIPS_MIN (A b) (B b)) f0)
    | .LIGHTEN => pdf (for_bands bands (fun b => VIPS_MAX (A b) (B b)) f0)
    | .COLOUR_DODGE =>
      pdf (for_bands bands (fun b =>
        if A b < 1 then VIPS_MIN 1 (B b / (1 - A b)) else 1) f0)
    | .COLOUR_BURN =>
      pdf (for_bands bands (fun b =>
        if A b > 0 then 1 - VIPS_MIN 1 ((1 - B b) / A b) else 0) f0)
    | .HARD_LIGHT =>
      pdf (for_bands bands (fun b =>
        if A b < 1 / 2 then 2 * A b * B b else 1 - 2 * (1 - A b) * (1 - B b)) f0)
    | .SOFT_LIGHT =>
      pdf (for_bands bands (fun b =>
        let g := if B b ≤ 1 / 4 then ((16 * B b - 12) * B b + 4) * B b else sqrt (B b)
        if A b ≤ 1 / 2 then B b - (1 - 2 * A b) * B b * (1 - B b)
        else B b + (2 * A b - 1) * (g - B b)) f0)
    | .DIFFERENCE => pdf (for_bands bands (fun b => |B b - A b|) f0)
    | .EXCLUSION => pdf (for_bands bands (fun b => A b + B b - 2 * A b * B b) f0)
  -- B[bands] = aR;
  set_band r.2 bands r.1

/-! ## The vector blend kernel -/

/-- The vector kernel `vips_composite_blend3<T>` for three colour bands plus alpha. Vector
statements act on all four lanes. `sqrt` is as in the scalar kernel; `f0` is the
indeterminate initial content of the local vector `f`, whose lane 3 the
`VIPS_BLEND_MODE_SOFT_LIGHT` loop leaves unwritten. -/
def vips_composite_blend3 (sqrt : ℚ → ℚ) (f0 : v4f) (composite : VipsComposite)
    (mode : VipsBlendMode) (B : v4f) (p : Nat → ℚ) : v4f :=
  -- Load and scale the pixel to 0 - 1.
  let A : v4f := fun l => p l.val
  let A : v4f := fun l => A l / composite.max_band_vec l
  let aA := A 3
  let aB := B 3
  -- We may need to premultiply A.
  let A : v4f := if !composite.premultiplied then fun l => A l * aA else A
  -- The code shared by the PDF modes, after the inner switch.
  let pdf (f : v4f) : ℚ × v4f :=
    let aR := aA + aB * (1 - aA)
    let t1 := 1 - aB
    let t2 := 1 - aA
    let t3 := aA * aB
    (aR, fun l => t1 * A l + t2 * B l + t3 * f l)
  let r : ℚ × v4f :=
    match mode with
    | .CLEAR => (0, set_lane (set_lane (set_lane B 0 0) 1 0) 2 0)
    | .SOURCE => (aA, A)
    | .OVER =>
      let aR := aA + aB * (1 - aA)
      let t1 := 1 - aA
      (aR, fun l => A l + t1 * B l)
    | .IN => (aA * aB, A)
    | .OUT => (aA * (1 - aB), A)
    | .ATOP =>
      let t1 := 1 - aA
      (aB, fun l => A l + t1 * B l)
    | .DEST => (aB, B)
    | .DEST_OVER =>
      let t1 := 1 - aB
      (aB + aA * (1 - aB), fun l => B l + t1 * A l)
    | .DEST_IN => (aA * aB, B)
    | .DEST_OUT => ((1 - aA) * aB, B)
    | .DEST_ATOP =>
      let t1 := 1 - aA
      (aA, fun l => t1 * A l + B l)
    | .XOR =>
      let t1 := 1 - aB
      let t2 := 1 - aA
      (aA + aB - 2 * aA * aB, fun l => t1 * A l + t2 * B l)
    | .ADD => (VIPS_MIN 1 (aA + aB), fun l => A l + B l)
    | .SATURATE =>
      let t1 := VIPS_MIN aA (1 - aB)
      (VIPS_MIN 1 (aA + aB), fun l => t1 * A l + B l)
    | .MULTIPLY => pdf (fun l => A l * B l)
    | .SCREEN => pdf (fun l => A l + B l - A l * B l)
    | .OVERLAY =>
      pdf (fun l => if B l ≤ 1 / 2 then 2 * A l * B l else 1 - 2 * (1 - A l) * (1 - B l))
    | .DARKEN => pdf (fun l => VIPS_MIN (A l) (B l))
    | .LIGHTEN => pdf (fun l => VIPS_MAX (A l) (B l))
    | .COLOUR_DODGE => pdf (fun l => if A l < 1 then VIPS_MIN 1 (B l / (1 - A l)) else 1)
    | .COLOUR_BURN => pdf (fun l => if A l > 0 then 1 - VIPS_MIN 1 ((1 - B l) / A l) else 0)
    | .HARD_LIGHT =>
      pdf (fun l => if A l < 1 / 2 then 2 * A l * B l else 1 - 2 * (1 - A l) * (1 - B l))
    | .SOFT_LIGHT =>
      -- You can't sqrt a vector, so we must loop.
      pdf (fun l =>
        if l.val < 3 then
          let g := if B l ≤ 1 / 4 then ((16 * B l - 12) * B l + 4) * B l else sqrt (B l)
          if A l ≤ 1 / 2 then B l - (1 - 2 * A l) * B l * (1 - B l)
          else B l + (2 * A l - 1) * (g - B l)
        else f0 l)
    | .DIFFERENCE =>
      let g : v4f := fun l => B l - A l
      pdf (fun l => if g l > 0 then g l else -1 * g l)
    | .EXCLUSION => pdf (fun l => A l + B l - 2 * A l * B l)
  -- B[3] = aR;
  set_lane r.2 3 r.1

/-! ## The pixel stack combiner -/

/-- The conversion `tq[b] = v` of a `double` to the element type `T`: truncation towards
zero for the integer types (the value is within the range of `T` after clipping), the value
itself for the floating types. -/
def cast_T (T : VipsBandFormat) (v : ℚ) : ℚ :=
  match T with
  | .FLOAT | .DOUBLE | .COMPLEX | .DPCOMPLEX => v
  | .UCHAR | .CHAR | .USHORT | .SHORT | .UINT | .INT => ((Int.tdiv v.num v.den : ℤ) : ℚ)

/-- The loop `for( int i = 1; i < n; i++ ) vips_composite_blend<T>( composite, m[i - 1],
B, tp[i] );` of the combiner, from the accumulator `B`. -/
def blend_layers (sqrt : ℚ → ℚ) (composite : VipsComposite) (p : Nat → Nat → ℚ)
    (n : Nat) (B : Nat → ℚ) : Nat → ℚ :=
  (List.range' 1 (n - 1)).foldl
    (fun B i => vips_composite_blend sqrt composite (composite.mode (i - 1)) B (p i)) B

/-- The accumulator of `vips_combine_pixels` after the base pixel is loaded and scaled,
premultiplied if necessary, and all layers are blended onto it (lines 716-727). -/
def combine_accumulate (sqrt : ℚ → ℚ) (composite : VipsComposite) (p : Nat → Nat → ℚ) :
    Nat → ℚ :=
  let bands := composite.bands
  -- Load and scale the base pixel to 0 - 1.
  let B := for_bands (bands + 1) (fun b => p 0 b / composite.max_band b) (fun _ => 0)
  let aB := B bands
  let B := if !composite.premultiplied then for_bands bands (fun b => B b * aB) B else B
  blend_layers sqrt composite p composite.n B

/-- The unpremultiply step of `vips_combine_pixels` (lines 729-740). -/
def combine_unpremultiply (composite : VipsComposite) (B : Nat → ℚ) : Nat → ℚ :=
  let bands := composite.bands
  if !composite.premultiplied then
    let aR := B bands
    if aR = 0 then for_bands bands (fun _ => 0) B
    else for_bands bands (fun b => B b / aR) B
  else B

/-- The write-back loop of `vips_combine_pixels<T, min_T, max_T>` (lines 742-754): scale
each band of `B` by its limit, clip unless `min_T` and `max_T` are both 0, and store in the
output pixel `q`. -/
def combine_write (T : VipsBandFormat) (min_T max_T : ℤ) (composite : VipsComposite)
    (B : Nat → ℚ) (q : Nat → ℚ) : Nat → ℚ :=
  for_bands (composite.bands + 1) (fun b =>
    let v := B b * composite.max_band b
    let v := if min_T ≠ 0 ∨ max_T ≠ 0 then VIPS_CLIP min_T v max_T else v
    cast_T T v) q

/-- The combiner `vips_combine_pixels<T, min_T, max_T>`: `p i` is the pixel `tp[i]` of layer
`i`, `q` the output pixel on entry; the result is the output pixel on return. -/
def vips_combine_pixels (sqrt : ℚ → ℚ) (T : VipsBandFormat) (min_T max_T : ℤ)
    (composite : VipsComposite) (q : Nat → ℚ) (p : Nat → Nat → ℚ) : Nat → ℚ :=
  let B := combine_accumulate sqrt composite p
  -- Unpremultiply, if necessary.
  let B := combine_unpremultiply composite B
  -- Write back as a full range pixel, clipping to range.
  combine_write T min_T max_T composite B q

/-- The loop `for( int i = 1; i < n; i++ ) vips_composite_blend3<T>( composite, m[i - 1],
B, tp[i] );` of the vector combiner, from the accumulator `B`. -/
def blend_layers3 (sqrt : ℚ → ℚ) (f0 : v4f) (composite : VipsComposite) (p : Nat → Nat → ℚ)
    (n : Nat) (B : v4f) : v4f :=
  (List.range' 1 (n - 1)).foldl
    (fun B i => vips_composite_blend3 sqrt f0 composite (composite.mode (i - 1)) B (p i)) B

/-- The vector combiner `vips_combine_pixels3<T, min_T, max_T>` for three colour bands plus
alpha; parameters as for `vips_combine_pixels` and `vips_composite_blend3`. -/
def vips_combine_pixels3 (sqrt : ℚ → ℚ) (f0 : v4f) (T : VipsBandFormat) (min_T max_T : ℤ)
    (composite : VipsComposite) (q : Nat → ℚ) (p : Nat → Nat → ℚ) : Nat → ℚ :=
  let B : v4f := fun l => p 0 l.val
  -- Scale the base pixel to 0 - 1.
  let B : v4f := fun l => B l / composite.max_band_vec l
  let aB := B 3
  let B : v4f := if !composite.premultiplied then set_lane (fun l => B l * aB) 3 aB else B
  let B := blend_layers3 sqrt f0 composite p composite.n B
  -- Unpremultiply, if necessary.
  let B : v4f :=
    if !composite.premultiplied then
      let aR := B 3
      if aR = 0 then set_lane (set_lane (set_lane B 0 0) 1 0) 2 0
      else set_lane (fun l => B l / aR) 3 aR
    else B
  -- Write back as a full range pixel, clipping to range.
  let B : v4f := fun l => B l * composite.max_band_vec l
  let B : v4f :=
    if min_T ≠ 0 ∨ max_T ≠ 0 then
      let low : ℚ := min_T
      let high : ℚ := max_T
      fun l => VIPS_CLIP low (B l) high
    else B
  set_band (set_band (set_band (set_band q 0 (cast_T T (B 0))) 1 (cast_T T (B 1)))
    2 (cast_T T (B 2))) 3 (cast_T T (B 3))

/-- A value `v` is a value of the element type `T` within the range of the instantiation
`<T, min_T, max_T>`: converting it to `T` leaves it unchanged and, where the combiner clips
(`min_T` and `max_T` not both 0), it lies in `[min_T, max_T]`. -/
def in_type_range (T : VipsBandFormat) (min_T max_T : ℤ) (v : ℚ) : Prop :=
  cast_T T v = v ∧ ((min_T ≠ 0 ∨ max_T ≠ 0) → (min_T : ℚ) ≤ v ∧ v ≤ max_T)

/-! ## The tile generation driver -/

/-- The body of the `x` loop of `vips_composite_gen`: the `switch` on the element type
`BandFmt` of the first input that selects the combiner for one output pixel.
`HAVE_VECTOR_ARITH` tells whether the vector path is compiled in. The result is `none` in
the `default:` case, where the source returns -1. -/
def vips_composite_gen_pel (HAVE_VECTOR_ARITH : Bool) (sqrt : ℚ → ℚ) (f0 : v4f)
    (BandFmt : VipsBandFormat) (composite : VipsComposite) (q : Nat → ℚ)
    (p : Nat → Nat → ℚ) : Option (Nat → ℚ) :=
  match BandFmt with
  | .UCHAR =>
    if HAVE_VECTOR_ARITH ∧ composite.bands = 3 then
      some (vips_combine_pixels3 sqrt f0 .UCHAR 0 UCHAR_MAX composite q p)
    else some (vips_combine_pixels sqrt .UCHAR 0 UCHAR_MAX composite q p)
  | .CHAR => some (vips_combine_pixels sqrt .CHAR SCHAR_MIN SCHAR_MAX composite q p)
  | .USHORT =>
    if HAVE_VECTOR_ARITH ∧ composite.bands = 3 then
      some (vips_combine_pixels3 sqrt f0 .USHORT 0 USHRT_MAX composite q p)
    else some (vips_combine_pixels sqrt .USHORT 0 USHRT_MAX composite q p)
  | .SHORT => some (vips_combine_pixels sqrt .SHORT SHRT_MIN SHRT_MAX composite q p)
  | .UINT => some (vips_combine_pixels sqrt .UINT 0 UINT_MAX composite q p)
  | .INT => some (vips_combine_pixels sqrt .INT INT_MIN INT_MAX composite q p)
  | .FLOAT =>
    if HAVE_VECTOR_ARITH ∧ composite.bands = 3 then
      some (vips_combine_pixels3 sqrt f0 .FLOAT 0 USHRT_MAX composite q p)
    else some (vips_combine_pixels sqrt .FLOAT 0 0 composite q p)
  | .DOUBLE => some (vips_combine_pixels sqrt .DOUBLE 0 0 composite q p)
  | _ => none

/-- The instantiations `<T, min_T, max_T>` of `vips_combine_pixels` that `vips_composite_gen`
selects for the six integer element types. -/
def integer_instances : List (VipsBandFormat × ℤ × ℤ) :=
  [(.UCHAR, 0, UCHAR_MAX), (.CHAR, SCHAR_MIN, SCHAR_MAX), (.USHORT, 0, USHRT_MAX),
   (.SHORT, SHRT_MIN, SHRT_MAX), (.UINT, 0, UINT_MAX), (.INT, INT_MIN, INT_MAX)]

/-! ## The build step: missing alpha -/

/-- The loop `for( int i = composite->n - 1; i >= 0; i-- )` of `vips_composite_build`
(lines 986-999), with `k` iterations left to run (the next one has `i = k - 1`).
`vips_image_hasalpha` and `vips_addalpha` are the library functions called (the latter is
`none` where it fails); `n` is `composite->n` and `in_` the array `in`. At the first image
without alpha the loop replaces `in[i]` by the image with alpha added, then
`composite->n -= i; in += i;` and stops. The result is `composite->n` and `in` after the
loop, or `none` where the source returns -1 (also for an index past the end of `in_`, which
the source never reads, `n` being the number of images). -/
def build_alpha_loop {Image : Type} (vips_image_hasalpha : Image → Bool)
    (vips_addalpha : Image → Option Image) (n : Nat) (in_ : List Image) :
    Nat → Option (Nat × List Image)
  | 0 => some (n, in_)
  | k + 1 =>
    match in_[k]? with
    | none => none
    | some im =>
      if !vips_image_hasalpha im then
        match vips_addalpha im with
        | none => none
        | some x => some (n - k, (in_.set k x).drop k)
      else build_alpha_loop vips_image_hasalpha vips_addalpha n in_ k

/-- Lines 983-999 of `vips_composite_build`: `composite->n` and `in` after the images
missing an alpha have been looked for, from the `n = in_.length` decoded images. -/
def vips_composite_build_alpha {Image : Type} (vips_image_hasalpha : Image → Bool)
    (vips_addalpha : Image → Option Image) (in_ : List Image) : Option (Nat × List Image) :=
  build_alpha_loop vips_image_hasalpha vips_addalpha in_.length in_ in_.length


/-- The pointers set up for one output pixel by `vips_composite_gen`
(`p[i] = VIPS_REGION_ADDR( input_regions[i], ... )` for the images `in[i]` handed over by the
build step): `addr im` is the pixel of image `im` at the output position. -/
def gen_pointers {Image : Type} (addr : Image → Nat → ℚ) (in_ : List Image) : Nat → Nat → ℚ :=
  fun i b =>
    match in_[i]? with
    | some im => addr im b
    | none => 0

/-! ## The divisions executed per pixel -/

/-- The incoming pixel `A` of `vips_composite_blend` once it is loaded, scaled to 0 - 1 and,
if necessary, premultiplied (lines 280-292). -/
def blend_load (composite : VipsComposite) (p : Nat → ℚ) : Nat → ℚ :=
  let bands := composite.bands
  let A := for_bands (bands + 1) (fun b => p b / composite.max_band b) (fun _ => 0)
  let aA := A bands
  if !composite.premultiplied then for_bands bands (fun b => A b * aA) A else A

/-- The value `f[b]` that the inner `switch` of `vips_composite_blend` computes for a PDF
mode from `A = A[b]` and `B = B[b]` (lines 388-468); the other modes compute no `f[b]`,
which stays at its initial 0. -/
def blend_f (sqrt : ℚ → ℚ) (mode : VipsBlendMode) (A B : ℚ) : ℚ :=
  match mode with
  | .MULTIPLY => A * B
  | .SCREEN => A + B - A * B
  | .OVERLAY => if B ≤ 1 / 2 then 2 * A * B else 1 - 2 * (1 - A) * (1 - B)
  | .DARKEN => VIPS_MIN A B
  | .LIGHTEN => VIPS_MAX A B
  | .COLOUR_DODGE => if A < 1 then VIPS_MIN 1 (B / (1 - A)) else 1
  | .COLOUR_BURN => if A > 0 then 1 - VIPS_MIN 1 ((1 - B) / A) else 0
  | .HARD_LIGHT => if A < 1 / 2 then 2 * A * B else 1 - 2 * (1 - A) * (1 - B)
  | .SOFT_LIGHT =>
    let g := if B ≤ 1 / 4 then ((16 * B - 12) * B + 4) * B else sqrt B
    if A ≤ 1 / 2 then B - (1 - 2 * A) * B * (1 - B) else B + (2 * A - 1) * (g - B)
  | .DIFFERENCE => |B - A|
  | .EXCLUSION => A + B - 2 * A * B
  | _ => 0

/-- The divisors of the divisions executed when `f[b]` is computed: `B[b] / (1 - A[b])` in
`VIPS_BLEND_MODE_COLOUR_DODGE` and `(1 - B[b]) / A[b]` in `VIPS_BLEND_MODE_COLOUR_BURN`,
each only on the branch that divides. -/
def blend_f_divisors (mode : VipsBlendMode) (A : ℚ) : List ℚ :=
  match mode with
  | .COLOUR_DODGE => if A < 1 then [1 - A] else []
  | .COLOUR_BURN => if A > 0 then [A] else []
  | _ => []

/-- The divisors of the divisions executed by one call of `vips_composite_blend`, in order:
`max_band[b]` for `b = 0 .. bands` (loading the pixel), then those of `f[b]` for
`b = 0 .. bands - 1`. -/
def blend_divisors (composite : VipsComposite) (mode : VipsBlendMode) (p : Nat → ℚ) :
    List ℚ :=
  (List.range (composite.bands + 1)).map composite.max_band ++
    ((List.range composite.bands).map
      (fun b => blend_f_divisors mode (blend_load composite p b))).flatten

/-- The divisors of the divisions executed by the unpremultiply step of
`vips_combine_pixels` (lines 729-740) on the accumulator `B`: `aR` for each colour band when
the stack is not premultiplied and `aR` is not 0, none otherwise. -/
def unpremultiply_divisors (composite : VipsComposite) (B : Nat → ℚ) : List ℚ :=
  if !composite.premultiplied then
    let aR := B composite.bands
    if aR = 0 then [] else (List.range composite.bands).map (fun _ => aR)
  else []

/-- The divisors of the divisions executed by one call of `vips_combine_pixels`, in order:
loading the base pixel, each call of the kernel (the accumulator is carried along), the
unpremultiply step. -/
def combine_divisors (sqrt : ℚ → ℚ) (composite : VipsComposite) (p : Nat → Nat → ℚ) :
    List ℚ :=
  let bands := composite.bands
  let B := for_bands (bands + 1) (fun b => p 0 b / composite.max_band b) (fun _ => 0)
  let aB := B bands
  let B := if !composite.premultiplied then for_bands bands (fun b => B b * aB) B else B
  let s := (List.range' 1 (composite.n - 1)).foldl
    (fun (s : (Nat → ℚ) × List ℚ) i =>
      (vips_composite_blend sqrt composite (composite.mode (i - 1)) s.1 (p i),
        s.2 ++ blend_divisors composite (composite.mode (i - 1)) (p i)))
    (B, (List.range (bands + 1)).map composite.max_band)
  s.2 ++ unpremultiply_divisors composite s.1

/-- The accumulator of `vips_combine_pixels3` after the base pixel is loaded and scaled,
premultiplied if necessary, and all layers are blended onto it (lines 774-790). -/
def combine_accumulate3 (sqrt : ℚ → ℚ) (f0 : v4f) (composite : VipsComposite)
    (p : Nat → Nat → ℚ) : v4f :=
  let B : v4f := fun l => p 0 l.val
  let B : v4f := fun l => B l / composite.max_band_vec l
  let aB := B 3
  let B : v4f := if !composite.premultiplied then set_lane (fun l => B l * aB) 3 aB else B
  blend_layers3 sqrt f0 composite p composite.n B

/-- The divisors of the vector division `B /= aR` of the unpremultiply step of
`vips_combine_pixels3` (lines 792-804), one per lane; none when the stack is premultiplied
or `aR` is 0. -/
def unpremultiply_divisors3 (composite : VipsComposite) (B : v4f) : List ℚ :=
  if !composite.premultiplied then
    let aR := B 3
    if aR = 0 then [] else [aR, aR, aR, aR]
  else []

/-! ## The build step: validation and compositing space -/

/-- Modelled from the spec: the header constant `VIPS_BLEND_MODE_LAST`, absent from the
source file, follows the 25 enumerated blend modes. -/
def VIPS_BLEND_MODE_LAST : Int := 25

/-- Modelled from the spec: the integer value of each blend mode in the header enumeration,
absent from the source file: the modes are numbered from 0 in the order listed. -/
def VipsBlendMode.toCode : VipsBlendMode → Int
  | .CLEAR => 0 | .SOURCE => 1 | .OVER => 2 | .IN => 3 | .OUT => 4 | .ATOP => 5
  | .DEST => 6 | .DEST_OVER => 7 | .DEST_IN => 8 | .DEST_OUT => 9 | .DEST_ATOP => 10
  | .XOR => 11 | .ADD => 12 | .SATURATE => 13 | .MULTIPLY => 14 | .SCREEN => 15
  | .OVERLAY => 16 | .DARKEN => 17 | .LIGHTEN => 18 | .COLOUR_DODGE => 19
  | .COLOUR_BURN => 20 | .HARD_LIGHT => 21 | .SOFT_LIGHT => 22 | .DIFFERENCE => 23
  | .EXCLUSION => 24

/-- The ways `vips_composite_build` fails in its initial validation, after the three
`vips_error` calls of lines 954-973. -/
inductive BuildError
  | no_input_images
  | mode_count (n : Int) (modes : Int)
  | mode_invalid (i : Nat) (mode : Int)
  deriving DecidableEq, Repr

/-- The loop `for( int i = 0; i < composite->n - 1; i++ )` over the blend modes (lines
965-973), on the modes still to check, the first of which has index `i`: `some` of the
error at the first mode out of range, `none` when the loop runs to its end. -/
def build_check_modes : List Int → Nat → Option BuildError
  | [], _ => none
  | m :: rest, i =>
    if m < 0 ∨ m ≥ VIPS_BLEND_MODE_LAST then some (.mode_invalid i m)
    else build_check_modes rest (i + 1)

/-- The initial validation of `vips_composite_build` (lines 952-973): `n` is
`composite->in->area.n`, `mode` the blend mode array (`composite->mode->area.n` is its
length). The result is `.error` where the source returns -1, `.ok ()` where it goes on. -/
def vips_composite_build_validate (n : Int) (mode : List Int) : Except BuildError Unit :=
  if n ≤ 0 then .error .no_input_images
  else if (mode.length : Int) ≠ n - 1 then .error (.mode_count n (n - 1))
  else
    match build_check_modes (mode.take (n - 1).toNat) 0 with
    | some e => .error e
    | none => .ok ()

/-- The fields of `VipsImage` read by `vips_composite_build` (`Type_` is the field `Type`,
the interpretation). -/
structure VipsImage where
  Bands : Int
  Type_ : VipsInterpretation
  BandFmt : VipsBandFormat

/-- The loop of lines 1014-1019: `all_grey` is `TRUE` unless some image has more than two
bands. -/
def all_grey_loop : List VipsImage → Bool
  | [] => true
  | im :: rest => if im.Bands > 2 then false else all_grey_loop rest

/-- The loop of lines 1021-1027: `any_16` is `FALSE` unless some image is `GREY16` or
`RGB16`. -/
def any_16_loop : List VipsImage → Bool
  | [] => false
  | im :: rest =>
    if im.Type_ = .GREY16 ∨ im.Type_ = .RGB16 then true else any_16_loop rest

/-- Lines 1007-1036 of `vips_composite_build`: `composite->compositing_space` after the
default is chosen. `isset` is `vips_object_argument_isset( object, "compositing_space" )`,
`compositing_space` the value on entry and `in_` the images `in[0] .. in[n - 1]`. -/
def vips_composite_build_space (isset : Bool) (compositing_space : VipsInterpretation)
    (in_ : List VipsImage) : VipsInterpretation :=
  if !isset then
    let all_grey := all_grey_loop in_
    let any_16 := any_16_loop in_
    if any_16 then (if all_grey then .GREY16 else .RGB16)
    else (if all_grey then .B_W else .sRGB)
  else compositing_space

/-! ## The kernel on blend mode codes -/

/-- The `case` labels of the outer `switch` of `vips_composite_blend`, then those of the
inner one, in source order. -/
def blend_cases : List VipsBlendMode :=
  [.CLEAR, .SOURCE, .OVER, .IN, .OUT, .ATOP, .DEST, .DEST_OVER, .DEST_IN, .DEST_OUT,
   .DEST_ATOP, .XOR, .ADD, .SATURATE] ++
  [.MULTIPLY, .SCREEN, .OVERLAY, .DARKEN, .LIGHTEN, .COLOUR_DODGE, .COLOUR_BURN,
   .HARD_LIGHT, .SOFT_LIGHT, .DIFFERENCE, .EXCLUSION]

/-- The `case` that the nested `switch( mode )` statements of `vips_composite_blend` select
for the integer value `mode`; `none` when control reaches the inner `default:`
(`g_assert_not_reached()`). -/
def blend_switch (mode : Int) : Option VipsBlendMode :=
  blend_cases.find? (fun m => decide (m.toCode = mode))

/-- The kernel `vips_composite_blend` called with the integer `mode` read from the blend
mode array; `none` when control reaches `g_assert_not_reached()`. -/
def vips_composite_blend_code (sqrt : ℚ → ℚ) (composite : VipsComposite) (mode : Int)
    (B : Nat → ℚ) (p : Nat → ℚ) : Option (Nat → ℚ) :=
  (blend_switch mode).map (fun m => vips_composite_blend sqrt composite m B p)

/-- The blend modes `m[i - 1]`, `i = 1 .. n - 1`, that `vips_combine_pixels` reads from the
blend mode array `mode` and passes to the kernel (`none` for a read past its end). -/
def combine_modes (mode : List Int) (n : Nat) : List (Option Int) :=
  (List.range' 1 (n - 1)).map (fun i => mode[i - 1]?)

/-! ## The stack size and the pointer array of the driver -/

/-- Lines 1001-1005 of `vips_composite_build`: the check of `composite->n` made after the
images missing an alpha have been dealt with; `false` where the source fails with "too many
input images", `true` where it goes on. -/
def build_accepts_n (n : Nat) : Bool := !decide (n > MAX_INPUT_IMAGES)

/-- The indices of the local array `VipsPel *p[MAX_INPUT_IMAGES]` that `vips_composite_gen`
writes when it sets up one row (lines 842-845), in order: `p[i]` for `i = 0 .. n - 1`, then
`p[composite->n] = NULL`. -/
def gen_p_writes (n : Nat) : List Nat := List.range n ++ [n]

/-- The `case` labels of the inner `switch` of `vips_composite_blend`: the PDF modes. -/
def pdf_modes : List VipsBlendMode :=
  [.MULTIPLY, .SCREEN, .OVERLAY, .DARKEN, .LIGHTEN, .COLOUR_DODGE, .COLOUR_BURN,
   .HARD_LIGHT, .SOFT_LIGHT, .DIFFERENCE, .EXCLUSION]

/-! ## Machine arithmetic

The definitions above compute in exact arithmetic. The C code computes in `double`: the
result of every arithmetic operation is rounded, and for an integer element type the store
`tq[b] = v` truncates, so that a rounding error just below an integer costs a whole unit.
The definitions of this section repeat the scalar kernel and the scalar combiner with the
rounding made explicit: `fl x` is the `double` the machine returns for an addition,
subtraction or multiplication whose exact result is `x`, and `dv x y` the `double` it
returns for the quotient `x / y`. For a divisor 0 that is an infinity or a NaN, which is no
rational: statements are made for every `dv`, so that they hold whatever `dv x 0` is.
Operands are combined in the order of the C expression, one rounding per operation;
comparisons, `abs`, selections and the conversion of an element value to `double` are
exact. -/

/-- Rounding to the nearest integer, ties to the even one. -/
def round_half_even (y : ℚ) : ℤ :=
  let f := ⌊y⌋
  if y - f < 1 / 2 then f
  else if 1 / 2 < y - f then f + 1
  else if f % 2 = 0 then f else f + 1

/-- The rounding of IEEE 754 binary arithmetic, to nearest with ties to even, for a format
with `t` fraction bits and results in its normal range (no overflow, no underflow): `x` is
scaled by a power of two to a significand in `[2 ^ t, 2 ^ (t + 1))`, which is rounded to an
integer. -/
def round_binary (t : ℕ) (x : ℚ) : ℚ :=
  if x = 0 then 0
  else
    let e : ℤ := Int.log 2 |x| - t
    (round_half_even (x / 2 ^ e) : ℚ) * 2 ^ e

/-- Rounding to `double` (52 fraction bits). -/
def round_double (x : ℚ) : ℚ := round_binary 52 x

/-- Rounding to `float` (23 fraction bits). -/
def round_float (x : ℚ) : ℚ := round_binary 23 x

/-- The IEEE 754 division of two `double`s with a non-zero divisor: the exact quotient,
rounded. -/
def div_double (x y : ℚ) : ℚ := round_double (x / y)

/-- The relative error that `k` successive roundings of unit roundoff `u` can accumulate:
`(1 + u) ^ k - 1`. -/
def rel_err (u : ℚ) (k : ℕ) : ℚ := (1 + u) ^ k - 1

/-- The scalar kernel `vips_composite_blend<T>` in `double` arithmetic: as
`vips_composite_blend`, with the result of every addition, subtraction and multiplication
rounded by `fl` and every division carried out by `dv`. -/
def vips_composite_blend_fl (fl : ℚ → ℚ) (dv : ℚ → ℚ → ℚ) (sqrt : ℚ → ℚ)
    (composite : VipsComposite) (mode : VipsBlendMode) (B : Nat → ℚ) (p : Nat → ℚ) :
    Nat → ℚ :=
  let bands := composite.bands
  -- Load and scale the pixel to 0 - 1.
  let A := for_bands (bands + 1) (fun b => dv (p b) (composite.max_band b)) (fun _ => 0)
  let aA := A bands
  let aB := B bands
  -- We may need to premultiply A.
  let A := if !composite.premultiplied then for_bands bands (fun b => fl (A b * aA)) A else A
  let f0 : Nat → ℚ := fun _ => 0
  -- The code shared by the PDF modes, after the inner switch.
  let pdf (f : Nat → ℚ) : ℚ × (Nat → ℚ) :=
    let aR := fl (aA + fl (aB * fl (1 - aA)))
    let t1 := fl (1 - aB)
    let t2 := fl (1 - aA)
    let t3 := fl (aA * aB)
    (aR, for_bands bands
      (fun b => fl (fl (fl (t1 * A b) + fl (t2 * B b)) + fl (t3 * f b))) B)
  let r : ℚ × (Nat → ℚ) :=
    match mode with
    | .CLEAR => (0, for_bands bands (fun _ => 0) B)
    | .SOURCE => (aA, for_bands bands (fun b => A b) B)
    | .OVER =>
      let aR := fl (aA + fl (aB * fl (1 - aA)))
      let t1 := fl (1 - aA)
      (aR, for_bands bands (fun b => fl (A b + fl (t1 * B b))) B)
    | .IN => (fl (aA * aB), for_bands bands (fun b => A b) B)
    | .OUT => (fl (aA * fl (1 - aB)), for_bands bands (fun b => A b) B)
    | .ATOP =>
      let t1 := fl (1 - aA)
      (aB, for_bands bands (fun b => fl (A b + fl (t1 * B b))) B)
    | .DEST => (aB, B)
    | .DEST_OVER =>
      let t1 := fl (1 - aB)
      (fl (aB + fl (aA * fl (1 - aB))), for_bands bands (fun b => fl (B b + fl (t1 * A b))) B)
    | .DEST_IN => (fl (aA * aB), B)
    | .DEST_OUT => (fl (fl (1 - aA) * aB), B)
    | .DEST_ATOP =>
      let t1 := fl (1 - aA)
      (aA, for_bands bands (fun b => fl (fl (t1 * A b) + B b)) B)
    | .XOR =>
      let t1 := fl (1 - aB)
      let t2 := fl (1 - aA)
      (fl (fl (aA + aB) - fl (fl (2 * aA) * aB)),
        for_bands bands (fun b => fl (fl (t1 * A b) + fl (t2 * B b))) B)
    | .ADD => (VIPS_MIN 1 (fl (aA + aB)), for_bands bands (fun b => fl (A b + B b)) B)
    | .SATURATE =>
      let t1 := VIPS_MIN aA (fl (1 - aB))
      (VIPS_MIN 1 (fl (aA + aB)), for_bands bands (fun b => fl (fl (t1 * A b) + B b)) B)
    | .MULTIPLY => pdf (for_bands bands (fun b => fl (A b * B b)) f0)
    | .SCREEN => pdf (for_bands bands (fun b => fl (fl (A b + B b) - fl (A b * B b))) f0)
    | .OVERLAY =>
      pdf (for_bands bands (fun b =>
        if B b ≤ 1 / 2 then fl (fl (2 * A b) * B b)
        else fl (1 - fl (fl (2 * fl (1 - A b)) * fl (1 - B b)))) f0)
    | .DARKEN => pdf (for_bands bands (fun b => VIPS_MIN (A b) (B b)) f0)
    | .LIGHTEN => pdf (for_bands bands (fun b => VIPS_MAX (A b) (B b)) f0)
    | .COLOUR_DODGE =>
      pdf (for_bands bands (fun b =>
        if A b < 1 then VIPS_MIN 1 (dv (B b) (fl (1 - A b))) else 1) f0)
    | .COLOUR_BURN =>
      pdf (for_bands bands (fun b =>
        if A b > 0 then fl (1 - VIPS_MIN 1 (dv (fl (1 - B b)) (A b))) else 0) f0)
    | .HARD_LIGHT =>
      pdf (for_bands bands (fun b =>
        if A b < 1 / 2 then fl (fl (2 * A b) * B b)
        else fl (1 - fl (fl (2 * fl (1 - A b)) * fl (1 - B b)))) f0)
    | .SOFT_LIGHT =>
      pdf (for_bands bands (fun b =>
        let g :=
          if B b ≤ 1 / 4 then fl (fl (fl (fl (fl (16 * B b) - 12) * B b) + 4) * B b)
          else sqrt (B b)
        if A b ≤ 1 / 2 then fl (B b - fl (fl (fl (1 - fl (2 * A b)) * B b) * fl (1 - B b)))
        else fl (B b + fl (fl (fl (2 * A b) - 1) * fl (g - B b)))) f0)
    | .DIFFERENCE => pdf (for_bands bands (fun b => |fl (B b - A b)|) f0)
    | .EXCLUSION =>
      pdf (for_bands bands (fun b => fl (fl (A b + B b) - fl (fl (2 * A b) * B b))) f0)
  -- B[bands] = aR;
  set_band r.2 bands r.1

/-- The conversion `tq[b] = v` of a `double` to the element type `T`: truncation towards
zero for the integer types, the value itself for `double`, the nearest `float`, `st v`, for
`float` (the complex types are never instantiated). -/
def cast_T_fl (st : ℚ → ℚ) (T : VipsBandFormat) (v : ℚ) : ℚ :=
  match T with
  | .FLOAT => st v
  | .DOUBLE | .COMPLEX | .DPCOMPLEX => v
  | .UCHAR | .CHAR | .USHORT | .SHORT | .UINT | .INT => ((Int.tdiv v.num v.den : ℤ) : ℚ)

/-- The loop `for( int i = 1; i < n; i++ ) vips_composite_blend<T>( composite, m[i - 1],
B, tp[i] );` of the combiner in `double` arithmetic. -/
def blend_layers_fl (fl : ℚ → ℚ) (dv : ℚ → ℚ → ℚ) (sqrt : ℚ → ℚ)
    (composite : VipsComposite) (p : Nat → Nat → ℚ) (n : Nat) (B : Nat → ℚ) : Nat → ℚ :=
  (List.range' 1 (n - 1)).foldl
    (fun B i =>
      vips_composite_blend_fl fl dv sqrt composite (composite.mode (i - 1)) B (p i)) B

/-- The accumulator of `vips_combine_pixels` in `double` arithmetic after the base pixel is
loaded, scaled and, if necessary, premultiplied, and all layers are blended onto it
(lines 716-727). -/
def combine_accumulate_fl (fl : ℚ → ℚ) (dv : ℚ → ℚ → ℚ) (sqrt : ℚ → ℚ)
    (composite : VipsComposite) (p : Nat → Nat → ℚ) : Nat → ℚ :=
  let bands := composite.bands
  -- Load and scale the base pixel to 0 - 1.
  let B := for_bands (bands + 1) (fun b => dv (p 0 b) (composite.max_band b)) (fun _ => 0)
  let aB := B bands
  let B := if !composite.premultiplied then for_bands bands (fun b => fl (B b * aB)) B else B
  blend_layers_fl fl dv sqrt composite p composite.n B

/-- The unpremultiply step of `vips_combine_pixels` in `double` arithmetic
(lines 729-740). -/
def combine_unpremultiply_fl (dv : ℚ → ℚ → ℚ) (composite : VipsComposite) (B : Nat → ℚ) :
    Nat → ℚ :=
  let bands := composite.bands
  if !composite.premultiplied then
    let aR := B bands
    if aR = 0 then for_bands bands (fun _ => 0) B
    else for_bands bands (fun b => dv (B b) aR) B
  else B

/-- The value `v = B[b] * composite->max_band[b]` that the write-back loop of
`vips_combine_pixels` computes for band `b` in `double` arithmetic, before it is clipped and
stored (line 747). -/
def vips_combine_value_fl (fl : ℚ → ℚ) (dv : ℚ → ℚ → ℚ) (sqrt : ℚ → ℚ)
    (composite : VipsComposite) (p : Nat → Nat → ℚ) (b : Nat) : ℚ :=
  let B := combine_accumulate_fl fl dv sqrt composite p
  -- Unpremultiply, if necessary.
  let B := combine_unpremultiply_fl dv composite B
  fl (B b * composite.max_band b)

/-- The combiner `vips_combine_pixels<T, min_T, max_T>` in `double` arithmetic: `fl` rounds
to `double`, `dv` divides, `st` converts a `double` to `float`; the other parameters are as
for `vips_combine_pixels`. -/
def vips_combine_pixels_fl (fl : ℚ → ℚ) (dv : ℚ → ℚ → ℚ) (st : ℚ → ℚ) (sqrt : ℚ → ℚ)
    (T : VipsBandFormat) (min_T max_T : ℤ) (composite : VipsComposite) (q : Nat → ℚ)
    (p : Nat → Nat → ℚ) : Nat → ℚ :=
  -- Write back as a full range pixel, clipping to range.
  for_bands (composite.bands + 1) (fun b =>
    let v := vips_combine_value_fl fl dv sqrt composite p b
    let v := if min_T ≠ 0 ∨ max_T ≠ 0 then VIPS_CLIP min_T v max_T else v
    cast_T_fl st T v) q

/-! ## The unpremultiply step with the division made visible -/

/-- The unpremultiply step of `vips_combine_pixels` (lines 729-740) in exact arithmetic,
with `dv x y` standing for the quotient `x / y` the machine computes, whatever it is (an
infinity or a NaN when `y` is 0): a result that is the same for every `dv` is computed
without dividing. -/
def combine_unpremultiply_dv (dv : ℚ → ℚ → ℚ) (composite : VipsComposite) (B : Nat → ℚ) :
    Nat → ℚ :=
  let bands := composite.bands
  if !composite.premultiplied then
    let aR := B bands
    if aR = 0 then for_bands bands (fun _ => 0) B
    else for_bands bands (fun b => dv (B b) aR) B
  else B

/-- The combiner `vips_combine_pixels<T, min_T, max_T>` with `dv` as the division of its
unpremultiply step. -/
def vips_combine_pixels_dv (dv : ℚ → ℚ → ℚ) (sqrt : ℚ → ℚ) (T : VipsBandFormat)
    (min_T max_T : ℤ) (composite : VipsComposite) (q : Nat → ℚ) (p : Nat → Nat → ℚ) :
    Nat → ℚ :=
  let B := combine_accumulate sqrt composite p
  -- Unpremultiply, if necessary.
  let B := combine_unpremultiply_dv dv composite B
  -- Write back as a full range pixel, clipping to range.
  combine_write T min_T max_T composite B q

/-- The vector combiner `vips_combine_pixels3<T, min_T, max_T>` with `dv` as the lane-wise
division `B /= aR` of its unpremultiply step (lines 792-804). -/
def vips_combine_pixels3_dv (dv : ℚ → ℚ → ℚ) (sqrt : ℚ → ℚ) (f0 : v4f) (T : VipsBandFormat)
    (min_T max_T : ℤ) (composite : VipsComposite) (q : Nat → ℚ) (p : Nat → Nat → ℚ) :
    Nat → ℚ :=
  let B := combine_accumulate3 sqrt f0 composite p
  -- Unpremultiply, if necessary.
  let B : v4f :=
    if !composite.premultiplied then
      let aR := B 3
      if aR = 0 then set_lane (set_lane (set_lane B 0 0) 1 0) 2 0
      else set_lane (fun l => dv (B l) aR) 3 aR
    else B
  -- Write back as a full range pixel, clipping to range.
  let B : v4f := fun l => B l * composite.max_band_vec l
  let B : v4f :=
    if min_T ≠ 0 ∨ max_T ≠ 0 then
      let low : ℚ := min_T
      let high : ℚ := max_T
      fun l => VIPS_CLIP low (B l) high
    else B
  set_band (set_band (set_band (set_band q 0 (cast_T T (B 0))) 1 (cast_T T (B 1)))
    2 (cast_T T (B 2))) 3 (cast_T T (B 3))

/-! ## Concrete data used to exercise the statements -/

/-- An 8-bit sRGB operation state: three colour bands, the limit table computed by
`vips_composite_max_band`, `modes` as the blend mode array (`CLEAR` beyond its end). -/
def rgba8 (premultiplied : Bool) (n : Nat) (modes : List VipsBlendMode) : VipsComposite where
  mode := fun k => modes.getD k .CLEAR
  compositing_space := .sRGB
  premultiplied := premultiplied
  n := n
  bands := 3
  max_band := (vips_composite_max_band 0 0 0 .sRGB 3 (fun _ => 255)).getD (fun _ => 0)
  max_band_vec := fun l => (vips_composite_max_band 0 0 0 .sRGB 3 (fun _ => 255)).getD (fun _ => 0) l.val

/-- A stack of two 8-bit pixels: solid red below, solid green above. -/
def px_red_green (i b : Nat) : ℕ :=
  ([[255, 0, 0, 255], [0, 200, 0, 255]].getD i []).getD b 0

/-- An image reduced to a tag and whether it has an alpha band, for exercising the build
step; its `vips_image_hasalpha` is `Prod.snd`. -/
abbrev TaggedImage := Nat × Bool

/-- Adding an alpha to a tagged image always succeeds. -/
def tag_addalpha (im : TaggedImage) : Option TaggedImage := some (im.1, true)

/-- The pixel with the four given band values (0 above band 3). -/
def pel4 (x0 x1 x2 x3 : ℚ) : Nat → ℚ :=
  fun b => match b with
    | 0 => x0
    | 1 => x1
    | 2 => x2
    | 3 => x3
    | _ => 0

/-- The pixel of a tagged image: image 1 is solid red, image 2 solid green, any other
image solid black (8-bit sRGB with alpha). -/
def tag_pel (im : TaggedImage) : Nat → ℚ :=
  if im.1 = 1 then pel4 255 0 0 255 else if im.1 = 2 then pel4 0 200 0 255 else pel4 0 0 0 255

/-- A single-layer Lab operation state with three colour bands (float pixels), the limit
table computed by `vips_composite_max_band`. -/
def lab_float1 : VipsComposite where
  mode := fun _ => .OVER
  compositing_space := .LAB
  premultiplied := false
  n := 1
  bands := 3
  max_band := (vips_composite_max_band 0 0 0 .LAB 3 (fun _ => 255)).getD (fun _ => 0)
  max_band_vec := fun l => (vips_composite_max_band 0 0 0 .LAB 3 (fun _ => 255)).getD (fun _ => 0) l.val

/-- A two-layer unpremultiplied Lab operation state with three colour bands blended with
`MULTIPLY`, the limit table computed by `vips_composite_max_band`. -/
def lab_multiply2 : VipsComposite where
  mode := fun _ => .MULTIPLY
  compositing_space := .LAB
  premultiplied := false
  n := 2
  bands := 3
  max_band := (vips_composite_max_band 0 0 0 .LAB 3 (fun _ => 255)).getD (fun _ => 0)
  max_band_vec := fun l => (vips_composite_max_band 0 0 0 .LAB 3 (fun _ => 255)).getD (fun _ => 0) l.val

/-! ## Theorems -/

/-- C1: in the scalar kernel, `VIPS_BLEND_MODE_OVER` gives result alpha
`aR = aA + aB * (1 - aA)` and, for every non-alpha band `b`, result band
`A[b] + (1 - aA) * B[b]`, where `A` is the incoming pixel divided band-wise by the limit
table and, when the stack is not premultiplied, with its non-alpha bands multiplied by `aA`;
`aA` is the normalized alpha of the incoming pixel and `aB` the alpha of `B` before the call. -/
theorem C1_over_closed_form (sqrt : ℚ → ℚ) (composite : VipsComposite) (B P : Nat → ℚ) :
    let aA := P composite.bands / composite.max_band composite.bands
    let aB := B composite.bands
    let A : Nat → ℚ := fun b =>
      if composite.premultiplied then P b / composite.max_band b
      else P b / composite.max_band b * aA
    vips_composite_blend sqrt composite .OVER B P composite.bands = aA + aB * (1 - aA) ∧
    ∀ b, b < composite.bands →
      vips_composite_blend sqrt composite .OVER B P b = A b + (1 - aA) * B b := by
  intro aA aB A
  constructor
  · simp [vips_composite_blend, set_band, for_bands, aA, aB]
  · intro b hb
    have hne : b ≠ composite.bands := Nat.ne_of_lt hb
    have hlt : b < composite.bands + 1 := Nat.lt_succ_of_lt hb
    cases hp : composite.premultiplied <;>
      simp [vips_composite_blend, set_band, for_bands, aA, A, hp, hne, hlt, hb]

/-- C1 at a concrete input: a half-transparent green pixel over solid red, unpremultiplied,
band 1. -/
theorem C1_over_closed_form_witness :
    (1 : Nat) < (rgba8 false 2 [.OVER]).bands ∧
    vips_composite_blend (fun x => x) (rgba8 false 2 [.OVER]) .OVER
      (pel4 1 0 0 1) (pel4 0 255 0 51) 1 = 1 / 5 := by
  refine ⟨by decide, ?_⟩
  have h := (C1_over_closed_form (fun x => x) (rgba8 false 2 [.OVER])
    (pel4 1 0 0 1) (pel4 0 255 0 51)).2 1 (by decide)
  rw [h]
  simp +decide [rgba8, pel4, vips_composite_max_band, set_band, for_bands]
  norm_num


/-! ### Shared lemmas -/

theorem VIPS_CLIP_of_mem {lo v hi : ℚ} (h1 : lo ≤ v) (h2 : v ≤ hi) : VIPS_CLIP lo v hi = v := by
  unfold VIPS_CLIP VIPS_MIN VIPS_MAX
  split_ifs <;> linarith

theorem cast_T_intCast (T : VipsBandFormat) (z : ℤ) : cast_T T (z : ℚ) = z := by
  cases T <;> simp [cast_T]

theorem cast_T_natCast (T : VipsBandFormat) (k : ℕ) : cast_T T (k : ℚ) = k := by
  have := cast_T_intCast T (k : ℤ)
  simpa using this

theorem blend_layers_two (sqrt : ℚ → ℚ) (c : VipsComposite) (p : Nat → Nat → ℚ)
    (B : Nat → ℚ) :
    blend_layers sqrt c p 2 B = vips_composite_blend sqrt c (c.mode 0) B (p 1) := by
  simp [blend_layers]

theorem blend_layers3_two (sqrt : ℚ → ℚ) (f0 : v4f) (c : VipsComposite) (p : Nat → Nat → ℚ)
    (B : v4f) :
    blend_layers3 sqrt f0 c p 2 B = vips_composite_blend3 sqrt f0 c (c.mode 0) B (p 1) := by
  simp [blend_layers3]

theorem over_solid_scalar (sqrt : ℚ → ℚ) (c : VipsComposite)
    (q : Nat → ℚ) (px : Nat → Nat → ℕ)
    (hn : c.n = 2) (hpre : c.premultiplied = false) (hb : c.bands = 3)
    (hmax : ∀ b, b ≤ 3 → c.max_band b = 255)
    (hmode : c.mode 0 = .OVER) (h8 : ∀ i b, px i b ≤ 255) (hbot : px 0 3 = 255) :
    let out := vips_combine_pixels sqrt .UCHAR 0 UCHAR_MAX c q (fun i b => (px i b : ℚ))
    out 3 = 255 ∧
    (px 1 3 = 255 → ∀ b, b < 3 → out b = px 1 b) ∧
    (px 1 3 = 0 → ∀ b, b < 3 → out b = px 0 b) := by
  intro out
  have h0 := hmax 0 (by norm_num)
  have h1 := hmax 1 (by norm_num)
  have h2 := hmax 2 (by norm_num)
  have h3 := hmax 3 (by norm_num)
  have hbot' : (px 0 3 : ℚ) = 255 := by exact_mod_cast hbot
  have hclip : ∀ k : ℕ, k ≤ 255 → cast_T .UCHAR (VIPS_CLIP 0 (k : ℚ) 255) = k := by
    intro k hk
    rw [VIPS_CLIP_of_mem (by positivity) (by exact_mod_cast hk), cast_T_natCast]
  have hclip255 : cast_T .UCHAR (VIPS_CLIP 0 (255 : ℚ) 255) = 255 := by
    simpa using hclip 255 (by norm_num)
  refine ⟨?_, ?_, ?_⟩
  · simpa [out, vips_combine_pixels, combine_accumulate, combine_unpremultiply, combine_write,
      hn, hpre, hb, blend_layers_two, hmode, vips_composite_blend, for_bands, set_band,
      h3, hbot', UCHAR_MAX] using hclip255
  · intro htop b hlt
    have htop' : (px 1 3 : ℚ) = 255 := by exact_mod_cast htop
    have hk := hclip (px 1 b) (h8 1 b)
    interval_cases b <;>
    simpa [out, vips_combine_pixels, combine_accumulate, combine_unpremultiply, combine_write,
      hn, hpre, hb, blend_layers_two, hmode, vips_composite_blend, for_bands, set_band,
      h0, h1, h2, h3, hbot', htop', UCHAR_MAX] using hk
  · intro htop b hlt
    have htop' : (px 1 3 : ℚ) = 0 := by exact_mod_cast htop
    have hk := hclip (px 0 b) (h8 0 b)
    interval_cases b <;>
    simpa [out, vips_combine_pixels, combine_accumulate, combine_unpremultiply, combine_write,
      hn, hpre, hb, blend_layers_two, hmode, vips_composite_blend, for_bands, set_band,
      h0, h1, h2, h3, hbot', htop', UCHAR_MAX] using hk


theorem over_solid_vector (sqrt : ℚ → ℚ) (f0 : v4f) (c : VipsComposite)
    (q : Nat → ℚ) (px : Nat → Nat → ℕ)
    (hn : c.n = 2) (hpre : c.premultiplied = false)
    (hvec : ∀ l, c.max_band_vec l = 255)
    (hmode : c.mode 0 = .OVER) (h8 : ∀ i b, px i b ≤ 255) (hbot : px 0 3 = 255) :
    let out := vips_combine_pixels3 sqrt f0 .UCHAR 0 UCHAR_MAX c q (fun i b => (px i b : ℚ))
    out 3 = 255 ∧
    (px 1 3 = 255 → ∀ b, b < 3 → out b = px 1 b) ∧
    (px 1 3 = 0 → ∀ b, b < 3 → out b = px 0 b) := by
  intro out
  have hbot' : (px 0 3 : ℚ) = 255 := by exact_mod_cast hbot
  have e3 : ((3 : Fin 4) : ℕ) = 3 := rfl
  have e2 : ((2 : Fin 4) : ℕ) = 2 := rfl
  have hclip : ∀ k : ℕ, k ≤ 255 → cast_T .UCHAR (VIPS_CLIP 0 (k : ℚ) 255) = k := by
    intro k hk
    rw [VIPS_CLIP_of_mem (by positivity) (by exact_mod_cast hk), cast_T_natCast]
  have hclip255 : cast_T .UCHAR (VIPS_CLIP 0 (255 : ℚ) 255) = 255 := by
    simpa using hclip 255 (by norm_num)
  refine ⟨?_, ?_, ?_⟩
  · simpa [out, vips_combine_pixels3, hn, hpre, blend_layers3_two, hmode,
      vips_composite_blend3, set_lane, set_band, hvec, e3, e2, hbot', UCHAR_MAX] using hclip255
  · intro htop b hlt
    have htop' : (px 1 3 : ℚ) = 255 := by exact_mod_cast htop
    have hk := hclip (px 1 b) (h8 1 b)
    interval_cases b <;>
    simpa [out, vips_combine_pixels3, hn, hpre, blend_layers3_two, hmode,
      vips_composite_blend3, set_lane, set_band, hvec, e3, e2, hbot', htop', UCHAR_MAX] using hk
  · intro htop b hlt
    have htop' : (px 1 3 : ℚ) = 0 := by exact_mod_cast htop
    have hk := hclip (px 0 b) (h8 0 b)
    interval_cases b <;>
    simpa [out, vips_combine_pixels3, hn, hpre, blend_layers3_two, hmode,
      vips_composite_blend3, set_lane, set_band, hvec, e3, e2, hbot', htop', UCHAR_MAX] using hk


theorem max_band_sRGB (X0 Y0 Z0 : ℚ) (bands : Nat) (mb0 mb : Nat → ℚ)
    (h : vips_composite_max_band X0 Y0 Z0 .sRGB bands mb0 = some mb) (b : Nat)
    (hb : b ≤ bands) : mb b = 255 := by
  simp only [vips_composite_max_band, Option.some.injEq] at h
  subst h
  have : b < bands + 1 := Nat.lt_succ_of_le hb
  simp [set_band, for_bands, this]

/-- C2: a two-layer unpremultiplied 8-bit sRGB stack (limit table of
`vips_composite_max_band` for sRGB, three colour bands) blended with `OVER` over a bottom
pixel of alpha 255, on either path of the tile driver: the output alpha is 255; if the top
pixel has alpha 255 the output colour bands are those of the top pixel; if it has alpha 0
they are those of the bottom pixel. -/
theorem C2_over_on_solid_base (HAVE_VECTOR_ARITH : Bool) (sqrt : ℚ → ℚ) (f0 : v4f)
    (X0 Y0 Z0 : ℚ) (mb0 : Nat → ℚ) (c : VipsComposite) (q : Nat → ℚ) (px : Nat → Nat → ℕ)
    (hn : c.n = 2) (hpre : c.premultiplied = false) (hb : c.bands = 3)
    (hspace : c.compositing_space = .sRGB)
    (htab : vips_composite_max_band X0 Y0 Z0 c.compositing_space c.bands mb0
      = some c.max_band)
    (hvec : ∀ l : Fin 4, c.max_band_vec l = c.max_band l.val)
    (hmode : c.mode 0 = .OVER) (h8 : ∀ i b, px i b ≤ 255) (hbot : px 0 3 = 255) :
    ∃ out, vips_composite_gen_pel HAVE_VECTOR_ARITH sqrt f0 .UCHAR c q
        (fun i b => (px i b : ℚ)) = some out ∧
      out 3 = 255 ∧
      (px 1 3 = 255 → ∀ b, b < 3 → out b = px 1 b) ∧
      (px 1 3 = 0 → ∀ b, b < 3 → out b = px 0 b) := by
  rw [hspace, hb] at htab
  have hmax : ∀ b, b ≤ 3 → c.max_band b = 255 := fun b hb3 => max_band_sRGB _ _ _ _ _ _ htab b hb3
  have hvec255 : ∀ l : Fin 4, c.max_band_vec l = 255 := fun l =>
    (hvec l).trans (hmax l.val (Nat.le_of_lt_succ l.isLt))
  cases HAVE_VECTOR_ARITH
  · exact ⟨_, by simp [vips_composite_gen_pel],
      over_solid_scalar sqrt c q px hn hpre hb hmax hmode h8 hbot⟩
  · exact ⟨_, by simp [vips_composite_gen_pel, hb],
      over_solid_vector sqrt f0 c q px hn hpre hvec255 hmode h8 hbot⟩

theorem px_red_green_le (i b : Nat) : px_red_green i b ≤ 255 := by
  unfold px_red_green
  rcases i with _ | _ | i
  · rcases b with _ | _ | _ | _ | b <;> simp
  · rcases b with _ | _ | _ | _ | b <;> simp
  · simp

/-- C2 at a concrete input: solid green over solid red on the vector path. -/
theorem C2_over_on_solid_base_witness :
    ∃ out, vips_composite_gen_pel true (fun x => x) (fun _ => 0) .UCHAR
        (rgba8 false 2 [.OVER]) (fun _ => 0) (fun i b => (px_red_green i b : ℚ)) = some out ∧
      out 3 = 255 ∧
      (px_red_green 1 3 = 255 → ∀ b, b < 3 → out b = px_red_green 1 b) ∧
      (px_red_green 1 3 = 0 → ∀ b, b < 3 → out b = px_red_green 0 b) :=
  C2_over_on_solid_base true (fun x => x) (fun _ => 0) 0 0 0 (fun _ => 255)
    (rgba8 false 2 [.OVER]) (fun _ => 0) px_red_green rfl rfl rfl rfl rfl (fun _ => rfl) rfl
    px_red_green_le rfl


/-- C3 fails on the code: three images of which image 1 lacks alpha, with blend modes
`[CLEAR, OVER]`. The build step discards image 0 and leaves images 1 and 2 with
`composite->n = 2`; the mode array is left as it was, so the combiner, run on what the build
step hands over, blends image 2 (solid green) onto image 1 (solid red) with
`mode[0] = CLEAR` and writes the empty pixel, where the mode of that pair of images,
`mode[1] = OVER`, gives the green pixel. -/
theorem C3_mode_array_not_shifted :
    vips_composite_build_alpha Prod.snd tag_addalpha [(0, true), (1, false), (2, true)] =
      some (2, [(1, true), (2, true)]) ∧
    (∀ b, b ≤ 3 →
      (vips_composite_build_alpha Prod.snd tag_addalpha
        [(0, true), (1, false), (2, true)]).map (fun r =>
          vips_combine_pixels (fun x => x) .UCHAR 0 UCHAR_MAX
            (rgba8 false r.1 [.CLEAR, .OVER]) (fun _ => 0) (gen_pointers tag_pel r.2) b) =
        some 0) ∧
    vips_combine_pixels (fun x => x) .UCHAR 0 UCHAR_MAX (rgba8 false 2 [.OVER])
      (fun _ => 0) (gen_pointers tag_pel [(1, true), (2, true)]) 1 = 200 := by
  have hbuild : vips_composite_build_alpha Prod.snd tag_addalpha
      [(0, true), (1, false), (2, true)] = some (2, [(1, true), (2, true)]) := by decide
  refine ⟨hbuild, ?_, ?_⟩
  · intro b hb
    have hb4 : b < 4 := Nat.lt_succ_of_le hb
    rw [hbuild]
    interval_cases b <;>
    simp +decide [vips_combine_pixels, combine_accumulate, combine_unpremultiply,
      combine_write, rgba8, blend_layers_two, vips_composite_blend, for_bands, set_band,
      gen_pointers, tag_pel, pel4, vips_composite_max_band, UCHAR_MAX, VIPS_CLIP, VIPS_MIN,
      VIPS_MAX, cast_T]
  · simp +decide [vips_combine_pixels, combine_accumulate, combine_unpremultiply,
      combine_write, rgba8, blend_layers_two, vips_composite_blend, for_bands, set_band,
      gen_pointers, tag_pel, pel4, vips_composite_max_band, UCHAR_MAX, VIPS_CLIP, VIPS_MIN,
      VIPS_MAX, cast_T]

theorem drop_set_self {α : Type} (l : List α) (i : Nat) (x : α) (hi : i < l.length) :
    (l.set i x).drop i = x :: l.drop (i + 1) := by
  have h : i < (l.set i x).length := by simpa using hi
  rw [List.drop_eq_getElem_cons h, List.getElem_set_self, List.drop_set_of_lt x l (Nat.lt_succ_self i)]

theorem build_alpha_loop_highest {Image : Type} (hasalpha : Image → Bool)
    (addalpha : Image → Option Image) (n : Nat) (in_ : List Image) (i : Nat) (x : Image)
    (hi : i < in_.length) (hno : hasalpha in_[i] = false) (hadd : addalpha in_[i] = some x)
    (k : Nat) (hik : i < k) (hk : k ≤ in_.length)
    (habove : ∀ j (hj : j < in_.length), i < j → j < k → hasalpha in_[j] = true) :
    build_alpha_loop hasalpha addalpha n in_ k = some (n - i, x :: in_.drop (i + 1)) := by
  induction k with
  | zero => omega
  | succ k ih =>
    have hk1 : k < in_.length := hk
    rw [build_alpha_loop, List.getElem?_eq_getElem hk1]
    rcases Nat.eq_or_lt_of_le (Nat.le_of_lt_succ hik) with heq | hlt
    · subst heq
      simp [hno, hadd, drop_set_self in_ i x hi]
    · have := habove k hk1 hlt (Nat.lt_succ_self k)
      simp only [this, Bool.not_true, Bool.false_eq_true, if_false]
      exact ih hlt (Nat.le_of_lt hk1) (fun j hj h1 h2 => habove j hj h1 (Nat.lt_succ_of_lt h2))

/-- C4, as amended: when some image lacks an alpha channel, the build step adds an alpha to
the highest (largest-index) image lacking one (every image above it has alpha), makes it the
new bottom layer and discards exactly the layers below it, so `composite->n` becomes the
number of images minus that index. -/
theorem C4_highest_missing_alpha_becomes_base {Image : Type} (vips_image_hasalpha : Image → Bool)
    (vips_addalpha : Image → Option Image) (in_ : List Image) (i : Nat) (x : Image)
    (hi : i < in_.length) (hno : vips_image_hasalpha in_[i] = false)
    (hadd : vips_addalpha in_[i] = some x)
    (habove : ∀ j (hj : j < in_.length), i < j → vips_image_hasalpha in_[j] = true) :
    vips_composite_build_alpha vips_image_hasalpha vips_addalpha in_ =
      some (in_.length - i, x :: in_.drop (i + 1)) :=
  build_alpha_loop_highest vips_image_hasalpha vips_addalpha in_.length in_ i x hi hno hadd
    in_.length hi (Nat.le_refl _) (fun j hj h1 _ => habove j hj h1)

/-- C4 as amended, at a concrete input: of three images the two lowest lack alpha; image 1
becomes the base of a stack of two. -/
theorem C4_highest_missing_alpha_becomes_base_witness :
    vips_composite_build_alpha Prod.snd tag_addalpha [(0, false), (1, false), (2, true)] =
      some (3 - 1, (1, true) :: [(2, true)]) :=
  C4_highest_missing_alpha_becomes_base Prod.snd tag_addalpha
    [(0, false), (1, false), (2, true)] 1 (1, true) (by decide) rfl rfl
    (by
      intro j hj h1
      have hj3 : j < 3 := hj
      have : j = 2 := by omega
      subst this
      rfl)

/-- C4 as stated fails: of two images that both lack alpha, the lowest is image 0, yet the
build step does not keep the stack of `2 - 0` images based on image 0 with alpha added: it
keeps only image 1, with alpha added. -/
theorem C4_lowest_missing_alpha_counterexample :
    Prod.snd ([(0, false), (1, false)] : List (Nat × Bool))[0] = false ∧
    vips_composite_build_alpha Prod.snd tag_addalpha [(0, false), (1, false)] ≠
      some (2 - 0, (0, true) :: [(1, false)]) ∧
    vips_composite_build_alpha Prod.snd tag_addalpha [(0, false), (1, false)] =
      some (1, [(1, true)]) := by
  decide


theorem tdiv_eq_floor_of_nonneg (v : ℚ) (h : 0 ≤ v) : Int.tdiv v.num v.den = ⌊v⌋ := by
  rw [Int.tdiv_eq_ediv (Rat.num_nonneg.mpr h) (Int.natCast_nonneg _)]
  exact (Rat.floor_def' v).symm

theorem tdiv_eq_ceil_of_neg (v : ℚ) (h : v < 0) : Int.tdiv v.num v.den = ⌈v⌉ := by
  have h0 : 0 ≤ -v := by linarith
  have := tdiv_eq_floor_of_nonneg (-v) h0
  rw [Rat.num_neg_eq_neg_num, Rat.neg_den, Int.neg_tdiv] at this
  have e : ⌈v⌉ = -⌊-v⌋ := rfl
  rw [e, ← this]; simp

/-- C5 fails on the code: a single-layer float Lab pixel `(50, -20, 30, 255)` with three
colour bands. With the vector path compiled in, the tile driver instantiates
`vips_combine_pixels3<float, 0, USHRT_MAX>`, which clips to `[0, 65535]`: band 1 is written
as 0, while the final accumulator band times its limit is -20, the value the scalar path
`vips_combine_pixels<float, 0, 0>` writes. -/
theorem C5_float_vector_path_clips :
    (vips_composite_gen_pel true (fun x => x) (fun _ => 0) .FLOAT lab_float1 (fun _ => 0)
      (fun _ => pel4 50 (-20) 30 255)).map (fun out => out 1) = some 0 ∧
    combine_unpremultiply lab_float1
      (combine_accumulate (fun x => x) lab_float1 (fun _ => pel4 50 (-20) 30 255)) 1
      * lab_float1.max_band 1 = -20 ∧
    (vips_composite_gen_pel false (fun x => x) (fun _ => 0) .FLOAT lab_float1 (fun _ => 0)
      (fun _ => pel4 50 (-20) 30 255)).map (fun out => out 1) = some (-20) := by
  have e3 : ((3 : Fin 4) : ℕ) = 3 := rfl
  refine ⟨?_, ?_, ?_⟩
  · simp +decide [vips_composite_gen_pel, lab_float1, vips_combine_pixels3, blend_layers3,
      set_lane, set_band, pel4, vips_composite_max_band, for_bands, USHRT_MAX, VIPS_CLIP,
      VIPS_MIN, VIPS_MAX, cast_T, e3]
  · simp +decide [lab_float1, combine_unpremultiply, combine_accumulate, blend_layers,
      set_band, pel4, vips_composite_max_band, for_bands]
  · simp +decide [vips_composite_gen_pel, lab_float1, vips_combine_pixels,
      combine_unpremultiply, combine_accumulate, combine_write, blend_layers,
      set_band, pel4, vips_composite_max_band, for_bands, cast_T]

theorem abs_as_select (x : ℚ) : |x| = if x > 0 then x else -1 * x := by
  split_ifs with h
  · exact abs_of_pos h
  · rw [abs_of_nonpos (not_lt.mp h)]; ring

set_option maxHeartbeats 4000000 in
/-- C7: with exactly three colour bands plus alpha (and `max_band_vec` holding the first four
limits, as the build step sets it), for each of the 25 blend modes, both settings of
`premultiplied`, every accumulator and every incoming pixel, the vector kernel
`vips_composite_blend3` yields in each of its four lanes the value the scalar kernel
`vips_composite_blend` yields in that band, in exact arithmetic. -/
theorem C7_vector_kernel_equals_scalar (sqrt : ℚ → ℚ) (f0 : v4f) (c : VipsComposite)
    (mode : VipsBlendMode) (B : v4f) (p : Nat → ℚ) (hb : c.bands = 3)
    (hvec : ∀ l : Fin 4, c.max_band_vec l = c.max_band l.val) (l : Fin 4) :
    vips_composite_blend3 sqrt f0 c mode B p l =
      vips_composite_blend sqrt c mode (v4f_array B) p l.val := by
  have e0 := hvec 0
  have e1 := hvec 1
  have e2 := hvec 2
  have e3 := hvec 3
  simp only [Fin.val_zero, Fin.val_one, Fin.val_two, show ((3 : Fin 4) : ℕ) = 3 from rfl]
    at e0 e1 e2 e3
  cases hp : c.premultiplied <;> cases mode <;> fin_cases l <;>
    simp [vips_composite_blend3, vips_composite_blend, v4f_array, set_lane, set_band,
      for_bands, hb, hp, e0, e1, e2, e3, abs_as_select,
      show ((3 : Fin 4) : ℕ) = 3 from rfl]


/-- C7 at a concrete input: `DIFFERENCE` of a half-transparent green pixel onto solid red,
unpremultiplied, lane 1. -/
theorem C7_vector_kernel_equals_scalar_witness :
    vips_composite_blend3 (fun x => x) (fun _ => 0) (rgba8 false 2 [.DIFFERENCE]) .DIFFERENCE
        (fun l => pel4 1 0 0 1 l.val) (pel4 0 255 0 51) 1 =
      vips_composite_blend (fun x => x) (rgba8 false 2 [.DIFFERENCE]) .DIFFERENCE
        (v4f_array (fun l => pel4 1 0 0 1 l.val)) (pel4 0 255 0 51) (1 : Fin 4).val :=
  C7_vector_kernel_equals_scalar (fun x => x) (fun _ => 0) (rgba8 false 2 [.DIFFERENCE])
    .DIFFERENCE (fun l => pel4 1 0 0 1 l.val) (pel4 0 255 0 51) rfl (fun _ => rfl) 1

theorem rgba8_max_band_ne_zero (pm : Bool) (n : Nat) (ms : List VipsBlendMode) (b : Nat)
    (hb : b ≤ (rgba8 pm n ms).bands) : (rgba8 pm n ms).max_band b ≠ 0 := by
  have h : (rgba8 pm n ms).max_band b = 255 :=
    max_band_sRGB 0 0 0 3 (fun _ => 255) _ rfl b hb
  rw [h]; norm_num

theorem uchar_in_range (k : ℕ) (h : k ≤ 255) : in_type_range .UCHAR 0 UCHAR_MAX (k : ℚ) := by
  refine ⟨cast_T_natCast _ k, fun _ => ⟨by positivity, ?_⟩⟩
  have : (k : ℚ) ≤ 255 := by exact_mod_cast h
  simpa [UCHAR_MAX] using this

theorem pel4_uchar_in_range (x0 x1 x2 x3 : ℕ) (h0 : x0 ≤ 255) (h1 : x1 ≤ 255) (h2 : x2 ≤ 255)
    (h3 : x3 ≤ 255) (b : Nat) :
    in_type_range .UCHAR 0 UCHAR_MAX (pel4 x0 x1 x2 x3 b) := by
  rcases b with _ | _ | _ | _ | b
  · exact uchar_in_range x0 h0
  · exact uchar_in_range x1 h1
  · exact uchar_in_range x2 h2
  · exact uchar_in_range x3 h3
  · simpa [pel4] using uchar_in_range 0 (by norm_num)

theorem blend_premultiplied_irrelevant (sqrt : ℚ → ℚ) (c : VipsComposite) (m : VipsBlendMode)
    (B P : Nat → ℚ) (h1 : P c.bands / c.max_band c.bands = 1) :
    vips_composite_blend sqrt { c with premultiplied := false } m B P =
      vips_composite_blend sqrt { c with premultiplied := true } m B P := by
  have key : for_bands c.bands
      (fun b => for_bands (c.bands + 1) (fun b => P b / c.max_band b) (fun _ => 0) b *
        for_bands (c.bands + 1) (fun b => P b / c.max_band b) (fun _ => 0) c.bands)
      (for_bands (c.bands + 1) (fun b => P b / c.max_band b) (fun _ => 0)) =
      for_bands (c.bands + 1) (fun b => P b / c.max_band b) (fun _ => 0) := by
    funext b
    simp only [for_bands, Nat.lt_succ_self, if_true, h1, mul_one]
    split_ifs <;> rfl
  simp only [vips_composite_blend, Bool.not_false, Bool.not_true, if_true, Bool.false_eq_true,
    if_false]
  rw [key]

theorem foldl_invariant {α β : Type} (Inv : α → Prop) (f : α → β → α) (l : List β)
    (hstep : ∀ a b, b ∈ l → Inv a → Inv (f a b)) (a : α) (ha : Inv a) :
    Inv (l.foldl f a) := by
  induction l generalizing a with
  | nil => exact ha
  | cons x xs ih =>
    simp only [List.foldl_cons]
    exact ih (fun a b hb h => hstep a b (List.mem_cons_of_mem _ hb) h) _
      (hstep a x (List.mem_cons_self _ _) ha)

theorem blend_alpha_zero_one (sqrt : ℚ → ℚ) (c : VipsComposite) (m : VipsBlendMode)
    (B P : Nat → ℚ) (h1 : P c.bands / c.max_band c.bands = 1)
    (hB : B c.bands = 0 ∨ B c.bands = 1) :
    vips_composite_blend sqrt c m B P c.bands = 0 ∨
      vips_composite_blend sqrt c m B P c.bands = 1 := by
  rcases hB with hB | hB <;> cases m <;>
    simp [vips_composite_blend, set_band, for_bands, h1, hB, VIPS_MIN]
  norm_num


theorem accumulate_premultiplied_irrelevant (sqrt : ℚ → ℚ) (c : VipsComposite)
    (p : Nat → Nat → ℚ) (hn : 1 ≤ c.n)
    (h1 : ∀ i, i < c.n → p i c.bands / c.max_band c.bands = 1) :
    combine_accumulate sqrt { c with premultiplied := false } p =
      combine_accumulate sqrt { c with premultiplied := true } p := by
  have h0 := h1 0 hn
  have key : for_bands c.bands
      (fun b => for_bands (c.bands + 1) (fun b => p 0 b / c.max_band b) (fun _ => 0) b *
        for_bands (c.bands + 1) (fun b => p 0 b / c.max_band b) (fun _ => 0) c.bands)
      (for_bands (c.bands + 1) (fun b => p 0 b / c.max_band b) (fun _ => 0)) =
      for_bands (c.bands + 1) (fun b => p 0 b / c.max_band b) (fun _ => 0) := by
    funext b
    simp only [for_bands, Nat.lt_succ_self, if_true, h0, mul_one]
    split_ifs <;> rfl
  simp only [combine_accumulate, Bool.not_false, Bool.not_true, if_true, Bool.false_eq_true,
    if_false, blend_layers]
  rw [key]
  apply List.foldl_ext
  intro B i hi
  rw [List.mem_range'_1] at hi
  exact blend_premultiplied_irrelevant sqrt c (c.mode (i - 1)) B (p i) (h1 i (by omega))

theorem accumulate_alpha_zero_one (sqrt : ℚ → ℚ) (c : VipsComposite)
    (p : Nat → Nat → ℚ) (hn : 1 ≤ c.n)
    (h1 : ∀ i, i < c.n → p i c.bands / c.max_band c.bands = 1) :
    combine_accumulate sqrt c p c.bands = 0 ∨ combine_accumulate sqrt c p c.bands = 1 := by
  have h0 := h1 0 hn
  simp only [combine_accumulate, blend_layers]
  apply foldl_invariant (fun B : Nat → ℚ => B c.bands = 0 ∨ B c.bands = 1)
  · intro B i hi hB
    rw [List.mem_range'_1] at hi
    exact blend_alpha_zero_one sqrt c (c.mode (i - 1)) B (p i) (h1 i (by omega)) hB
  · right
    cases c.premultiplied <;> simp [for_bands, h0]

/-- C8, as amended: for a stack in which every layer's alpha equals the (non-zero) alpha
limit, and for every list of blend modes, the combiner's output with `premultiplied` unset
has the same alpha as its output with `premultiplied` set, and the same colour bands
whenever that output alpha is non-zero; when it is 0, the output with `premultiplied` unset
has every colour band 0 (unclipped floating element type, exact arithmetic). -/
theorem C8_premultiplied_irrelevant_when_solid (sqrt : ℚ → ℚ) (c : VipsComposite)
    (q : Nat → ℚ) (p : Nat → Nat → ℚ) (hn : 1 ≤ c.n)
    (hlimit : c.max_band c.bands ≠ 0)
    (halpha : ∀ i, i < c.n → p i c.bands = c.max_band c.bands) (b : Nat)
    (hb : b ≤ c.bands) :
    let out_unpre := vips_combine_pixels sqrt .DOUBLE 0 0 { c with premultiplied := false } q p
    let out_pre := vips_combine_pixels sqrt .DOUBLE 0 0 { c with premultiplied := true } q p
    out_unpre c.bands = out_pre c.bands ∧
    (out_pre c.bands ≠ 0 → out_unpre b = out_pre b) ∧
    (out_pre c.bands = 0 → b < c.bands → out_unpre b = 0) := by
  intro out_unpre out_pre
  have h1 : ∀ i, i < c.n → p i c.bands / c.max_band c.bands = 1 := fun i hi => by
    rw [halpha i hi]; exact div_self hlimit
  have hacc := accumulate_premultiplied_irrelevant sqrt c p hn h1
  have h01 := accumulate_alpha_zero_one sqrt { c with premultiplied := true } p hn h1
  have hlt : b < c.bands + 1 := Nat.lt_succ_of_le hb
  have hpre : ∀ b, b ≤ c.bands → out_pre b =
      combine_accumulate sqrt { c with premultiplied := true } p b * c.max_band b := by
    intro b hb
    have hlt : b < c.bands + 1 := Nat.lt_succ_of_le hb
    simp [out_pre, vips_combine_pixels, combine_write, combine_unpremultiply, for_bands, hlt,
      cast_T]
  have hunpre_alpha : out_unpre c.bands =
      combine_accumulate sqrt { c with premultiplied := true } p c.bands * c.max_band c.bands := by
    simp only [out_unpre, vips_combine_pixels, hacc]
    simp [combine_write, combine_unpremultiply, for_bands, cast_T]
    split_ifs <;> simp [for_bands]
  refine ⟨by rw [hunpre_alpha, hpre c.bands (Nat.le_refl _)], ?_, ?_⟩
  · intro hne
    rw [hpre c.bands (Nat.le_refl _)] at hne
    have hA1 : combine_accumulate sqrt { c with premultiplied := true } p c.bands = 1 := by
      rcases h01 with h | h
      · rw [h] at hne; simp at hne
      · exact h
    rw [hpre b hb]
    simp only [out_unpre, vips_combine_pixels, hacc]
    simp [combine_write, combine_unpremultiply, for_bands, cast_T, hlt, hA1]
  · intro hz hbl
    rw [hpre c.bands (Nat.le_refl _)] at hz
    have hA0 : combine_accumulate sqrt { c with premultiplied := true } p c.bands = 0 := by
      rcases mul_eq_zero.mp hz with h | h
      · exact h
      · exact absurd h hlimit
    simp only [out_unpre, vips_combine_pixels, hacc]
    simp [combine_write, combine_unpremultiply, for_bands, cast_T, hlt, hA0, hbl]

/-- C8 as amended, at a concrete input: solid green over solid red with `OVER`, band 1. -/
theorem C8_premultiplied_irrelevant_when_solid_witness :
    vips_combine_pixels (fun x => x) .DOUBLE 0 0
        { rgba8 false 2 [.OVER] with premultiplied := false } (fun _ => 0)
        (fun i b => (px_red_green i b : ℚ)) 3 =
      vips_combine_pixels (fun x => x) .DOUBLE 0 0
        { rgba8 false 2 [.OVER] with premultiplied := true } (fun _ => 0)
        (fun i b => (px_red_green i b : ℚ)) 3 :=
  (C8_premultiplied_irrelevant_when_solid (fun x => x) (rgba8 false 2 [.OVER]) (fun _ => 0)
    (fun i b => (px_red_green i b : ℚ)) (by decide)
    (rgba8_max_band_ne_zero false 2 [.OVER] 3 (Nat.le_refl _))
    (fun i hi => by
      have hi2 : i < 2 := hi
      have e : (rgba8 false 2 [.OVER]).max_band (rgba8 false 2 [.OVER]).bands = 255 :=
        max_band_sRGB 0 0 0 3 (fun _ => 255) _ rfl 3 (Nat.le_refl _)
      rw [e]
      interval_cases i <;> simp [px_red_green, rgba8])
    3 (Nat.le_refl _)).1

/-- C8 as stated fails: solid green over solid red with `OUT` on an unclipped floating type;
every alpha equals the limit 255, yet band 1 of the output is 0 with `premultiplied` unset
and 200 with `premultiplied` set. -/
theorem C8_out_counterexample :
    (px_red_green 0 3 = 255 ∧ px_red_green 1 3 = 255) ∧
    vips_combine_pixels (fun x => x) .DOUBLE 0 0 (rgba8 false 2 [.OUT]) (fun _ => 0)
      (fun i b => (px_red_green i b : ℚ)) 1 = 0 ∧
    vips_combine_pixels (fun x => x) .DOUBLE 0 0 (rgba8 true 2 [.OUT]) (fun _ => 0)
      (fun i b => (px_red_green i b : ℚ)) 1 = 200 := by
  refine ⟨by decide, ?_, ?_⟩
  · simp +decide [vips_combine_pixels, combine_accumulate, combine_unpremultiply,
      combine_write, rgba8, blend_layers_two, vips_composite_blend, for_bands, px_red_green,
      vips_composite_max_band, set_band, cast_T]
  · simp +decide [vips_combine_pixels, combine_accumulate, combine_unpremultiply,
      combine_write, rgba8, blend_layers_two, vips_composite_blend, for_bands, px_red_green,
      vips_composite_max_band, set_band, cast_T]

theorem blend_layers_last (sqrt : ℚ → ℚ) (c : VipsComposite) (p : Nat → Nat → ℚ)
    (k : Nat) (B : Nat → ℚ) :
    blend_layers sqrt c p (k + 2) B =
      vips_composite_blend sqrt c (c.mode k) (blend_layers sqrt c p (k + 1) B) (p (k + 1)) := by
  simp only [blend_layers, Nat.add_sub_cancel]
  rw [show k + 2 - 1 = k + 1 from rfl, List.range'_concat, List.foldl_append]
  simp [Nat.add_comm]

theorem write_in_range (T : VipsBandFormat) (min_T max_T : ℤ) (c : VipsComposite)
    (B q : Nat → ℚ) (b : Nat) (hb : b ≤ c.bands) (v : ℚ) (hv : B b * c.max_band b = v)
    (hr : in_type_range T min_T max_T v) :
    combine_write T min_T max_T c B q b = v := by
  have hlt : b < c.bands + 1 := Nat.lt_succ_of_le hb
  simp only [combine_write, for_bands, hlt, if_true, hv]
  by_cases hne : min_T ≠ 0 ∨ max_T ≠ 0
  · rw [if_pos hne, VIPS_CLIP_of_mem (hr.2 hne).1 (hr.2 hne).2, hr.1]
  · rw [if_neg hne, hr.1]

theorem in_type_range_zero (T : VipsBandFormat) (min_T max_T : ℤ) (h1 : min_T ≤ 0)
    (h2 : 0 ≤ max_T) : in_type_range T min_T max_T 0 := by
  refine ⟨?_, fun _ => ⟨by exact_mod_cast h1, by exact_mod_cast h2⟩⟩
  simpa using cast_T_intCast T 0

theorem blend_layers3_last (sqrt : ℚ → ℚ) (f0 : v4f) (c : VipsComposite)
    (p : Nat → Nat → ℚ) (k : Nat) (B : v4f) :
    blend_layers3 sqrt f0 c p (k + 2) B =
      vips_composite_blend3 sqrt f0 c (c.mode k) (blend_layers3 sqrt f0 c p (k + 1) B)
        (p (k + 1)) := by
  simp only [blend_layers3, Nat.add_sub_cancel]
  rw [show k + 2 - 1 = k + 1 from rfl, List.range'_concat, List.foldl_append]
  simp [Nat.add_comm]

theorem combine_pixels_zero (sqrt : ℚ → ℚ) (T : VipsBandFormat) (min_T max_T : ℤ)
    (c : VipsComposite) (q : Nat → ℚ) (p : Nat → Nat → ℚ)
    (h0 : in_type_range T min_T max_T 0)
    (hz : combine_accumulate sqrt c p c.bands = 0)
    (h : c.premultiplied = false ∨ ∀ b, b < c.bands → combine_accumulate sqrt c p b = 0)
    (b : Nat) (hb : b ≤ c.bands) :
    vips_combine_pixels sqrt T min_T max_T c q p b = 0 := by
  unfold vips_combine_pixels
  apply write_in_range T min_T max_T c _ q b hb 0 _ h0
  rcases Nat.eq_or_lt_of_le hb with heq | hlt
  · subst heq
    cases hp : c.premultiplied <;> simp [combine_unpremultiply, hp, hz, for_bands]
  · cases hp : c.premultiplied
    · simp [combine_unpremultiply, hp, hz, for_bands, hlt]
    · rcases h with h | h
      · rw [hp] at h; cases h
      · simp [combine_unpremultiply, hp, h b hlt]

theorem combine_pixels3_eq (sqrt : ℚ → ℚ) (f0 : v4f) (T : VipsBandFormat) (min_T max_T : ℤ)
    (c : VipsComposite) (q : Nat → ℚ) (p : Nat → Nat → ℚ) :
    vips_combine_pixels3 sqrt f0 T min_T max_T c q p =
      (let B := combine_accumulate3 sqrt f0 c p
       let B : v4f :=
        if !c.premultiplied then
          let aR := B 3
          if aR = 0 then set_lane (set_lane (set_lane B 0 0) 1 0) 2 0
          else set_lane (fun l => B l / aR) 3 aR
        else B
       let B : v4f := fun l => B l * c.max_band_vec l
       let B : v4f :=
        if min_T ≠ 0 ∨ max_T ≠ 0 then fun l => VIPS_CLIP min_T (B l) max_T else B
       set_band (set_band (set_band (set_band q 0 (cast_T T (B 0))) 1 (cast_T T (B 1)))
        2 (cast_T T (B 2))) 3 (cast_T T (B 3))) := rfl

theorem combine_pixels3_zero (sqrt : ℚ → ℚ) (f0 : v4f) (T : VipsBandFormat)
    (min_T max_T : ℤ) (c : VipsComposite) (q : Nat → ℚ) (p : Nat → Nat → ℚ)
    (h0 : in_type_range T min_T max_T 0)
    (hz : combine_accumulate3 sqrt f0 c p 3 = 0)
    (h : c.premultiplied = false ∨ ∀ l, combine_accumulate3 sqrt f0 c p l = 0)
    (b : Nat) (hb : b ≤ 3) :
    vips_combine_pixels3 sqrt f0 T min_T max_T c q p b = 0 := by
  have hb4 : b < 4 := Nat.lt_succ_of_le hb
  have hclip : (min_T ≠ 0 ∨ max_T ≠ 0) → cast_T T (VIPS_CLIP min_T 0 max_T) = 0 := by
    intro hne
    rw [VIPS_CLIP_of_mem (h0.2 hne).1 (h0.2 hne).2, h0.1]
  have hcast : cast_T T 0 = 0 := h0.1
  rw [combine_pixels3_eq]
  cases hp : c.premultiplied
  · by_cases hne : min_T ≠ 0 ∨ max_T ≠ 0
    · have hc := hclip hne
      interval_cases b <;> simp [hz, set_lane, set_band, hne, hc]
    · interval_cases b <;> simp [hz, set_lane, set_band, hne, hcast]
  · rcases h with h | h
    · rw [hp] at h; cases h
    · by_cases hne : min_T ≠ 0 ∨ max_T ≠ 0
      · have hc := hclip hne
        interval_cases b <;> simp [h, set_band, hne, hc]
      · interval_cases b <;> simp [h, set_band, hne, hcast]

theorem accumulate_clear (sqrt : ℚ → ℚ) (c : VipsComposite) (p : Nat → Nat → ℚ)
    (hn : 2 ≤ c.n) (hclear : c.mode (c.n - 2) = .CLEAR) (b : Nat) (hb : b ≤ c.bands) :
    combine_accumulate sqrt c p b = 0 := by
  obtain ⟨k, hk⟩ : ∃ k, c.n = k + 2 := ⟨c.n - 2, by omega⟩
  have e1 : c.n - 2 = k := by omega
  rw [e1] at hclear
  rcases Nat.eq_or_lt_of_le hb with heq | hlt
  · subst heq
    simp [combine_accumulate, hk, blend_layers_last, hclear, vips_composite_blend, set_band]
  · have hne : b ≠ c.bands := Nat.ne_of_lt hlt
    simp [combine_accumulate, hk, blend_layers_last, hclear, vips_composite_blend, set_band,
      for_bands, hne, hlt]

theorem accumulate3_clear (sqrt : ℚ → ℚ) (f0 : v4f) (c : VipsComposite) (p : Nat → Nat → ℚ)
    (hn : 2 ≤ c.n) (hclear : c.mode (c.n - 2) = .CLEAR) (l : Fin 4) :
    combine_accumulate3 sqrt f0 c p l = 0 := by
  obtain ⟨k, hk⟩ : ∃ k, c.n = k + 2 := ⟨c.n - 2, by omega⟩
  have e1 : c.n - 2 = k := by omega
  rw [e1] at hclear
  fin_cases l <;>
    simp [combine_accumulate3, hk, blend_layers3_last, hclear, vips_composite_blend3, set_lane]

theorem gen_pel_cases (HAVE_VECTOR_ARITH : Bool) (sqrt : ℚ → ℚ) (f0 : v4f)
    (fmt : VipsBandFormat) (c : VipsComposite) (q : Nat → ℚ) (p : Nat → Nat → ℚ)
    (hfmt : fmt ≠ .COMPLEX ∧ fmt ≠ .DPCOMPLEX) :
    ∃ T min_T max_T, (min_T ≤ 0 ∧ 0 ≤ max_T) ∧
      (vips_composite_gen_pel HAVE_VECTOR_ARITH sqrt f0 fmt c q p =
          some (vips_combine_pixels sqrt T min_T max_T c q p) ∨
        (c.bands = 3 ∧ vips_composite_gen_pel HAVE_VECTOR_ARITH sqrt f0 fmt c q p =
          some (vips_combine_pixels3 sqrt f0 T min_T max_T c q p))) := by
  obtain ⟨h1, h2⟩ := hfmt
  by_cases hv : HAVE_VECTOR_ARITH = true ∧ c.bands = 3
  · cases fmt
    · exact ⟨.UCHAR, 0, UCHAR_MAX, by decide, Or.inr ⟨hv.2, by simp [vips_composite_gen_pel, hv]⟩⟩
    · exact ⟨.CHAR, SCHAR_MIN, SCHAR_MAX, by decide, Or.inl (by simp [vips_composite_gen_pel])⟩
    · exact ⟨.USHORT, 0, USHRT_MAX, by decide, Or.inr ⟨hv.2, by simp [vips_composite_gen_pel, hv]⟩⟩
    · exact ⟨.SHORT, SHRT_MIN, SHRT_MAX, by decide, Or.inl (by simp [vips_composite_gen_pel])⟩
    · exact ⟨.UINT, 0, UINT_MAX, by decide, Or.inl (by simp [vips_composite_gen_pel])⟩
    · exact ⟨.INT, INT_MIN, INT_MAX, by decide, Or.inl (by simp [vips_composite_gen_pel])⟩
    · exact ⟨.FLOAT, 0, USHRT_MAX, by decide, Or.inr ⟨hv.2, by simp [vips_composite_gen_pel, hv]⟩⟩
    · exact absurd rfl h1
    · exact ⟨.DOUBLE, 0, 0, by decide, Or.inl (by simp [vips_composite_gen_pel])⟩
    · exact absurd rfl h2
  · cases fmt
    · exact ⟨.UCHAR, 0, UCHAR_MAX, by decide, Or.inl (by simp [vips_composite_gen_pel, hv])⟩
    · exact ⟨.CHAR, SCHAR_MIN, SCHAR_MAX, by decide, Or.inl (by simp [vips_composite_gen_pel])⟩
    · exact ⟨.USHORT, 0, USHRT_MAX, by decide, Or.inl (by simp [vips_composite_gen_pel, hv])⟩
    · exact ⟨.SHORT, SHRT_MIN, SHRT_MAX, by decide, Or.inl (by simp [vips_composite_gen_pel])⟩
    · exact ⟨.UINT, 0, UINT_MAX, by decide, Or.inl (by simp [vips_composite_gen_pel])⟩
    · exact ⟨.INT, INT_MIN, INT_MAX, by decide, Or.inl (by simp [vips_composite_gen_pel])⟩
    · exact ⟨.FLOAT, 0, 0, by decide, Or.inl (by simp [vips_composite_gen_pel, hv])⟩
    · exact absurd rfl h1
    · exact ⟨.DOUBLE, 0, 0, by decide, Or.inl (by simp [vips_composite_gen_pel])⟩
    · exact absurd rfl h2

/-- C11: the scalar kernel with `VIPS_BLEND_MODE_CLEAR` sets the result alpha to 0 and every
non-alpha band to 0; consequently, for a stack of `n >= 2` layers whose last blend mode is
`CLEAR`, the tile driver writes 0 to every band of the output pixel, alpha included, for
both settings of `premultiplied`, every supported element type and either path. -/
theorem C11_clear_gives_empty_pixel (HAVE_VECTOR_ARITH : Bool) (sqrt : ℚ → ℚ) (f0 : v4f)
    (fmt : VipsBandFormat) (c : VipsComposite) (q : Nat → ℚ) (p : Nat → Nat → ℚ)
    (hn : 2 ≤ c.n) (hclear : c.mode (c.n - 2) = .CLEAR)
    (hfmt : fmt ≠ .COMPLEX ∧ fmt ≠ .DPCOMPLEX) :
    (∀ B P : Nat → ℚ, vips_composite_blend sqrt c .CLEAR B P c.bands = 0 ∧
      ∀ b, b < c.bands → vips_composite_blend sqrt c .CLEAR B P b = 0) ∧
    ∃ out, vips_composite_gen_pel HAVE_VECTOR_ARITH sqrt f0 fmt c q p = some out ∧
      ∀ b, b ≤ c.bands → out b = 0 := by
  constructor
  · intro B P
    refine ⟨by simp [vips_composite_blend, set_band], fun b hb => ?_⟩
    have hne : b ≠ c.bands := Nat.ne_of_lt hb
    simp [vips_composite_blend, set_band, for_bands, hne, hb]
  · obtain ⟨T, min_T, max_T, ⟨h1, h2⟩, hcase⟩ :=
      gen_pel_cases HAVE_VECTOR_ARITH sqrt f0 fmt c q p hfmt
    have h0 := in_type_range_zero T min_T max_T h1 h2
    rcases hcase with hs | ⟨hb3, hv⟩
    · refine ⟨_, hs, fun b hb => ?_⟩
      exact combine_pixels_zero sqrt T min_T max_T c q p h0
        (accumulate_clear sqrt c p hn hclear c.bands (Nat.le_refl _))
        (Or.inr fun b hb => accumulate_clear sqrt c p hn hclear b (Nat.le_of_lt hb)) b hb
    · refine ⟨_, hv, fun b hb => ?_⟩
      exact combine_pixels3_zero sqrt f0 T min_T max_T c q p h0
        (accumulate3_clear sqrt f0 c p hn hclear 3)
        (Or.inr fun l => accumulate3_clear sqrt f0 c p hn hclear l) b (hb3 ▸ hb)

/-- C11 at a concrete input: solid green over solid red with `CLEAR`, 8-bit, on the vector
path. -/
theorem C11_clear_gives_empty_pixel_witness :
    ∃ out, vips_composite_gen_pel true (fun x => x) (fun _ => 0) .UCHAR
        (rgba8 false 2 [.CLEAR]) (fun _ => 7) (fun i b => (px_red_green i b : ℚ)) = some out ∧
      ∀ b, b ≤ (rgba8 false 2 [.CLEAR]).bands → out b = 0 :=
  (C11_clear_gives_empty_pixel true (fun x => x) (fun _ => 0) .UCHAR (rgba8 false 2 [.CLEAR])
    (fun _ => 7) (fun i b => (px_red_green i b : ℚ)) (by decide) rfl (by decide)).2

theorem max_band_ne_zero (X0 Y0 Z0 : ℚ) (space : VipsInterpretation) (bands : Nat)
    (mb0 mb : Nat → ℚ) (hX : X0 ≠ 0) (hY : Y0 ≠ 0) (hZ : Z0 ≠ 0)
    (h : vips_composite_max_band X0 Y0 Z0 space bands mb0 = some mb) (b : Nat)
    (hb : b ≤ bands) : mb b ≠ 0 := by
  have hlt : b < bands + 1 := Nat.lt_succ_of_le hb
  simp only [vips_composite_max_band] at h
  cases space <;> simp at h <;> subst h <;>
    simp only [set_band, for_bands, hlt, if_true] <;> split_ifs <;> norm_num <;> assumption

theorem blend_divisors_ne_zero (c : VipsComposite) (mode : VipsBlendMode) (p : Nat → ℚ)
    (hmax : ∀ b, b ≤ c.bands → c.max_band b ≠ 0) :
    ∀ d ∈ blend_divisors c mode p, d ≠ 0 := by
  intro d hd
  simp only [blend_divisors, List.mem_append, List.mem_map, List.mem_range,
    List.mem_flatten] at hd
  rcases hd with ⟨b, hb, rfl⟩ | ⟨l, ⟨b, _, rfl⟩, hd⟩
  · exact hmax b (Nat.le_of_lt_succ hb)
  · cases mode <;> simp only [blend_f_divisors, List.not_mem_nil] at hd
    · split_ifs at hd with h
      · simp only [List.mem_singleton] at hd
        rw [hd]; linarith
      · simp at hd
    · split_ifs at hd with h
      · simp only [List.mem_singleton] at hd
        rw [hd]; exact ne_of_gt h
      · simp at hd

theorem unpremultiply_divisors_ne_zero (c : VipsComposite) (B : Nat → ℚ) :
    ∀ d ∈ unpremultiply_divisors c B, d ≠ 0 := by
  intro d hd
  unfold unpremultiply_divisors at hd
  cases hp : c.premultiplied
  · simp only [hp, Bool.not_false, if_true] at hd
    split_ifs at hd with h
    · simp at hd
    · simp only [List.mem_map, List.mem_range] at hd
      obtain ⟨_, _, rfl⟩ := hd
      exact h
  · simp [hp] at hd

theorem combine_divisors_ne_zero (sqrt : ℚ → ℚ) (c : VipsComposite) (p : Nat → Nat → ℚ)
    (hmax : ∀ b, b ≤ c.bands → c.max_band b ≠ 0) :
    ∀ d ∈ combine_divisors sqrt c p, d ≠ 0 := by
  intro d hd
  simp only [combine_divisors, List.mem_append] at hd
  rcases hd with hd | hd
  · revert d
    apply foldl_invariant (fun s : (Nat → ℚ) × List ℚ => ∀ d ∈ s.2, d ≠ 0)
    · intro s i _ hs d hd
      simp only [List.mem_append] at hd
      rcases hd with hd | hd
      · exact hs d hd
      · exact blend_divisors_ne_zero c _ _ hmax d hd
    · intro d hd
      simp only [List.mem_map, List.mem_range] at hd
      obtain ⟨b, hb, rfl⟩ := hd
      exact hmax b (Nat.le_of_lt_succ hb)
  · exact unpremultiply_divisors_ne_zero c _ d hd

theorem combine_divisors_accumulator (sqrt : ℚ → ℚ) (c : VipsComposite) (p : Nat → Nat → ℚ)
    (B : Nat → ℚ) (ds : List ℚ) (l : List Nat) :
    (l.foldl (fun (s : (Nat → ℚ) × List ℚ) i =>
        (vips_composite_blend sqrt c (c.mode (i - 1)) s.1 (p i),
          s.2 ++ blend_divisors c (c.mode (i - 1)) (p i))) (B, ds)).1 =
      l.foldl (fun B i => vips_composite_blend sqrt c (c.mode (i - 1)) B (p i)) B := by
  induction l generalizing B ds with
  | nil => rfl
  | cons i rest ih => simp only [List.foldl_cons]; exact ih _ _

/-- C13: with the limit table computed by `vips_composite_max_band` for a supported space
(whose entries are all non-zero, the D65 constants being non-zero), for every stack, every
blend mode and both settings of `premultiplied`, every division executed by the combiner and
the scalar kernel (by `max_band[b]`, `B / (1 - A)` in colour dodge, `(1 - B) / A` in colour
burn, by `aR` when unpremultiplying, which is done on the accumulator the combiner folds)
has a non-zero divisor; in colour dodge `f` is 1 when `A >= 1` and in colour burn `f` is 0
when `A <= 0`, with no division, `f` being the value the kernel combines into the band. -/
theorem C13_no_division_by_zero (sqrt : ℚ → ℚ) (X0 Y0 Z0 : ℚ) (mb0 : Nat → ℚ)
    (c : VipsComposite) (p : Nat → Nat → ℚ) (hX : X0 ≠ 0) (hY : Y0 ≠ 0) (hZ : Z0 ≠ 0)
    (htab : vips_composite_max_band X0 Y0 Z0 c.compositing_space c.bands mb0 =
      some c.max_band) :
    (∀ b, b ≤ c.bands → c.max_band b ≠ 0) ∧
    (∀ d ∈ combine_divisors sqrt c p, d ≠ 0) ∧
    (∀ mode P, ∀ d ∈ blend_divisors c mode P, d ≠ 0) ∧
    (∃ ds, combine_divisors sqrt c p =
      ds ++ unpremultiply_divisors c (combine_accumulate sqrt c p)) ∧
    (∀ A B : ℚ, 1 ≤ A →
      blend_f sqrt .COLOUR_DODGE A B = 1 ∧ blend_f_divisors .COLOUR_DODGE A = []) ∧
    (∀ A B : ℚ, A ≤ 0 →
      blend_f sqrt .COLOUR_BURN A B = 0 ∧ blend_f_divisors .COLOUR_BURN A = []) ∧
    (∀ mode, mode = .COLOUR_DODGE ∨ mode = .COLOUR_BURN → ∀ (B P : Nat → ℚ) b, b < c.bands →
      vips_composite_blend sqrt c mode B P b =
        (1 - B c.bands) * blend_load c P b + (1 - blend_load c P c.bands) * B b +
          blend_load c P c.bands * B c.bands *
            blend_f sqrt mode (blend_load c P b) (B b)) := by
  have hmax : ∀ b, b ≤ c.bands → c.max_band b ≠ 0 := fun b hb =>
    max_band_ne_zero X0 Y0 Z0 _ _ mb0 _ hX hY hZ htab b hb
  refine ⟨hmax, combine_divisors_ne_zero sqrt c p hmax,
    fun mode P => blend_divisors_ne_zero c mode P hmax,
    ⟨_, by
      simp only [combine_divisors, combine_accumulate, blend_layers]
      rw [combine_divisors_accumulator]⟩, ?_, ?_, ?_⟩
  · intro A B hA
    have : ¬ A < 1 := not_lt.mpr hA
    simp [blend_f, blend_f_divisors, this]
  · intro A B hA
    have : ¬ A > 0 := not_lt.mpr hA
    simp [blend_f, blend_f_divisors, this]
  · intro mode hmode B P b hb
    have hne : b ≠ c.bands := Nat.ne_of_lt hb
    have hlt : b < c.bands + 1 := Nat.lt_succ_of_lt hb
    rcases hmode with rfl | rfl <;> cases hp : c.premultiplied <;>
      simp [vips_composite_blend, blend_load, blend_f, set_band, for_bands, hp, hne, hlt, hb]

/-- C13 at a concrete input: 8-bit sRGB, colour dodge with `A = 1`: the blend function is 1
and no division is executed. -/
theorem C13_no_division_by_zero_witness :
    blend_f (fun x => x) .COLOUR_DODGE 1 0 = 1 ∧ blend_f_divisors .COLOUR_DODGE 1 = [] :=
  (C13_no_division_by_zero (fun x => x) 1 1 1 (fun _ => 255) (rgba8 false 2 [.COLOUR_DODGE])
    (fun i b => (px_red_green i b : ℚ)) one_ne_zero one_ne_zero one_ne_zero rfl).2.2.2.2.1
    1 0 (le_refl 1)

/-- C14 fails on the code: a two-layer unpremultiplied stack of double pixels blended with
`VIPS_BLEND_MODE_IN`, bottom pixel `(0, 0, 0, 51)` and top pixel `(100, 50, 25, 255)`, sRGB
limits. The output alpha is `aA * aB` scaled by the limit, 51, but output band 0 is 500, the
top band divided by `aB`, not the top band 100 of the canonical "A in B": the kernel stores
the premultiplied `A[b]` without the factor `aB`. -/
theorem C14_in_colour_not_canonical :
    vips_combine_pixels (fun x => x) .DOUBLE 0 0 (rgba8 false 2 [.IN]) (fun _ => 0)
      (fun i => if i = 1 then pel4 100 50 25 255 else pel4 0 0 0 51) 3 = 51 ∧
    vips_combine_pixels (fun x => x) .DOUBLE 0 0 (rgba8 false 2 [.IN]) (fun _ => 0)
      (fun i => if i = 1 then pel4 100 50 25 255 else pel4 0 0 0 51) 0 = 500 ∧
    (fun i => if i = 1 then pel4 100 50 25 255 else pel4 0 0 0 51) 1 0 = (100 : ℚ) := by
  refine ⟨?_, ?_, ?_⟩
  · simp +decide [vips_combine_pixels, combine_accumulate, combine_unpremultiply,
      combine_write, rgba8, blend_layers_two, vips_composite_blend, for_bands, pel4,
      vips_composite_max_band, set_band, cast_T]
  · simp +decide [vips_combine_pixels, combine_accumulate, combine_unpremultiply,
      combine_write, rgba8, blend_layers_two, vips_composite_blend, for_bands, pel4,
      vips_composite_max_band, set_band, cast_T]
    norm_num
  · simp [pel4]

/-- C15, as amended: for every supported compositing space and channel count `C`, the limit
table computed by `vips_composite_max_band` has at the alpha index `C` the value 65535 when
the space is 16-bit grey or 16-bit RGB and 255 otherwise, provided the alpha index is not
one of the entries the space overrides with a different channel limit: `C >= 3`, or
`C >= 1` for `B_W`, or the space is `sRGB`, `HSV`, `RGB16` or `GREY16`. -/
theorem C15_alpha_limit (X0 Y0 Z0 : ℚ) (space : VipsInterpretation) (C : Nat)
    (mb0 mb : Nat → ℚ)
    (h : vips_composite_max_band X0 Y0 Z0 space C mb0 = some mb)
    (hC : 3 ≤ C ∨ (space = .B_W ∧ 1 ≤ C) ∨
      (space = .sRGB ∨ space = .HSV ∨ space = .RGB16 ∨ space = .GREY16)) :
    mb C = if space = .GREY16 ∨ space = .RGB16 then 65535 else 255 := by
  simp only [vips_composite_max_band] at h
  rcases hC with hC | ⟨hs, hC⟩ | hs
  · have h0 : C ≠ 0 := by omega
    have h1 : C ≠ 1 := by omega
    have h2 : C ≠ 2 := by omega
    cases space <;> simp at h <;> subst h <;> simp [set_band, for_bands, h0, h1, h2]
  · subst hs
    have h0 : C ≠ 0 := by omega
    simp at h
    subst h
    simp [set_band, for_bands, h0]
  · rcases hs with hs | hs | hs | hs <;> subst hs <;> simp at h <;> subst h <;>
      simp [set_band, for_bands]

/-- C15 as amended, at a concrete input: Lab with three colour channels. -/
theorem C15_alpha_limit_witness :
    (vips_composite_max_band 0 0 0 .LAB 3 (fun _ => 0)).getD (fun _ => 0) 3 =
      if VipsInterpretation.LAB = .GREY16 ∨ VipsInterpretation.LAB = .RGB16 then 65535
      else 255 :=
  C15_alpha_limit 0 0 0 .LAB 3 (fun _ => 0) _ rfl (Or.inl (Nat.le_refl 3))

/-- C15 as stated fails: for the supported space Lab with one colour channel (`C = 1`) the
entry at the alpha index 1 is 128, the limit of Lab's second channel, not 255. -/
theorem C15_alpha_overwritten_counterexample :
    (vips_composite_max_band 0 0 0 .LAB 1 (fun _ => 0)).map (fun mb => mb 1) = some 128 ∧
    (128 : ℚ) ≠ (if VipsInterpretation.LAB = .GREY16 ∨ VipsInterpretation.LAB = .RGB16
      then 65535 else 255) := by
  constructor
  · simp [vips_composite_max_band, set_band, for_bands]
  · simp +decide

theorem build_check_modes_none_iff (l : List Int) (i : Nat) :
    build_check_modes l i = none ↔ ∀ c ∈ l, 0 ≤ c ∧ c < VIPS_BLEND_MODE_LAST := by
  induction l generalizing i with
  | nil => simp [build_check_modes]
  | cons m rest ih =>
    simp only [build_check_modes, List.mem_cons, forall_eq_or_imp]
    by_cases h : m < 0 ∨ m ≥ VIPS_BLEND_MODE_LAST
    · rw [if_pos h]
      constructor
      · intro h0; cases h0
      · rintro ⟨⟨h1, h2⟩, _⟩
        rcases h with h | h <;> omega
    · rw [if_neg h, ih]
      have : 0 ≤ m ∧ m < VIPS_BLEND_MODE_LAST := by
        constructor <;> [exact not_lt.mp (fun h0 => h (Or.inl h0));
          exact not_le.mp (fun h0 => h (Or.inr h0))]
      exact ⟨fun hr => ⟨this, hr⟩, fun hr => hr.2⟩

theorem build_check_modes_first_invalid (l : List Int) (k i : Nat) (hi : i < l.length)
    (hvalid : ∀ j (hj : j < l.length), j < i → 0 ≤ l[j] ∧ l[j] < VIPS_BLEND_MODE_LAST)
    (hbad : l[i] < 0 ∨ l[i] ≥ VIPS_BLEND_MODE_LAST) :
    build_check_modes l k = some (.mode_invalid (k + i) l[i]) := by
  induction l generalizing k i with
  | nil => simp at hi
  | cons m rest ih =>
    cases i with
    | zero =>
      simp only [List.getElem_cons_zero] at hbad
      simp [build_check_modes, hbad]
    | succ i =>
      have h0 := hvalid 0 (by simp) (Nat.succ_pos i)
      simp only [List.getElem_cons_zero] at h0
      have hn : ¬ (m < 0 ∨ m ≥ VIPS_BLEND_MODE_LAST) := by
        rintro (h | h) <;> omega
      simp only [build_check_modes, if_neg hn, List.getElem_cons_succ]
      have hi2 : i < rest.length := by simpa using hi
      have := ih (k + 1) i hi2
        (fun j hj hji => by
          have := hvalid (j + 1) (by simpa using hj) (Nat.succ_lt_succ hji)
          simpa using this)
        (by simpa using hbad)
      rw [this]
      congr 2
      omega

/-- C16: the initial validation of the build step accepts an image count `n` and a blend
mode array exactly when `n >= 1`, the array has `n - 1` entries and every entry `c` has
`0 <= c < VIPS_BLEND_MODE_LAST`; otherwise it fails: with "no input images" when `n <= 0`,
else with the count mismatch, else at the first invalid blend mode. -/
theorem C16_build_validation (n : Int) (mode : List Int) :
    (vips_composite_build_validate n mode = .ok () ↔
      1 ≤ n ∧ (mode.length : Int) = n - 1 ∧
        ∀ c ∈ mode, 0 ≤ c ∧ c < VIPS_BLEND_MODE_LAST) ∧
    (n ≤ 0 → vips_composite_build_validate n mode = .error .no_input_images) ∧
    (0 < n → (mode.length : Int) ≠ n - 1 →
      vips_composite_build_validate n mode = .error (.mode_count n (n - 1))) ∧
    (0 < n → (mode.length : Int) = n - 1 → ∀ i (hi : i < mode.length),
      (∀ j (hj : j < mode.length), j < i → 0 ≤ mode[j] ∧ mode[j] < VIPS_BLEND_MODE_LAST) →
      (mode[i] < 0 ∨ mode[i] ≥ VIPS_BLEND_MODE_LAST) →
      vips_composite_build_validate n mode = .error (.mode_invalid i mode[i])) := by
  have htake : (mode.length : Int) = n - 1 → mode.take (n - 1).toNat = mode := by
    intro h
    apply List.take_of_length_le
    rw [← h]; simp
  refine ⟨?_, ?_, ?_, ?_⟩
  · constructor
    · intro h
      unfold vips_composite_build_validate at h
      by_cases h1 : n ≤ 0
      · simp [h1] at h
      · by_cases h2 : (mode.length : Int) ≠ n - 1
        · simp [h1, h2] at h
        · have h2e : (mode.length : Int) = n - 1 := not_not.mp h2
          rw [if_neg h1, if_neg h2, htake h2e] at h
          cases hc : build_check_modes mode 0 with
          | some e => rw [hc] at h; cases h
          | none => exact ⟨by omega, h2e, (build_check_modes_none_iff mode 0).mp hc⟩
    · rintro ⟨h1, h2, h3⟩
      unfold vips_composite_build_validate
      rw [if_neg (by omega), if_neg (not_not.mpr h2), htake h2,
        (build_check_modes_none_iff mode 0).mpr h3]
  · intro h1
    simp [vips_composite_build_validate, h1]
  · intro h1 h2
    unfold vips_composite_build_validate
    rw [if_neg (by omega), if_pos h2]
  · intro h1 h2 i hi hvalid hbad
    unfold vips_composite_build_validate
    rw [if_neg (by omega), if_neg (not_not.mpr h2), htake h2,
      build_check_modes_first_invalid mode 0 i hi hvalid hbad]
    simp

/-- C16 at a concrete input: three images with blend modes `[2, 25]`; the second mode is
the first invalid one. -/
theorem C16_build_validation_witness :
    vips_composite_build_validate 3 [2, 25] = .error (.mode_invalid 1 25) :=
  (C16_build_validation 3 [2, 25]).2.2.2 (by decide) (by decide) 1 (by decide)
    (fun j hj hj1 => by
      have : j = 0 := by omega
      subst this
      simp [VIPS_BLEND_MODE_LAST])
    (by decide)

theorem all_grey_loop_iff (l : List VipsImage) :
    all_grey_loop l = true ↔ ∀ im ∈ l, im.Bands ≤ 2 := by
  induction l with
  | nil => simp [all_grey_loop]
  | cons im rest ih =>
    simp only [all_grey_loop, List.mem_cons, forall_eq_or_imp]
    by_cases h : im.Bands > 2
    · simp [h]
    · simp only [if_neg h, ih]
      exact ⟨fun hr => ⟨not_lt.mp h, hr⟩, fun hr => hr.2⟩

theorem any_16_loop_iff (l : List VipsImage) :
    any_16_loop l = true ↔ ∃ im ∈ l, im.Type_ = .GREY16 ∨ im.Type_ = .RGB16 := by
  induction l with
  | nil => simp [any_16_loop]
  | cons im rest ih =>
    simp only [any_16_loop, List.mem_cons, exists_eq_or_imp]
    by_cases h : im.Type_ = .GREY16 ∨ im.Type_ = .RGB16
    · simp [h]
    · simp [h, ih]

/-- C17: when the compositing space is not set by the caller, the build step chooses it
from the images of the effective stack: with `all_grey` = every image has at most 2 bands
and `any_16` = some image's interpretation is `GREY16` or `RGB16`, the space is `GREY16` if
`any_16` and `all_grey`, `RGB16` if `any_16` and not `all_grey`, `B_W` if not `any_16` and
`all_grey`, `sRGB` otherwise; when the caller sets the space, it is left unchanged. -/
theorem C17_default_compositing_space (isset : Bool) (compositing_space : VipsInterpretation)
    (in_ : List VipsImage) :
    (isset = true →
      vips_composite_build_space isset compositing_space in_ = compositing_space) ∧
    (isset = false →
      ((∃ im ∈ in_, im.Type_ = .GREY16 ∨ im.Type_ = .RGB16) → (∀ im ∈ in_, im.Bands ≤ 2) →
        vips_composite_build_space isset compositing_space in_ = .GREY16) ∧
      ((∃ im ∈ in_, im.Type_ = .GREY16 ∨ im.Type_ = .RGB16) → ¬ (∀ im ∈ in_, im.Bands ≤ 2) →
        vips_composite_build_space isset compositing_space in_ = .RGB16) ∧
      (¬ (∃ im ∈ in_, im.Type_ = .GREY16 ∨ im.Type_ = .RGB16) → (∀ im ∈ in_, im.Bands ≤ 2) →
        vips_composite_build_space isset compositing_space in_ = .B_W) ∧
      (¬ (∃ im ∈ in_, im.Type_ = .GREY16 ∨ im.Type_ = .RGB16) →
        ¬ (∀ im ∈ in_, im.Bands ≤ 2) →
        vips_composite_build_space isset compositing_space in_ = .sRGB)) := by
  refine ⟨fun h => by simp [vips_composite_build_space, h], fun h => ⟨?_, ?_, ?_, ?_⟩⟩
  · intro h16 hg
    have a := (any_16_loop_iff in_).mpr h16
    have g := (all_grey_loop_iff in_).mpr hg
    simp [vips_composite_build_space, h, a, g]
  · intro h16 hg
    have a := (any_16_loop_iff in_).mpr h16
    have g : all_grey_loop in_ = false := by
      cases hc : all_grey_loop in_
      · rfl
      · exact absurd ((all_grey_loop_iff in_).mp hc) hg
    simp [vips_composite_build_space, h, a, g]
  · intro h16 hg
    have a : any_16_loop in_ = false := by
      cases hc : any_16_loop in_
      · rfl
      · exact absurd ((any_16_loop_iff in_).mp hc) h16
    have g := (all_grey_loop_iff in_).mpr hg
    simp [vips_composite_build_space, h, a, g]
  · intro h16 hg
    have a : any_16_loop in_ = false := by
      cases hc : any_16_loop in_
      · rfl
      · exact absurd ((any_16_loop_iff in_).mp hc) h16
    have g : all_grey_loop in_ = false := by
      cases hc : all_grey_loop in_
      · rfl
      · exact absurd ((all_grey_loop_iff in_).mp hc) hg
    simp [vips_composite_build_space, h, a, g]

/-- C17 at a concrete input: a 16-bit RGB image with alpha over an 8-bit grey image with
alpha, space not set: the space chosen is `RGB16`. -/
theorem C17_default_compositing_space_witness :
    vips_composite_build_space false .LAB
      [⟨2, .B_W, .UCHAR⟩, ⟨4, .RGB16, .USHORT⟩] = .RGB16 :=
  ((C17_default_compositing_space false .LAB
      [⟨2, .B_W, .UCHAR⟩, ⟨4, .RGB16, .USHORT⟩]).2 rfl).2.1
    ⟨⟨4, .RGB16, .USHORT⟩, by simp, Or.inr rfl⟩
    (fun h => by
      have := h ⟨4, .RGB16, .USHORT⟩ (by simp)
      simp at this)

theorem accumulate_two (sqrt : ℚ → ℚ) (c : VipsComposite) (p : Nat → Nat → ℚ)
    (hn : c.n = 2) (hpre : c.premultiplied = false) :
    combine_accumulate sqrt c p =
      vips_composite_blend sqrt c (c.mode 0)
        (for_bands c.bands
          (fun b => for_bands (c.bands + 1) (fun b => p 0 b / c.max_band b) (fun _ => 0) b *
            for_bands (c.bands + 1) (fun b => p 0 b / c.max_band b) (fun _ => 0) c.bands)
          (for_bands (c.bands + 1) (fun b => p 0 b / c.max_band b) (fun _ => 0))) (p 1) := by
  simp only [combine_accumulate, hn, hpre, blend_layers_two, Bool.not_false, if_true]

/-- C19: for a two-layer unpremultiplied stack blended with `VIPS_BLEND_MODE_DIFFERENCE`
whose two layers are the same solid pixel (alpha at its limit), every output colour band is
0 and the output alpha is `aA + aB * (1 - aA)` scaled by the limit, which is the alpha limit
(non-zero limits; 0 and the alpha limit are values of the element type within range). -/
theorem C19_difference_of_equal_layers (sqrt : ℚ → ℚ) (T : VipsBandFormat) (min_T max_T : ℤ)
    (c : VipsComposite) (q : Nat → ℚ) (p : Nat → Nat → ℚ) (hn : c.n = 2)
    (hpre : c.premultiplied = false) (hmode : c.mode 0 = .DIFFERENCE)
    (hmax : ∀ b, b ≤ c.bands → c.max_band b ≠ 0)
    (hsame : ∀ b, b ≤ c.bands → p 1 b = p 0 b)
    (hsolid : p 0 c.bands = c.max_band c.bands)
    (hzero : in_type_range T min_T max_T 0)
    (hlimit : in_type_range T min_T max_T (c.max_band c.bands)) :
    let aA := p 1 c.bands / c.max_band c.bands
    let aB := p 0 c.bands / c.max_band c.bands
    (∀ b, b < c.bands → vips_combine_pixels sqrt T min_T max_T c q p b = 0) ∧
    vips_combine_pixels sqrt T min_T max_T c q p c.bands =
      (aA + aB * (1 - aA)) * c.max_band c.bands ∧
    vips_combine_pixels sqrt T min_T max_T c q p c.bands = c.max_band c.bands := by
  intro aA aB
  have hma := hmax c.bands (Nat.le_refl _)
  have hB1 : p 0 c.bands / c.max_band c.bands = 1 := by rw [hsolid]; exact div_self hma
  have hA1 : p 1 c.bands / c.max_band c.bands = 1 := by
    rw [hsame c.bands (Nat.le_refl _)]; exact hB1
  have hacc := accumulate_two sqrt c p hn hpre
  have halpha : combine_accumulate sqrt c p c.bands = 1 := by
    rw [hacc, hmode]
    simp [vips_composite_blend, set_band, for_bands, hA1, hB1]
  have hcol : ∀ b, b < c.bands → combine_accumulate sqrt c p b = 0 := by
    intro b hb
    have hne : b ≠ c.bands := Nat.ne_of_lt hb
    have hlt : b < c.bands + 1 := Nat.lt_succ_of_lt hb
    rw [hacc, hmode]
    simp [vips_composite_blend, set_band, for_bands, hA1, hB1, hsame b (Nat.le_of_lt hb),
      hpre, hne, hlt, hb]
  have hout : vips_combine_pixels sqrt T min_T max_T c q p c.bands = c.max_band c.bands := by
    unfold vips_combine_pixels
    apply write_in_range T min_T max_T c _ q c.bands (Nat.le_refl _) _ _ hlimit
    simp [combine_unpremultiply, hpre, halpha, for_bands]
  refine ⟨fun b hb => ?_, ?_, hout⟩
  · unfold vips_combine_pixels
    apply write_in_range T min_T max_T c _ q b (Nat.le_of_lt hb) _ _ hzero
    simp [combine_unpremultiply, hpre, halpha, for_bands, hb, hcol b hb]
  · rw [hout]
    simp [aA, aB, hA1, hB1]

/-- C19 at a concrete input: the difference of the solid 8-bit pixel `(10, 20, 30, 255)`
with itself; band 1 of the output is 0. -/
theorem C19_difference_of_equal_layers_witness :
    vips_combine_pixels (fun x => x) .UCHAR 0 UCHAR_MAX (rgba8 false 2 [.DIFFERENCE])
      (fun _ => 7) (fun _ => pel4 10 20 30 255) 1 = 0 :=
  (C19_difference_of_equal_layers (fun x => x) .UCHAR 0 UCHAR_MAX
    (rgba8 false 2 [.DIFFERENCE]) (fun _ => 7) (fun _ => pel4 10 20 30 255) rfl rfl rfl
    (rgba8_max_band_ne_zero false 2 [.DIFFERENCE]) (fun _ _ => rfl)
    (by
      have e := max_band_sRGB 0 0 0 3 (fun _ => 255) _ rfl 3 (Nat.le_refl _)
      rw [show (rgba8 false 2 [.DIFFERENCE]).max_band (rgba8 false 2 [.DIFFERENCE]).bands
        = 255 from e]
      simp [pel4, rgba8])
    (in_type_range_zero .UCHAR 0 UCHAR_MAX (by decide) (by decide))
    (by
      have e := max_band_sRGB 0 0 0 3 (fun _ => 255) _ rfl 3 (Nat.le_refl _)
      rw [show (rgba8 false 2 [.DIFFERENCE]).max_band (rgba8 false 2 [.DIFFERENCE]).bands
        = 255 from e]
      simpa using uchar_in_range 255 (by norm_num))).1 1 (by decide)

theorem blend_switch_fin :
    ∀ k : Fin 25, (blend_switch (k.val : Int)).map VipsBlendMode.toCode = some (k.val : Int) := by
  decide

theorem blend_switch_of_valid (c : Int) (h0 : 0 ≤ c) (h1 : c < VIPS_BLEND_MODE_LAST) :
    ∃ m, blend_switch c = some m ∧ m.toCode = c := by
  have h2 : c < 25 := h1
  have hk := blend_switch_fin ⟨c.toNat, by omega⟩
  have hc : ((c.toNat : Nat) : Int) = c := Int.toNat_of_nonneg h0
  simp only [hc] at hk
  cases hs : blend_switch c with
  | none => rw [hs] at hk; cases hk
  | some m =>
    rw [hs] at hk
    exact ⟨m, rfl, by simpa using hk⟩

/-- C20: for a blend mode array that passes the validation of the build step (every code in
`0 .. VIPS_BLEND_MODE_LAST - 1`) and an effective stack size `n'` no larger than the image
count, every blend mode the combiner reads (`m[i - 1]`, `1 <= i < n'`) lies within the array
and is matched by one of the explicit `case` labels of the kernel, so the inner `default:`
(`g_assert_not_reached()`) is not reached. -/
theorem C20_blend_mode_always_matched (sqrt : ℚ → ℚ) (composite : VipsComposite) (n : Int)
    (mode : List Int) (hvalid : vips_composite_build_validate n mode = .ok ())
    (hn : (composite.n : Int) ≤ n) (B : Nat → ℚ) (p : Nat → ℚ) :
    ∀ x ∈ combine_modes mode composite.n, ∃ c m, x = some c ∧
      blend_switch c = some m ∧ m.toCode = c ∧
      vips_composite_blend_code sqrt composite c B p =
        some (vips_composite_blend sqrt composite m B p) := by
  intro x hx
  simp only [combine_modes, List.mem_map, List.mem_range'_1] at hx
  obtain ⟨i, ⟨hi1, hi2⟩, rfl⟩ := hx
  unfold vips_composite_build_validate at hvalid
  by_cases h1 : n ≤ 0
  · simp [h1] at hvalid
  by_cases h2 : (mode.length : Int) ≠ n - 1
  · simp [h1, h2] at hvalid
  have h2e : (mode.length : Int) = n - 1 := not_not.mp h2
  have htake : mode.take (n - 1).toNat = mode := by
    apply List.take_of_length_le
    rw [← h2e]; simp
  rw [if_neg h1, if_neg h2, htake] at hvalid
  cases hc : build_check_modes mode 0 with
  | some e => rw [hc] at hvalid; cases hvalid
  | none =>
    have hall := (build_check_modes_none_iff mode 0).mp hc
    have hlt : i - 1 < mode.length := by omega
    have hmem : mode[i - 1] ∈ mode := List.getElem_mem _
    obtain ⟨h0, h25⟩ := hall _ hmem
    obtain ⟨m, hm, hcode⟩ := blend_switch_of_valid _ h0 h25
    exact ⟨mode[i - 1], m, List.getElem?_eq_getElem hlt, hm, hcode, by
      simp [vips_composite_blend_code, hm]⟩

/-- C20 at a concrete input: three images with blend modes `[2, 24]`; the two 8-bit layers
left after the build step read the mode 2, which selects a `case` of the kernel. -/
theorem C20_blend_mode_always_matched_witness :
    ∃ c m, (some 2 : Option Int) = some c ∧
      blend_switch c = some m ∧ m.toCode = c ∧
      vips_composite_blend_code (fun x => x) (rgba8 false 2 [.OVER]) c (pel4 1 0 0 1)
          (pel4 0 255 0 51) =
        some (vips_composite_blend (fun x => x) (rgba8 false 2 [.OVER]) m (pel4 1 0 0 1)
          (pel4 0 255 0 51)) :=
  C20_blend_mode_always_matched (fun x => x) (rgba8 false 2 [.OVER]) 3 [2, 24] (by rfl)
    (by decide) (pel4 1 0 0 1) (pel4 0 255 0 51) (some 2) (by simp [combine_modes, rgba8])

theorem blend_pdf_form (sqrt : ℚ → ℚ) (c : VipsComposite) (mode : VipsBlendMode)
    (hmode : mode ∈ pdf_modes) (B P : Nat → ℚ) (b : Nat) (hb : b < c.bands) :
    vips_composite_blend sqrt c mode B P b =
      (1 - B c.bands) * blend_load c P b + (1 - blend_load c P c.bands) * B b +
        blend_load c P c.bands * B c.bands * blend_f sqrt mode (blend_load c P b) (B b) := by
  have hne : b ≠ c.bands := Nat.ne_of_lt hb
  have hlt : b < c.bands + 1 := Nat.lt_succ_of_lt hb
  simp only [pdf_modes, List.mem_cons, List.mem_singleton, List.not_mem_nil, or_false]
    at hmode
  rcases hmode with rfl | rfl | rfl | rfl | rfl | rfl | rfl | rfl | rfl | rfl | rfl <;>
    cases hp : c.premultiplied <;>
    simp [vips_composite_blend, blend_load, blend_f, set_band, for_bands, hp, hne, hlt, hb]

theorem blend_alpha_form (sqrt : ℚ → ℚ) (c : VipsComposite) (mode : VipsBlendMode)
    (hmode : mode = .OVER ∨ mode ∈ pdf_modes) (B P : Nat → ℚ) :
    vips_composite_blend sqrt c mode B P c.bands =
      blend_load c P c.bands + B c.bands * (1 - blend_load c P c.bands) := by
  simp only [pdf_modes, List.mem_cons, List.mem_singleton, List.not_mem_nil, or_false]
    at hmode
  rcases hmode with rfl | rfl | rfl | rfl | rfl | rfl | rfl | rfl | rfl | rfl | rfl | rfl <;>
    cases hp : c.premultiplied <;>
    simp [vips_composite_blend, blend_load, set_band, for_bands, hp]

/-- C21: the blend function the scalar kernel computes for `VIPS_BLEND_MODE_HARD_LIGHT`
(the value `f[b]` it combines into band `b`) equals `2 * A * B` when `A <= 0.5` and
`1 - 2 * (1 - A) * (1 - B)` otherwise, for all `A` and `B`; equivalently it is the kernel's
overlay function with its two arguments swapped. -/
theorem C21_hard_light_piecewise (sqrt : ℚ → ℚ) (A B : ℚ) :
    blend_f sqrt .HARD_LIGHT A B =
      (if A ≤ 1 / 2 then 2 * A * B else 1 - 2 * (1 - A) * (1 - B)) ∧
    blend_f sqrt .HARD_LIGHT A B = blend_f sqrt .OVERLAY B A ∧
    ∀ (c : VipsComposite) (Bacc P : Nat → ℚ) (b : Nat), b < c.bands →
      vips_composite_blend sqrt c .HARD_LIGHT Bacc P b =
        (1 - Bacc c.bands) * blend_load c P b + (1 - blend_load c P c.bands) * Bacc b +
          blend_load c P c.bands * Bacc c.bands *
            blend_f sqrt .HARD_LIGHT (blend_load c P b) (Bacc b) := by
  have h1 : blend_f sqrt .HARD_LIGHT A B =
      (if A ≤ 1 / 2 then 2 * A * B else 1 - 2 * (1 - A) * (1 - B)) := by
    simp only [blend_f]
    by_cases hlt : A < 1 / 2
    · rw [if_pos hlt, if_pos (le_of_lt hlt)]
    · by_cases heq : A = 1 / 2
      · rw [if_neg hlt, if_pos (le_of_eq heq), heq]; ring
      · have hgt : ¬ A ≤ 1 / 2 := fun hle => hlt (lt_of_le_of_ne hle heq)
        rw [if_neg hlt, if_neg hgt]
  refine ⟨h1, ?_, fun c Bacc P b hb =>
    blend_pdf_form sqrt c .HARD_LIGHT (by decide) Bacc P b hb⟩
  rw [h1]
  simp only [blend_f]
  split_ifs <;> ring

/-- C21 at a concrete input: hard light at the breakpoint `A = 1/2` with `B = 1/3`. -/
theorem C21_hard_light_piecewise_witness :
    blend_f (fun x => x) .HARD_LIGHT (1 / 2) (1 / 3) =
      blend_f (fun x => x) .OVERLAY (1 / 3) (1 / 2) :=
  (C21_hard_light_piecewise (fun x => x) (1 / 2) (1 / 3)).2.1

/-- C22 fails on the code: an effective stack of `n = MAX_INPUT_IMAGES = 64` images passes
the check of the build step, which rejects only `n > 64`, and the tile driver then writes
`p[64] = NULL`, an index that is not below the capacity 64 of the array `p`; the indices
`0 .. 63` of the pointers themselves are within it. -/
theorem C22_null_terminator_past_capacity :
    build_accepts_n 64 = true ∧
    64 ∈ gen_p_writes 64 ∧
    ¬ (64 < MAX_INPUT_IMAGES) ∧
    (∀ i ∈ gen_p_writes 64, i ≠ 64 → i < MAX_INPUT_IMAGES) := by
  refine ⟨by decide, by simp [gen_p_writes], by decide, ?_⟩
  intro i hi hne
  simp only [gen_p_writes, List.mem_append, List.mem_range, List.mem_singleton] at hi
  rcases hi with hi | hi
  · exact hi
  · exact absurd hi hne

theorem blend_alpha_unit (sqrt : ℚ → ℚ) (c : VipsComposite) (mode : VipsBlendMode)
    (B P : Nat → ℚ) (hB0 : 0 ≤ B c.bands) (hB1 : B c.bands ≤ 1)
    (hA0 : 0 ≤ P c.bands / c.max_band c.bands) (hA1 : P c.bands / c.max_band c.bands ≤ 1) :
    0 ≤ vips_composite_blend sqrt c mode B P c.bands ∧
      vips_composite_blend sqrt c mode B P c.bands ≤ 1 := by
  generalize haA : P c.bands / c.max_band c.bands = aA at hA0 hA1
  generalize haB : B c.bands = aB at hB0 hB1
  have e : ∀ m, vips_composite_blend sqrt c m B P c.bands =
      (match m with
        | .CLEAR => 0
        | .SOURCE => aA
        | .IN => aA * aB
        | .OUT => aA * (1 - aB)
        | .ATOP => aB
        | .DEST => aB
        | .DEST_OVER => aB + aA * (1 - aB)
        | .DEST_IN => aA * aB
        | .DEST_OUT => (1 - aA) * aB
        | .DEST_ATOP => aA
        | .XOR => aA + aB - 2 * aA * aB
        | .ADD => VIPS_MIN 1 (aA + aB)
        | .SATURATE => VIPS_MIN 1 (aA + aB)
        | _ => aA + aB * (1 - aA)) := by
    intro m
    cases m <;> simp [vips_composite_blend, set_band, for_bands, haA, haB]
  rw [e]
  have h1 : 0 ≤ 1 - aA := by linarith
  have h2 : 0 ≤ 1 - aB := by linarith
  have p1 : 0 ≤ aA * aB := mul_nonneg hA0 hB0
  have p2 : 0 ≤ aA * (1 - aB) := mul_nonneg hA0 h2
  have p3 : 0 ≤ (1 - aA) * aB := mul_nonneg h1 hB0
  have p4 : 0 ≤ (1 - aA) * (1 - aB) := mul_nonneg h1 h2
  cases mode <;> simp only [VIPS_MIN] <;> (try split_ifs) <;> constructor <;> linarith

theorem accumulate_prefix_alpha_unit (sqrt : ℚ → ℚ) (c : VipsComposite) (p : Nat → Nat → ℚ)
    (hlimit : 0 < c.max_band c.bands)
    (halpha : ∀ i, i < c.n → 0 ≤ p i c.bands ∧ p i c.bands ≤ c.max_band c.bands)
    (k : Nat) (hk : k < c.n) :
    0 ≤ combine_accumulate sqrt { c with n := k + 1 } p c.bands ∧
      combine_accumulate sqrt { c with n := k + 1 } p c.bands ≤ 1 := by
  have hnorm : ∀ i, i < c.n → 0 ≤ p i c.bands / c.max_band c.bands ∧
      p i c.bands / c.max_band c.bands ≤ 1 := fun i hi =>
    ⟨div_nonneg (halpha i hi).1 (le_of_lt hlimit),
      (div_le_one hlimit).mpr (halpha i hi).2⟩
  simp only [combine_accumulate, blend_layers]
  apply foldl_invariant (fun B : Nat → ℚ => 0 ≤ B c.bands ∧ B c.bands ≤ 1)
  · intro B i hi hB
    rw [List.mem_range'_1] at hi
    have hic : i < c.n := by omega
    exact blend_alpha_unit sqrt { c with n := k + 1 } (c.mode (i - 1)) B (p i) hB.1 hB.2
      (hnorm i hic).1 (hnorm i hic).2
  · have h0 := hnorm 0 (by omega)
    cases hp : c.premultiplied <;> simpa [for_bands, hp] using h0

/-- C23: for each of the 25 blend modes, if the accumulator's alpha `aB` and the incoming
pixel's normalized alpha `aA` both lie in `[0, 1]`, the result alpha the scalar kernel
writes lies in `[0, 1]`; hence for a stack whose layers all have alpha between 0 and the
(positive) alpha limit, the accumulator's alpha is in `[0, 1]` after every fold step (the
accumulator after `k` steps being that of the stack cut to its first `k + 1` layers). -/
theorem C23_alpha_stays_normalized (sqrt : ℚ → ℚ) (c : VipsComposite) (p : Nat → Nat → ℚ)
    (hlimit : 0 < c.max_band c.bands)
    (halpha : ∀ i, i < c.n → 0 ≤ p i c.bands ∧ p i c.bands ≤ c.max_band c.bands) :
    (∀ (mode : VipsBlendMode) (B P : Nat → ℚ), 0 ≤ B c.bands → B c.bands ≤ 1 →
      0 ≤ P c.bands / c.max_band c.bands → P c.bands / c.max_band c.bands ≤ 1 →
      0 ≤ vips_composite_blend sqrt c mode B P c.bands ∧
        vips_composite_blend sqrt c mode B P c.bands ≤ 1) ∧
    (∀ k, k < c.n →
      0 ≤ combine_accumulate sqrt { c with n := k + 1 } p c.bands ∧
        combine_accumulate sqrt { c with n := k + 1 } p c.bands ≤ 1) ∧
    (1 ≤ c.n → 0 ≤ combine_accumulate sqrt c p c.bands ∧
      combine_accumulate sqrt c p c.bands ≤ 1) := by
  refine ⟨fun mode B P h1 h2 h3 h4 => blend_alpha_unit sqrt c mode B P h1 h2 h3 h4,
    fun k hk => accumulate_prefix_alpha_unit sqrt c p hlimit halpha k hk, fun hn => ?_⟩
  have h := accumulate_prefix_alpha_unit sqrt c p hlimit halpha (c.n - 1) (by omega)
  have e : c.n - 1 + 1 = c.n := by omega
  rw [e] at h
  exact h

/-- C23 at a concrete input: solid green over solid red with `XOR`, 8-bit sRGB. -/
theorem C23_alpha_stays_normalized_witness :
    0 ≤ combine_accumulate (fun x => x) (rgba8 false 2 [.XOR])
        (fun i b => (px_red_green i b : ℚ)) (rgba8 false 2 [.XOR]).bands ∧
      combine_accumulate (fun x => x) (rgba8 false 2 [.XOR])
        (fun i b => (px_red_green i b : ℚ)) (rgba8 false 2 [.XOR]).bands ≤ 1 :=
  (C23_alpha_stays_normalized (fun x => x) (rgba8 false 2 [.XOR])
    (fun i b => (px_red_green i b : ℚ))
    (by
      have e := max_band_sRGB 0 0 0 3 (fun _ => 255) _ rfl 3 (Nat.le_refl _)
      rw [show (rgba8 false 2 [.XOR]).max_band (rgba8 false 2 [.XOR]).bands = 255 from e]
      norm_num)
    (by
      intro i hi
      have hi2 : i < 2 := hi
      have e := max_band_sRGB 0 0 0 3 (fun _ => 255) _ rfl 3 (Nat.le_refl _)
      rw [show (rgba8 false 2 [.XOR]).max_band (rgba8 false 2 [.XOR]).bands = 255 from e]
      interval_cases i <;> simp [px_red_green, rgba8])).2.2 (by decide)

theorem blend_congr_pixel (sqrt : ℚ → ℚ) (c : VipsComposite) (m : VipsBlendMode)
    (B P P' : Nat → ℚ) (hP : ∀ b, b ≤ c.bands → P b = P' b) :
    vips_composite_blend sqrt c m B P = vips_composite_blend sqrt c m B P' := by
  have key : for_bands (c.bands + 1) (fun b => P b / c.max_band b) (fun _ => 0) =
      for_bands (c.bands + 1) (fun b => P' b / c.max_band b) (fun _ => 0) := by
    funext b
    simp only [for_bands]
    split_ifs with h
    · rw [hP b (Nat.le_of_lt_succ h)]
    · rfl
  simp only [vips_composite_blend]
  rw [key]

theorem blend_above_bands (sqrt : ℚ → ℚ) (c : VipsComposite) (m : VipsBlendMode)
    (B P : Nat → ℚ) (b : Nat) (hb : c.bands < b) :
    vips_composite_blend sqrt c m B P b = B b := by
  have h1 : b ≠ c.bands := Nat.ne_of_gt hb
  have h2 : ¬ b < c.bands := Nat.not_lt.mpr (Nat.le_of_lt hb)
  cases m <;> simp [vips_composite_blend, set_band, for_bands, h1, h2]

theorem blend_source_state (sqrt : ℚ → ℚ) (c : VipsComposite) (X X' P P' : Nat → ℚ)
    (hX : ∀ b, c.bands < b → X b = 0) (hX' : ∀ b, c.bands < b → X' b = 0)
    (hP : ∀ b, b ≤ c.bands → P b = P' b) :
    vips_composite_blend sqrt c .SOURCE X P = vips_composite_blend sqrt c .SOURCE X' P' := by
  rw [blend_congr_pixel sqrt c .SOURCE X P P' hP]
  funext b
  rcases Nat.lt_trichotomy b c.bands with h | h | h
  · have hne : b ≠ c.bands := Nat.ne_of_lt h
    simp [vips_composite_blend, set_band, for_bands, hne, h]
  · subst h
    simp [vips_composite_blend, set_band]
  · rw [blend_above_bands sqrt c _ X P' b h, blend_above_bands sqrt c _ X' P' b h, hX b h,
      hX' b h]

theorem fold_above_bands (sqrt : ℚ → ℚ) (c : VipsComposite) (p : Nat → Nat → ℚ)
    (l : List Nat) (B : Nat → ℚ) (hB : ∀ b, c.bands < b → B b = 0) :
    ∀ b, c.bands < b →
      l.foldl (fun B i => vips_composite_blend sqrt c (c.mode (i - 1)) B (p i)) B b = 0 := by
  apply foldl_invariant (fun B : Nat → ℚ => ∀ b, c.bands < b → B b = 0)
  · intro B i _ hB b hb
    rw [blend_above_bands sqrt c _ B (p i) b hb]
    exact hB b hb
  · exact hB

theorem accumulate_after_source (sqrt : ℚ → ℚ) (c : VipsComposite) (p p' : Nat → Nat → ℚ)
    (i : Nat) (hi : i + 2 ≤ c.n) (hsrc : c.mode i = .SOURCE)
    (hsame : ∀ j, i < j → j < c.n → ∀ b, b ≤ c.bands → p j b = p' j b) :
    combine_accumulate sqrt c p = combine_accumulate sqrt c p' := by
  obtain ⟨r, hr⟩ : ∃ r, c.n - 1 = (i + 1) + r := ⟨c.n - 2 - i, by omega⟩
  have hload : ∀ q : Nat → Nat → ℚ, ∀ b, c.bands < b →
      (if !c.premultiplied then
        for_bands c.bands
          (fun b => for_bands (c.bands + 1) (fun b => q 0 b / c.max_band b) (fun _ => 0) b *
            for_bands (c.bands + 1) (fun b => q 0 b / c.max_band b) (fun _ => 0) c.bands)
          (for_bands (c.bands + 1) (fun b => q 0 b / c.max_band b) (fun _ => 0))
      else for_bands (c.bands + 1) (fun b => q 0 b / c.max_band b) (fun _ => 0)) b = 0 := by
    intro q b hb
    have h1 : ¬ b < c.bands := Nat.not_lt.mpr (Nat.le_of_lt hb)
    have h2 : ¬ b < c.bands + 1 := Nat.not_lt.mpr hb
    cases c.premultiplied <;> simp [for_bands, h1, h2]
  simp only [combine_accumulate, blend_layers, hr]
  rw [show i + 1 + r = r + (i + 1) from Nat.add_comm _ _, ← List.range'_append 1 (i + 1) r 1,
    List.foldl_append, List.foldl_append, List.range'_concat, List.foldl_append,
    List.foldl_append]
  simp only [List.foldl_cons, List.foldl_nil, Nat.mul_one, Nat.one_mul,
    Nat.add_sub_cancel_left, hsrc]
  have hstate := blend_source_state sqrt c
    ((List.range' 1 i).foldl
      (fun B i => vips_composite_blend sqrt c (c.mode (i - 1)) B (p i)) _)
    ((List.range' 1 i).foldl
      (fun B i => vips_composite_blend sqrt c (c.mode (i - 1)) B (p' i)) _)
    (p (1 + i)) (p' (1 + i))
    (fold_above_bands sqrt c p _ _ (hload p))
    (fold_above_bands sqrt c p' _ _ (hload p'))
    (hsame (1 + i) (by omega) (by omega))
  rw [hstate]
  apply List.foldl_ext
  intro B j hj
  rw [List.mem_range'_1] at hj
  exact blend_congr_pixel sqrt c _ B (p j) (p' j) (hsame j (by omega) (by omega))

/-- C24: when blend mode `i` is `VIPS_BLEND_MODE_SOURCE` (it blends layer `i + 1`), two runs
of the combiner on stacks that agree on the pixels of the layers above `i` produce the same
output pixel: the output does not depend on the pixels of layers `0 .. i`. -/
theorem C24_source_hides_lower_layers (sqrt : ℚ → ℚ) (T : VipsBandFormat) (min_T max_T : ℤ)
    (c : VipsComposite) (q : Nat → ℚ) (p p' : Nat → Nat → ℚ) (i : Nat) (hi : i + 2 ≤ c.n)
    (hsrc : c.mode i = .SOURCE)
    (hsame : ∀ j, i < j → j < c.n → ∀ b, b ≤ c.bands → p j b = p' j b) :
    vips_combine_pixels sqrt T min_T max_T c q p =
      vips_combine_pixels sqrt T min_T max_T c q p' := by
  simp only [vips_combine_pixels, accumulate_after_source sqrt c p p' i hi hsrc hsame]

/-- C24 at a concrete input: three 8-bit layers with modes `[SOURCE, OVER]`; red or white
at the bottom, the output is the same. -/
theorem C24_source_hides_lower_layers_witness :
    vips_combine_pixels (fun x => x) .UCHAR 0 UCHAR_MAX (rgba8 false 3 [.SOURCE, .OVER])
        (fun _ => 0) (fun i => if i = 0 then pel4 255 0 0 255 else pel4 0 200 0 51) =
      vips_combine_pixels (fun x => x) .UCHAR 0 UCHAR_MAX (rgba8 false 3 [.SOURCE, .OVER])
        (fun _ => 0) (fun i => if i = 0 then pel4 255 255 255 255 else pel4 0 200 0 51) :=
  C24_source_hides_lower_layers (fun x => x) .UCHAR 0 UCHAR_MAX
    (rgba8 false 3 [.SOURCE, .OVER]) (fun _ => 0)
    (fun i => if i = 0 then pel4 255 0 0 255 else pel4 0 200 0 51)
    (fun i => if i = 0 then pel4 255 255 255 255 else pel4 0 200 0 51) 0 (by decide) rfl
    (fun j hj _ b _ => by
      have hne : j ≠ 0 := Nat.pos_iff_ne_zero.mp hj
      simp [hne])

theorem VIPS_MIN_unit (x : ℚ) (hx : 0 ≤ x) : 0 ≤ VIPS_MIN 1 x ∧ VIPS_MIN 1 x ≤ 1 := by
  unfold VIPS_MIN
  split_ifs with h
  · exact ⟨zero_le_one, le_refl _⟩
  · exact ⟨hx, not_lt.mp h⟩

theorem soft_light_g_unit (B : ℚ) (h0 : 0 ≤ B) (h1 : B ≤ 1 / 4) :
    0 ≤ ((16 * B - 12) * B + 4) * B ∧ ((16 * B - 12) * B + 4) * B ≤ 1 := by
  have hq : 0 ≤ (16 * B - 12) * B + 4 := by nlinarith [sq_nonneg (4 * B - 3 / 2)]
  have hq4 : (16 * B - 12) * B + 4 ≤ 4 := by nlinarith
  constructor
  · exact mul_nonneg hq h0
  · nlinarith

theorem blend_f_unit (sqrt : ℚ → ℚ)
    (hsqrt : ∀ x : ℚ, 0 ≤ x → x ≤ 1 → 0 ≤ sqrt x ∧ sqrt x ≤ 1)
    (mode : VipsBlendMode) (hmode : mode ∈ pdf_modes) (A B : ℚ)
    (hA0 : 0 ≤ A) (hA1 : A ≤ 1) (hB0 : 0 ≤ B) (hB1 : B ≤ 1) :
    0 ≤ blend_f sqrt mode A B ∧ blend_f sqrt mode A B ≤ 1 := by
  have a1 : 0 ≤ 1 - A := by linarith
  have b1 : 0 ≤ 1 - B := by linarith
  have p1 : 0 ≤ A * B := mul_nonneg hA0 hB0
  have p2 : 0 ≤ A * (1 - B) := mul_nonneg hA0 b1
  have p3 : 0 ≤ (1 - A) * B := mul_nonneg a1 hB0
  have p4 : 0 ≤ (1 - A) * (1 - B) := mul_nonneg a1 b1
  simp only [pdf_modes, List.mem_cons, List.mem_singleton, List.not_mem_nil, or_false]
    at hmode
  rcases hmode with rfl | rfl | rfl | rfl | rfl | rfl | rfl | rfl | rfl | rfl | rfl
  · simp only [blend_f]
    constructor <;> linarith
  · simp only [blend_f]
    constructor <;> linarith
  · simp only [blend_f]
    split_ifs with h
    · have : 0 ≤ A * (1 / 2 - B) := mul_nonneg hA0 (by linarith)
      constructor <;> linarith
    · have h' : 0 ≤ B - 1 / 2 := by linarith [not_le.mp h]
      have : 0 ≤ (1 - A) * (B - 1 / 2) := mul_nonneg a1 h'
      constructor <;> linarith
  · simp only [blend_f, VIPS_MIN]
    split_ifs <;> constructor <;> linarith
  · simp only [blend_f, VIPS_MAX]
    split_ifs <;> constructor <;> linarith
  · simp only [blend_f]
    split_ifs with h
    · exact VIPS_MIN_unit _ (div_nonneg hB0 (by linarith))
    · exact ⟨zero_le_one, le_refl _⟩
  · simp only [blend_f]
    split_ifs with h
    · have := VIPS_MIN_unit ((1 - B) / A) (div_nonneg b1 (le_of_lt h))
      constructor <;> linarith [this.1, this.2]
    · exact ⟨le_refl _, zero_le_one⟩
  · simp only [blend_f]
    split_ifs with h
    · have : 0 ≤ (1 / 2 - A) * B := mul_nonneg (by linarith) hB0
      constructor <;> linarith
    · have h' : 0 ≤ A - 1 / 2 := by linarith [not_lt.mp h]
      have : 0 ≤ (A - 1 / 2) * (1 - B) := mul_nonneg h' b1
      constructor <;> linarith
  · simp only [blend_f]
    have hg : 0 ≤ (if B ≤ 1 / 4 then ((16 * B - 12) * B + 4) * B else sqrt B) ∧
        (if B ≤ 1 / 4 then ((16 * B - 12) * B + 4) * B else sqrt B) ≤ 1 := by
      split_ifs with hB
      · exact soft_light_g_unit B hB0 hB
      · exact hsqrt B hB0 hB1
    generalize (if B ≤ 1 / 4 then ((16 * B - 12) * B + 4) * B else sqrt B) = g at hg
    split_ifs with h
    · have t0 : 0 ≤ 1 - 2 * A := by linarith
      have t1 : 0 ≤ (1 - 2 * A) * (B * (1 - B)) := mul_nonneg t0 (mul_nonneg hB0 b1)
      have t2 : 0 ≤ (2 * A) * (B * (1 - B)) :=
        mul_nonneg (by linarith) (mul_nonneg hB0 b1)
      have t3 : 0 ≤ B * B := mul_nonneg hB0 hB0
      constructor <;> nlinarith
    · have t0 : 0 ≤ 2 * A - 1 := by linarith [not_le.mp h]
      have t1 : 0 ≤ 2 - 2 * A := by linarith
      have u1 : 0 ≤ (2 * A - 1) * g := mul_nonneg t0 hg.1
      have u2 : 0 ≤ (2 * A - 1) * (1 - g) := mul_nonneg t0 (by linarith [hg.2])
      have u3 : 0 ≤ (2 - 2 * A) * B := mul_nonneg t1 hB0
      have u4 : 0 ≤ (2 - 2 * A) * (1 - B) := mul_nonneg t1 b1
      constructor <;> nlinarith
  · simp only [blend_f]
    constructor
    · exact abs_nonneg _
    · rw [abs_le]; constructor <;> linarith
  · simp only [blend_f]
    constructor <;> linarith

theorem blend_over_form (sqrt : ℚ → ℚ) (c : VipsComposite) (B P : Nat → ℚ) (b : Nat)
    (hb : b < c.bands) :
    vips_composite_blend sqrt c .OVER B P b =
      blend_load c P b + (1 - blend_load c P c.bands) * B b := by
  have hne : b ≠ c.bands := Nat.ne_of_lt hb
  have hlt : b < c.bands + 1 := Nat.lt_succ_of_lt hb
  cases hp : c.premultiplied <;>
    simp [vips_composite_blend, blend_load, set_band, for_bands, hp, hne, hlt, hb]

theorem unpremultiply_unit (c : VipsComposite) (R : Nat → ℚ)
    (hR : ∀ b, b < c.bands → 0 ≤ R b ∧ R b ≤ R c.bands) (h0 : 0 ≤ R c.bands)
    (h1 : R c.bands ≤ 1) (b : Nat) (hb : b ≤ c.bands) :
    0 ≤ combine_unpremultiply c R b ∧ combine_unpremultiply c R b ≤ 1 := by
  rcases Nat.eq_or_lt_of_le hb with heq | hlt
  · subst heq
    have e : combine_unpremultiply c R c.bands = R c.bands := by
      unfold combine_unpremultiply
      cases c.premultiplied
      · simp only [Bool.not_false, if_true]
        split_ifs <;> simp [for_bands]
      · simp
    rw [e]
    exact ⟨h0, h1⟩
  · obtain ⟨r0, r1⟩ := hR b hlt
    cases hp : c.premultiplied
    · by_cases hz : R c.bands = 0
      · simp [combine_unpremultiply, hp, hz, for_bands, hlt]
      · have hpos : 0 < R c.bands := lt_of_le_of_ne h0 (Ne.symm hz)
        have e : combine_unpremultiply c R b = R b / R c.bands := by
          simp [combine_unpremultiply, hp, hz, for_bands, hlt]
        rw [e]
        exact ⟨div_nonneg r0 h0, (div_le_one hpos).mpr r1⟩
    · have e : combine_unpremultiply c R b = R b := by
        simp [combine_unpremultiply, hp]
      rw [e]
      exact ⟨r0, le_trans r1 h1⟩

theorem write_unsigned_no_clip (T : VipsBandFormat) (max_T : ℤ) (c : VipsComposite)
    (U q : Nat → ℚ) (b : Nat) (hb : b ≤ c.bands) (hU0 : 0 ≤ U b) (hU1 : U b ≤ 1)
    (hm0 : 0 ≤ c.max_band b) (hm1 : c.max_band b ≤ max_T) :
    combine_write T 0 max_T c U q b = cast_T T (U b * c.max_band b) := by
  have hlt : b < c.bands + 1 := Nat.lt_succ_of_le hb
  have hv0 : 0 ≤ U b * c.max_band b := mul_nonneg hU0 hm0
  have hv1 : U b * c.max_band b ≤ max_T := by
    have : U b * c.max_band b ≤ 1 * c.max_band b := mul_le_mul_of_nonneg_right hU1 hm0
    linarith
  simp only [combine_write, for_bands, hlt, if_true]
  split_ifs
  · rw [VIPS_CLIP_of_mem (by simpa using hv0) hv1]
  · rfl

/-- C25: `VIPS_BLEND_MODE_OVER` and each of the 11 PDF modes preserve valid premultiplied
pixels in the scalar kernel: if `0 <= B[b] <= aB <= 1` for the accumulator and
`0 <= A[b] <= aA <= 1` for the loaded (premultiplied) incoming pixel, then afterwards
`0 <= B[b] <= aR <= 1` for every colour band `b`; so every band of the unpremultiplied
result lies in `[0, 1]` and the clip to `[0, max_T]` of the write-back changes nothing when
the band's limit is at most `max_T`. `sqrt` maps `[0, 1]` into `[0, 1]`, as the square root
does. -/
theorem C25_valid_premultiplied_preserved (sqrt : ℚ → ℚ)
    (hsqrt : ∀ x : ℚ, 0 ≤ x → x ≤ 1 → 0 ≤ sqrt x ∧ sqrt x ≤ 1)
    (c : VipsComposite) (mode : VipsBlendMode) (hmode : mode = .OVER ∨ mode ∈ pdf_modes)
    (B P : Nat → ℚ)
    (hB : ∀ b, b < c.bands → 0 ≤ B b ∧ B b ≤ B c.bands)
    (haB0 : 0 ≤ B c.bands) (haB1 : B c.bands ≤ 1)
    (hA : ∀ b, b < c.bands → 0 ≤ blend_load c P b ∧ blend_load c P b ≤ blend_load c P c.bands)
    (haA0 : 0 ≤ blend_load c P c.bands) (haA1 : blend_load c P c.bands ≤ 1) :
    (∀ b, b < c.bands → 0 ≤ vips_composite_blend sqrt c mode B P b ∧
      vips_composite_blend sqrt c mode B P b ≤ vips_composite_blend sqrt c mode B P c.bands) ∧
    (0 ≤ vips_composite_blend sqrt c mode B P c.bands ∧
      vips_composite_blend sqrt c mode B P c.bands ≤ 1) ∧
    (∀ b, b ≤ c.bands →
      0 ≤ combine_unpremultiply c (vips_composite_blend sqrt c mode B P) b ∧
        combine_unpremultiply c (vips_composite_blend sqrt c mode B P) b ≤ 1) ∧
    (∀ (T : VipsBandFormat) (max_T : ℤ) (q : Nat → ℚ) (b : Nat), b ≤ c.bands →
      0 ≤ c.max_band b → c.max_band b ≤ max_T →
      combine_write T 0 max_T c (combine_unpremultiply c (vips_composite_blend sqrt c mode B P))
          q b =
        cast_T T (combine_unpremultiply c (vips_composite_blend sqrt c mode B P) b *
          c.max_band b)) := by
  have halpha := blend_alpha_form sqrt c mode hmode B P
  generalize haA : blend_load c P c.bands = aA at halpha hA haA0 haA1
  generalize haB : B c.bands = aB at halpha hB haB0 haB1
  have a1 : 0 ≤ 1 - aA := by linarith
  have b1 : 0 ≤ 1 - aB := by linarith
  have hR1 : 0 ≤ vips_composite_blend sqrt c mode B P c.bands ∧
      vips_composite_blend sqrt c mode B P c.bands ≤ 1 := by
    rw [halpha]
    have q1 : 0 ≤ aB * (1 - aA) := mul_nonneg haB0 a1
    have q2 : 0 ≤ (1 - aB) * (1 - aA) := mul_nonneg b1 a1
    constructor <;> linarith
  have hRb : ∀ b, b < c.bands → 0 ≤ vips_composite_blend sqrt c mode B P b ∧
      vips_composite_blend sqrt c mode B P b ≤
        vips_composite_blend sqrt c mode B P c.bands := by
    intro b hb
    obtain ⟨x0, x1⟩ := hA b hb
    obtain ⟨y0, y1⟩ := hB b hb
    rw [halpha]
    have m3 : 0 ≤ (1 - aA) * B b := mul_nonneg a1 y0
    have m4 : 0 ≤ (1 - aA) * (aB - B b) := mul_nonneg a1 (by linarith)
    rcases hmode with rfl | hpdf
    · rw [blend_over_form sqrt c B P b hb, haA]
      constructor <;> linarith
    · rw [blend_pdf_form sqrt c mode hpdf B P b hb, haA, haB]
      obtain ⟨f0, f1⟩ := blend_f_unit sqrt hsqrt mode hpdf (blend_load c P b) (B b) x0
        (by linarith) y0 (by linarith)
      generalize blend_f sqrt mode (blend_load c P b) (B b) = f at f0 f1
      have m1 : 0 ≤ (1 - aB) * blend_load c P b := mul_nonneg b1 x0
      have m2 : 0 ≤ (1 - aB) * (aA - blend_load c P b) := mul_nonneg b1 (by linarith)
      have m5 : 0 ≤ aA * aB * f := mul_nonneg (mul_nonneg haA0 haB0) f0
      have m6 : 0 ≤ aA * aB * (1 - f) := mul_nonneg (mul_nonneg haA0 haB0) (by linarith)
      constructor <;> linarith
  have hU := unpremultiply_unit c (vips_composite_blend sqrt c mode B P) hRb hR1.1 hR1.2
  refine ⟨hRb, hR1, hU, fun T max_T q b hb hm0 hm1 => ?_⟩
  exact write_unsigned_no_clip T max_T c _ q b hb (hU b hb).1 (hU b hb).2 hm0 hm1

/-- C25 at a concrete input: a fifth-transparent green pixel multiplied onto solid red,
8-bit sRGB, unpremultiplied input; band 1 of the result is between 0 and the result
alpha. -/
theorem C25_valid_premultiplied_preserved_witness :
    0 ≤ vips_composite_blend (fun x => x) (rgba8 false 2 [.MULTIPLY]) .MULTIPLY
        (pel4 1 0 0 1) (pel4 0 255 0 51) 1 ∧
      vips_composite_blend (fun x => x) (rgba8 false 2 [.MULTIPLY]) .MULTIPLY
        (pel4 1 0 0 1) (pel4 0 255 0 51) 1 ≤
      vips_composite_blend (fun x => x) (rgba8 false 2 [.MULTIPLY]) .MULTIPLY
        (pel4 1 0 0 1) (pel4 0 255 0 51) (rgba8 false 2 [.MULTIPLY]).bands :=
  (C25_valid_premultiplied_preserved (fun x => x) (fun _ h0 h1 => ⟨h0, h1⟩)
    (rgba8 false 2 [.MULTIPLY]) .MULTIPLY (by decide) (pel4 1 0 0 1) (pel4 0 255 0 51)
    (by
      intro b hb
      have hb3 : b < 3 := hb
      interval_cases b <;> norm_num [pel4, rgba8])
    (by norm_num [pel4, rgba8]) (by norm_num [pel4, rgba8])
    (by
      intro b hb
      have hb3 : b < 3 := hb
      interval_cases b <;>
        simp +decide [blend_load, pel4, rgba8, vips_composite_max_band, set_band, for_bands] <;>
        norm_num)
    (by
      simp +decide [blend_load, pel4, rgba8, vips_composite_max_band, set_band, for_bands]
      norm_num)
    (by
      simp +decide [blend_load, pel4, rgba8, vips_composite_max_band, set_band, for_bands]
      norm_num)).1 1 (by decide)

/-! ### The unpremultiply guard -/

theorem combine_unpremultiply_dv_div (c : VipsComposite) (B : Nat → ℚ) :
    combine_unpremultiply_dv (fun x y => x / y) c B = combine_unpremultiply c B := rfl

theorem vips_combine_pixels_dv_div (sqrt : ℚ → ℚ) (T : VipsBandFormat) (min_T max_T : ℤ)
    (c : VipsComposite) (q : Nat → ℚ) (p : Nat → Nat → ℚ) :
    vips_combine_pixels_dv (fun x y => x / y) sqrt T min_T max_T c q p =
      vips_combine_pixels sqrt T min_T max_T c q p := rfl

theorem vips_combine_pixels3_dv_div (sqrt : ℚ → ℚ) (f0 : v4f) (T : VipsBandFormat)
    (min_T max_T : ℤ) (c : VipsComposite) (q : Nat → ℚ) (p : Nat → Nat → ℚ) :
    vips_combine_pixels3_dv (fun x y => x / y) sqrt f0 T min_T max_T c q p =
      vips_combine_pixels3 sqrt f0 T min_T max_T c q p := rfl

/-- C12: for an unpremultiplied stack whose accumulated result alpha is 0, the combiner
writes 0 to every band of the output pixel, alpha included, whatever the colour bands of the
accumulator hold and whatever the division of the unpremultiply step would return: the step
does not divide. The same holds for the vector combiner. The range `[min_T, max_T]` contains
0, as it does for every instantiation the tile driver selects. -/
theorem C12_zero_alpha_unpremultiply (dv : ℚ → ℚ → ℚ) (sqrt : ℚ → ℚ) (f0 : v4f)
    (T : VipsBandFormat) (min_T max_T : ℤ) (c : VipsComposite) (q : Nat → ℚ)
    (p : Nat → Nat → ℚ) (hpre : c.premultiplied = false) (hmin : min_T ≤ 0)
    (hmax : 0 ≤ max_T) :
    (combine_accumulate sqrt c p c.bands = 0 → ∀ b, b ≤ c.bands →
      vips_combine_pixels_dv dv sqrt T min_T max_T c q p b = 0) ∧
    (combine_accumulate3 sqrt f0 c p 3 = 0 → ∀ b, b ≤ 3 →
      vips_combine_pixels3_dv dv sqrt f0 T min_T max_T c q p b = 0) := by
  have h0 := in_type_range_zero T min_T max_T hmin hmax
  constructor
  · intro hz b hb
    unfold vips_combine_pixels_dv
    apply write_in_range T min_T max_T c _ q b hb 0 _ h0
    rcases Nat.eq_or_lt_of_le hb with heq | hlt
    · subst heq
      simp [combine_unpremultiply_dv, hpre, hz, for_bands]
    · simp [combine_unpremultiply_dv, hpre, hz, for_bands, hlt]
  · intro hz b hb
    have hb4 : b < 4 := Nat.lt_succ_of_le hb
    have hclip : (min_T ≠ 0 ∨ max_T ≠ 0) → cast_T T (VIPS_CLIP min_T 0 max_T) = 0 := by
      intro hne
      rw [VIPS_CLIP_of_mem (h0.2 hne).1 (h0.2 hne).2, h0.1]
    have hcast : cast_T T 0 = 0 := h0.1
    unfold vips_combine_pixels3_dv
    by_cases hne : min_T ≠ 0 ∨ max_T ≠ 0
    · have hc := hclip hne
      interval_cases b <;> simp [hpre, hz, set_lane, set_band, hne, hc]
    · interval_cases b <;> simp [hpre, hz, set_lane, set_band, hne, hcast]

/-- C12 at a concrete input: solid green over solid red with `OUT`, unpremultiplied 8-bit,
with a division that returns 1 whatever its operands; the accumulated alpha is 0 and band 1
is written as 0. -/
theorem C12_zero_alpha_unpremultiply_witness :
    vips_combine_pixels_dv (fun _ _ => 1) (fun x => x) .UCHAR 0 UCHAR_MAX
      (rgba8 false 2 [.OUT]) (fun _ => 7) (fun i b => (px_red_green i b : ℚ)) 1 = 0 :=
  ((C12_zero_alpha_unpremultiply (fun _ _ => 1) (fun x => x) (fun _ => 0) .UCHAR 0 UCHAR_MAX
    (rgba8 false 2 [.OUT]) (fun _ => 7) (fun i b => (px_red_green i b : ℚ)) rfl (by decide)
    (by decide)).1
    (by simp +decide [combine_accumulate, rgba8, blend_layers_two, vips_composite_blend,
      for_bands, set_band, px_red_green, vips_composite_max_band])) 1 (by decide)

/-! ### Machine arithmetic: rounding and its error -/

theorem round_half_even_near (y : ℚ) : |(round_half_even y : ℚ) - y| ≤ 1 / 2 := by
  have h1 := Int.floor_le y
  have h2 := Int.lt_floor_add_one y
  unfold round_half_even
  simp only
  split_ifs with a b c
  · rw [abs_le]; constructor <;> linarith
  · rw [abs_le]; push_cast; constructor <;> linarith
  · rw [abs_le]; push_neg at a b; constructor <;> linarith
  · rw [abs_le]; push_cast; push_neg at a b; constructor <;> linarith

theorem round_half_even_eq (y : ℚ) (m : ℤ) (h1 : (m : ℚ) - 1 / 2 < y) (h2 : y < m + 1 / 2) :
    round_half_even y = m := by
  unfold round_half_even
  simp only
  by_cases hy : (m : ℚ) ≤ y
  · have hf : ⌊y⌋ = m := by
      rw [Int.floor_eq_iff]; constructor <;> linarith
    rw [hf, if_pos (by linarith)]
  · push_neg at hy
    have hf : ⌊y⌋ = m - 1 := by
      rw [Int.floor_eq_iff]; push_cast; constructor <;> linarith
    rw [hf]
    push_cast
    rw [if_neg (by linarith), if_pos (by linarith)]
    ring

theorem round_binary_rel_err (t : ℕ) (x : ℚ) :
    |round_binary t x - x| ≤ 1 / 2 ^ (t + 1) * |x| := by
  unfold round_binary
  by_cases hx : x = 0
  · simp [hx]
  · rw [if_neg hx]
    simp only
    have hax : 0 < |x| := abs_pos.mpr hx
    set e : ℤ := Int.log 2 |x| - t with he
    have hs : (0 : ℚ) < 2 ^ e := zpow_pos (by norm_num) e
    have hlog : (2 : ℚ) ^ (Int.log 2 |x|) ≤ |x| := by
      have := Int.zpow_log_le_self (b := 2) (r := |x|) (by norm_num) hax
      simpa using this
    have hsplit : (2 : ℚ) ^ (Int.log 2 |x|) = 2 ^ e * 2 ^ (t : ℤ) := by
      rw [← zpow_add₀ (by norm_num : (2 : ℚ) ≠ 0)]
      congr 1
      omega
    have hn := round_half_even_near (x / 2 ^ e)
    have e1 : (round_half_even (x / 2 ^ e) : ℚ) * 2 ^ e - x =
        ((round_half_even (x / 2 ^ e) : ℚ) - x / 2 ^ e) * 2 ^ e := by
      field_simp
    rw [e1, abs_mul, abs_of_pos hs]
    have h3 : |(round_half_even (x / 2 ^ e) : ℚ) - x / 2 ^ e| * 2 ^ e ≤ 1 / 2 * 2 ^ e :=
      mul_le_mul_of_nonneg_right hn hs.le
    have h4 : (1 : ℚ) / 2 * 2 ^ e = 1 / 2 ^ (t + 1) * (2 ^ e * 2 ^ (t : ℤ)) := by
      rw [zpow_natCast, pow_succ]
      field_simp
      ring
    have h5 : (1 : ℚ) / 2 ^ (t + 1) * (2 ^ e * 2 ^ (t : ℤ)) ≤ 1 / 2 ^ (t + 1) * |x| := by
      apply mul_le_mul_of_nonneg_left _ (by positivity)
      rw [← hsplit]; exact hlog
    linarith

theorem round_binary_cert (t : ℕ) (x : ℚ) (e m : ℤ) (h1 : (2 : ℚ) ^ (e + t) ≤ x)
    (h2 : x < (2 : ℚ) ^ (e + t + 1)) (h3 : (m : ℚ) - 1 / 2 < x / 2 ^ e)
    (h4 : x / 2 ^ e < m + 1 / 2) : round_binary t x = m * 2 ^ e := by
  have hpos : (0 : ℚ) < x := lt_of_lt_of_le (zpow_pos (by norm_num) _) h1
  have hlog : Int.log 2 |x| = e + t := by
    rw [abs_of_pos hpos]
    apply le_antisymm
    · have := (Int.lt_zpow_iff_log_lt (b := 2) (r := x) (by norm_num) hpos (x := e + t + 1)).mp
        (by simpa using h2)
      omega
    · exact (Int.zpow_le_iff_le_log (b := 2) (r := x) (by norm_num) hpos).mp (by simpa using h1)
  unfold round_binary
  rw [if_neg (ne_of_gt hpos)]
  simp only [hlog, add_sub_cancel_right]
  rw [round_half_even_eq _ m h3 h4]

theorem round_double_rel_err (x : ℚ) : |round_double x - x| ≤ 1 / 2 ^ 53 * |x| :=
  round_binary_rel_err 52 x

theorem fl_unit_nonneg {fl : ℚ → ℚ} {u : ℚ} (hfl : ∀ x, |fl x - x| ≤ u * |x|) : 0 ≤ u := by
  have h := hfl 1
  have h0 := abs_nonneg (fl 1 - 1)
  simp only [abs_one, mul_one] at h
  linarith

theorem fl_zero {fl : ℚ → ℚ} {u : ℚ} (hfl : ∀ x, |fl x - x| ≤ u * |x|) : fl 0 = 0 := by
  have h := hfl 0
  simp only [abs_zero, mul_zero, sub_zero] at h
  exact abs_eq_zero.mp (le_antisymm h (abs_nonneg _))

theorem fl_ne_zero {fl : ℚ → ℚ} {u : ℚ} (hfl : ∀ x, |fl x - x| ≤ u * |x|) (hu : u < 1)
    {x : ℚ} (hx : x ≠ 0) : fl x ≠ 0 := by
  intro h0
  have h := hfl x
  rw [h0, zero_sub, abs_neg] at h
  have hpos : 0 < |x| := abs_pos.mpr hx
  nlinarith

theorem rel_err_zero (u : ℚ) : rel_err u 0 = 0 := by simp [rel_err]

theorem rel_err_nonneg {u : ℚ} (hu : 0 ≤ u) (k : ℕ) : 0 ≤ rel_err u k := by
  have : (1 : ℚ) ≤ (1 + u) ^ k := one_le_pow₀ (by linarith)
  unfold rel_err
  linarith

theorem rel_err_mono {u : ℚ} (hu : 0 ≤ u) {j k : ℕ} (h : j ≤ k) :
    rel_err u j ≤ rel_err u k := by
  have : (1 + u) ^ j ≤ (1 + u) ^ k := pow_le_pow_right₀ (by linarith) h
  unfold rel_err
  linarith

theorem near_mono {u : ℚ} (hu : 0 ≤ u) {j k : ℕ} (h : j ≤ k) {x y : ℚ}
    (hx : |x - y| ≤ rel_err u j * |y|) : |x - y| ≤ rel_err u k * |y| :=
  le_trans hx (mul_le_mul_of_nonneg_right (rel_err_mono hu h) (abs_nonneg y))

theorem near_self (u : ℚ) (x : ℚ) : |x - x| ≤ rel_err u 0 * |x| := by
  simp [rel_err_zero]

theorem near_fl {fl : ℚ → ℚ} {u : ℚ} (hfl : ∀ x, |fl x - x| ≤ u * |x|) {k : ℕ} {x y : ℚ}
    (hx : |x - y| ≤ rel_err u k * |y|) : |fl x - y| ≤ rel_err u (k + 1) * |y| := by
  have hu := fl_unit_nonneg hfl
  have hE := rel_err_nonneg hu k
  have h1 : |fl x - y| ≤ |fl x - x| + |x - y| := abs_sub_le _ _ _
  have h2 : |x| ≤ |y| + |x - y| := by
    have := abs_add (x - y) y
    simp only [sub_add_cancel] at this
    linarith
  have h3 := hfl x
  have h4 : u * |x| ≤ u * (|y| + rel_err u k * |y|) :=
    mul_le_mul_of_nonneg_left (by linarith) hu
  have h5 : rel_err u (k + 1) * |y| =
      u * (|y| + rel_err u k * |y|) + rel_err u k * |y| := by
    unfold rel_err
    ring
  linarith

theorem near_mul {u : ℚ} {k : ℕ} {x y : ℚ} (c : ℚ) (hx : |x - y| ≤ rel_err u k * |y|) :
    |x * c - y * c| ≤ rel_err u k * |y * c| := by
  rw [← sub_mul, abs_mul, abs_mul, ← mul_assoc]
  exact mul_le_mul_of_nonneg_right hx (abs_nonneg c)

theorem near_div {u : ℚ} {k : ℕ} {x y : ℚ} (c : ℚ) (hx : |x - y| ≤ rel_err u k * |y|) :
    |x / c - y / c| ≤ rel_err u k * |y / c| := by
  simp only [div_eq_mul_inv]
  exact near_mul c⁻¹ hx

theorem trunc_near (z : ℤ) (w : ℚ) (h : |w - z| < 1) :
    Int.tdiv w.num w.den = z ∨ (0 < z ∧ Int.tdiv w.num w.den = z - 1) ∨
      (z < 0 ∧ Int.tdiv w.num w.den = z + 1) := by
  rw [abs_lt] at h
  obtain ⟨h1, h2⟩ := h
  rcases le_or_lt 0 w with hw | hw
  · rw [tdiv_eq_floor_of_nonneg w hw]
    have a0 : 0 ≤ ⌊w⌋ := Int.floor_nonneg.mpr hw
    have a1 : z - 1 ≤ ⌊w⌋ := Int.le_floor.mpr (by push_cast; linarith)
    have a2 : ⌊w⌋ < z + 1 := Int.floor_lt.mpr (by push_cast; linarith)
    rcases eq_or_lt_of_le a1 with e | e
    · exact Or.inr (Or.inl ⟨by omega, e.symm⟩)
    · exact Or.inl (by omega)
  · rw [tdiv_eq_ceil_of_neg w hw]
    have a0 : ⌈w⌉ ≤ 0 := Int.ceil_le.mpr (by push_cast; linarith)
    have a1 : ⌈w⌉ ≤ z + 1 := Int.ceil_le.mpr (by push_cast; linarith)
    have a2 : z - 1 < ⌈w⌉ := Int.lt_ceil.mpr (by push_cast; linarith)
    rcases eq_or_lt_of_le a1 with e | e
    · exact Or.inr (Or.inr ⟨by omega, e⟩)
    · exact Or.inl (by omega)

theorem near_store {u E : ℚ} (hu : 0 ≤ u) {z x y : ℚ}
    (hz : |z - x| ≤ u * |x|) (hx : |x - y| ≤ E * |y|) :
    |z - y| ≤ ((1 + u) * (1 + E) - 1) * |y| := by
  have h1 : |z - y| ≤ |z - x| + |x - y| := abs_sub_le _ _ _
  have h2 : |x| ≤ |y| + |x - y| := by
    have := abs_add (x - y) y
    simp only [sub_add_cancel] at this
    linarith
  have h4 : u * |x| ≤ u * (|y| + E * |y|) := mul_le_mul_of_nonneg_left (by linarith) hu
  have h5 : ((1 + u) * (1 + E) - 1) * |y| = u * (|y| + E * |y|) + E * |y| := by ring
  linarith

theorem clip_near (lo hi : ℚ) (v x : ℚ) (h1 : lo ≤ x) (h2 : x ≤ hi) :
    |VIPS_CLIP lo v hi - x| ≤ |v - x| := by
  unfold VIPS_CLIP VIPS_MIN VIPS_MAX
  split_ifs <;> rw [abs_le] <;> constructor <;>
    first
    | (rcases abs_cases (v - x) with ⟨e, _⟩ | ⟨e, _⟩ <;> rw [e] <;> linarith)

/-! ### Machine arithmetic: the combiner -/

theorem store_near (st : ℚ → ℚ) (T : VipsBandFormat) (min_T max_T : ℤ)
    (hT : (T, min_T, max_T) ∈ integer_instances) (v x : ℚ)
    (hr : in_type_range T min_T max_T x) (h : |v - x| < 1) :
    let out := cast_T_fl st T (if min_T ≠ 0 ∨ max_T ≠ 0 then VIPS_CLIP min_T v max_T else v)
    out = x ∨ (0 < x ∧ out = x - 1) ∨ (x < 0 ∧ out = x + 1) := by
  have hc : min_T ≠ 0 ∨ max_T ≠ 0 := by
    simp only [integer_instances, List.mem_cons, Prod.mk.injEq, List.mem_singleton,
      List.not_mem_nil, or_false] at hT
    rcases hT with ⟨_, _, h⟩ | ⟨_, _, h⟩ | ⟨_, _, h⟩ | ⟨_, _, h⟩ | ⟨_, _, h⟩ | ⟨_, _, h⟩ <;>
      right <;> rw [h] <;> decide
  have hcast : ∀ w, cast_T_fl st T w = ((Int.tdiv w.num w.den : ℤ) : ℚ) ∧
      cast_T T w = ((Int.tdiv w.num w.den : ℤ) : ℚ) := by
    intro w
    simp only [integer_instances, List.mem_cons, Prod.mk.injEq, List.mem_singleton,
      List.not_mem_nil, or_false] at hT
    rcases hT with ⟨h, _, _⟩ | ⟨h, _, _⟩ | ⟨h, _, _⟩ | ⟨h, _, _⟩ | ⟨h, _, _⟩ | ⟨h, _, _⟩ <;>
      rw [h] <;> exact ⟨rfl, rfl⟩
  obtain ⟨hx, hrange⟩ := hr
  rw [(hcast x).2] at hx
  obtain ⟨lo, hi⟩ := hrange hc
  intro out
  have hout : out = ((Int.tdiv (VIPS_CLIP min_T v max_T).num (VIPS_CLIP min_T v max_T).den :
      ℤ) : ℚ) := by
    simp only [out, if_pos hc, (hcast _).1]
  have h1 : |VIPS_CLIP min_T v max_T - x| < 1 := lt_of_le_of_lt (clip_near _ _ v x lo hi) h
  rw [hout]
  rw [← hx] at h1 ⊢
  rcases trunc_near _ _ h1 with e | ⟨e0, e⟩ | ⟨e0, e⟩
  · exact Or.inl (by exact_mod_cast e)
  · exact Or.inr (Or.inl ⟨by exact_mod_cast e0, by rw [e]; push_cast; ring⟩)
  · exact Or.inr (Or.inr ⟨by exact_mod_cast e0, by rw [e]; push_cast; ring⟩)

theorem trunc_eq (v : ℚ) (z : ℤ) (h0 : 0 ≤ v) (h1 : (z : ℚ) ≤ v) (h2 : v < z + 1) :
    ((Int.tdiv v.num v.den : ℤ) : ℚ) = z := by
  rw [tdiv_eq_floor_of_nonneg v h0]
  congr 1
  rw [Int.floor_eq_iff]
  exact ⟨h1, h2⟩

theorem pixels_fl_eq (fl : ℚ → ℚ) (dv : ℚ → ℚ → ℚ) (st : ℚ → ℚ) (sqrt : ℚ → ℚ)
    (T : VipsBandFormat) (min_T max_T : ℤ) (c : VipsComposite) (q : Nat → ℚ)
    (p : Nat → Nat → ℚ) (b : ℕ) (hb : b ≤ c.bands) :
    vips_combine_pixels_fl fl dv st sqrt T min_T max_T c q p b =
      cast_T_fl st T (if min_T ≠ 0 ∨ max_T ≠ 0 then
        VIPS_CLIP min_T (vips_combine_value_fl fl dv sqrt c p b) max_T
        else vips_combine_value_fl fl dv sqrt c p b) := by
  have hlt : b < c.bands + 1 := Nat.lt_succ_of_le hb
  simp only [vips_combine_pixels_fl, for_bands, if_pos hlt]

theorem stored_zero (fl : ℚ → ℚ) (dv : ℚ → ℚ → ℚ) (st : ℚ → ℚ) (sqrt : ℚ → ℚ)
    (T : VipsBandFormat) (min_T max_T : ℤ) (c : VipsComposite) (q : Nat → ℚ)
    (p : Nat → Nat → ℚ) (hst : st 0 = 0) (hmin : min_T ≤ 0) (hmax : 0 ≤ max_T) (b : ℕ)
    (hb : b ≤ c.bands) (hv : vips_combine_value_fl fl dv sqrt c p b = 0) :
    vips_combine_pixels_fl fl dv st sqrt T min_T max_T c q p b = 0 := by
  have h1 : ((min_T : ℤ) : ℚ) ≤ 0 := by exact_mod_cast hmin
  have h2 : (0 : ℚ) ≤ ((max_T : ℤ) : ℚ) := by exact_mod_cast hmax
  have hc : cast_T_fl st T 0 = 0 := by cases T <;> simp [cast_T_fl, hst]
  rw [pixels_fl_eq fl dv st sqrt T min_T max_T c q p b hb, hv]
  split_ifs
  · rw [VIPS_CLIP_of_mem h1 h2, hc]
  · exact hc

theorem stored_near (fl : ℚ → ℚ) (dv : ℚ → ℚ → ℚ) (st : ℚ → ℚ) (u : ℚ) (k : ℕ)
    (sqrt : ℚ → ℚ) (T : VipsBandFormat) (min_T max_T : ℤ) (c : VipsComposite) (q : Nat → ℚ)
    (p : Nat → Nat → ℚ) (b : ℕ) (hb : b ≤ c.bands) (x : ℚ)
    (hv : |vips_combine_value_fl fl dv sqrt c p b - x| ≤ rel_err u k * |x|) :
    ((T, min_T, max_T) ∈ integer_instances → in_type_range T min_T max_T x →
      rel_err u k * |x| < 1 →
      vips_combine_pixels_fl fl dv st sqrt T min_T max_T c q p b = x ∨
      (0 < x ∧ vips_combine_pixels_fl fl dv st sqrt T min_T max_T c q p b = x - 1) ∨
      (x < 0 ∧ vips_combine_pixels_fl fl dv st sqrt T min_T max_T c q p b = x + 1)) ∧
    (T = .DOUBLE → min_T = 0 → max_T = 0 →
      |vips_combine_pixels_fl fl dv st sqrt T min_T max_T c q p b - x| ≤
        rel_err u k * |x|) ∧
    (T = .FLOAT → min_T = 0 → max_T = 0 → ∀ us, (∀ y, |st y - y| ≤ us * |y|) →
      |vips_combine_pixels_fl fl dv st sqrt T min_T max_T c q p b - x| ≤
        ((1 + us) * (1 + u) ^ k - 1) * |x|) := by
  rw [pixels_fl_eq fl dv st sqrt T min_T max_T c q p b hb]
  refine ⟨?_, ?_, ?_⟩
  · intro hT hr hs
    exact store_near st T min_T max_T hT _ x hr (lt_of_le_of_lt hv hs)
  · intro hT h1 h2
    subst hT h1 h2
    simpa [cast_T_fl] using hv
  · intro hT h1 h2 us hst
    subst hT h1 h2
    have h := near_store (fl_unit_nonneg hst)
      (hst (vips_combine_value_fl fl dv sqrt c p b)) hv
    have e : (1 : ℚ) + rel_err u k = (1 + u) ^ k := by unfold rel_err; ring
    rw [e] at h
    simpa [cast_T_fl] using h

theorem blend_layers_fl_two (fl : ℚ → ℚ) (dv : ℚ → ℚ → ℚ) (sqrt : ℚ → ℚ)
    (c : VipsComposite) (p : Nat → Nat → ℚ) (B : Nat → ℚ) :
    blend_layers_fl fl dv sqrt c p 2 B =
      vips_composite_blend_fl fl dv sqrt c (c.mode 0) B (p 1) := by
  simp [blend_layers_fl]

theorem blend_layers_fl_last (fl : ℚ → ℚ) (dv : ℚ → ℚ → ℚ) (sqrt : ℚ → ℚ)
    (c : VipsComposite) (p : Nat → Nat → ℚ) (k : Nat) (B : Nat → ℚ) :
    blend_layers_fl fl dv sqrt c p (k + 2) B =
      vips_composite_blend_fl fl dv sqrt c (c.mode k)
        (blend_layers_fl fl dv sqrt c p (k + 1) B) (p (k + 1)) := by
  simp only [blend_layers_fl, Nat.add_sub_cancel]
  rw [show k + 2 - 1 = k + 1 from rfl, List.range'_concat, List.foldl_append]
  simp [Nat.add_comm]

theorem accumulate_fl_single (fl : ℚ → ℚ) (dv : ℚ → ℚ → ℚ) (sqrt : ℚ → ℚ)
    (c : VipsComposite) (p : Nat → Nat → ℚ) (hn : c.n = 1) :
    combine_accumulate_fl fl dv sqrt c p c.bands = dv (p 0 c.bands) (c.max_band c.bands) ∧
    ∀ b, b < c.bands → combine_accumulate_fl fl dv sqrt c p b =
      if c.premultiplied then dv (p 0 b) (c.max_band b)
      else fl (dv (p 0 b) (c.max_band b) * dv (p 0 c.bands) (c.max_band c.bands)) := by
  constructor
  · cases hp : c.premultiplied <;>
      simp [combine_accumulate_fl, blend_layers_fl, hn, hp, for_bands]
  · intro b hb
    have hlt : b < c.bands + 1 := Nat.lt_succ_of_lt hb
    cases hp : c.premultiplied <;>
      simp [combine_accumulate_fl, blend_layers_fl, hn, hp, for_bands, hb, hlt]

theorem accumulate_fl_source (fl : ℚ → ℚ) (dv : ℚ → ℚ → ℚ) (sqrt : ℚ → ℚ)
    (c : VipsComposite) (p : Nat → Nat → ℚ) (hn : 2 ≤ c.n)
    (hsrc : c.mode (c.n - 2) = .SOURCE) :
    combine_accumulate_fl fl dv sqrt c p c.bands =
      dv (p (c.n - 1) c.bands) (c.max_band c.bands) ∧
    ∀ b, b < c.bands → combine_accumulate_fl fl dv sqrt c p b =
      if c.premultiplied then dv (p (c.n - 1) b) (c.max_band b)
      else fl (dv (p (c.n - 1) b) (c.max_band b) *
        dv (p (c.n - 1) c.bands) (c.max_band c.bands)) := by
  obtain ⟨k, hk⟩ : ∃ k, c.n = k + 2 := ⟨c.n - 2, by omega⟩
  have e1 : c.n - 2 = k := by omega
  have e2 : c.n - 1 = k + 1 := by omega
  rw [e1] at hsrc
  rw [e2]
  constructor
  · simp [combine_accumulate_fl, hk, blend_layers_fl_last, hsrc, vips_composite_blend_fl,
      set_band, for_bands]
  · intro b hb
    have hne : b ≠ c.bands := Nat.ne_of_lt hb
    have hlt : b < c.bands + 1 := Nat.lt_succ_of_lt hb
    cases hp : c.premultiplied <;>
      simp [combine_accumulate_fl, hk, blend_layers_fl_last, hsrc, vips_composite_blend_fl,
        set_band, for_bands, hp, hb, hne, hlt]

theorem value_of_loaded {fl : ℚ → ℚ} {dv : ℚ → ℚ → ℚ} {u : ℚ}
    (hfl : ∀ x, |fl x - x| ≤ u * |x|) (hdv : ∀ x y, y ≠ 0 → dv x y = fl (x / y))
    (hu : u < 1) (c : VipsComposite) (P B : Nat → ℚ)
    (hmax : ∀ b, b ≤ c.bands → c.max_band b ≠ 0)
    (halpha : B c.bands = dv (P c.bands) (c.max_band c.bands))
    (hcol : ∀ b, b < c.bands → B b =
      if c.premultiplied then dv (P b) (c.max_band b)
      else fl (dv (P b) (c.max_band b) * dv (P c.bands) (c.max_band c.bands))) :
    (c.premultiplied = false → P c.bands = 0 → ∀ b, b ≤ c.bands →
      fl (combine_unpremultiply_fl dv c B b * c.max_band b) = 0) ∧
    (c.premultiplied = true ∨ P c.bands ≠ 0 → ∀ b, b ≤ c.bands →
      |fl (combine_unpremultiply_fl dv c B b * c.max_band b) - P b| ≤
        rel_err u 4 * |P b|) := by
  have hu0 := fl_unit_nonneg hfl
  have hma := hmax c.bands (Nat.le_refl _)
  have hd : ∀ b, b ≤ c.bands → dv (P b) (c.max_band b) = fl (P b / c.max_band b) :=
    fun b hb => hdv _ _ (hmax b hb)
  rw [hd c.bands (Nat.le_refl _)] at halpha
  have hUa : combine_unpremultiply_fl dv c B c.bands = B c.bands := by
    unfold combine_unpremultiply_fl
    cases c.premultiplied
    · simp only [Bool.not_false, if_true]
      split_ifs <;> simp [for_bands]
    · simp
  -- one rounded quotient by the limit
  have hq : ∀ b, b ≤ c.bands →
      |fl (P b / c.max_band b) - P b / c.max_band b| ≤
        rel_err u 1 * |P b / c.max_band b| := fun b _ => near_fl hfl (near_self u _)
  -- scaling back by the limit
  have hback : ∀ (k : ℕ) (b : ℕ) (x : ℚ), b ≤ c.bands → k + 1 ≤ 4 →
      |x - P b / c.max_band b| ≤ rel_err u k * |P b / c.max_band b| →
      |fl (x * c.max_band b) - P b| ≤ rel_err u 4 * |P b| := by
    intro k b x hb hk hx
    have h1 := near_fl hfl (near_mul (c.max_band b) hx)
    rw [div_mul_cancel₀ _ (hmax b hb)] at h1
    exact near_mono hu0 hk h1
  constructor
  · intro hp hP b hb
    rcases Nat.eq_or_lt_of_le hb with heq | hlt
    · subst heq
      rw [hUa, halpha, hP]
      simp [fl_zero hfl]
    · simp [combine_unpremultiply_fl, hp, halpha, hP, for_bands, hlt, fl_zero hfl]
  · intro h b hb
    rcases Nat.eq_or_lt_of_le hb with heq | hlt
    · subst heq
      rw [hUa, halpha]
      exact hback 1 _ _ (Nat.le_refl _) (by norm_num) (hq _ (Nat.le_refl _))
    · cases hp : c.premultiplied
      · have hP : P c.bands ≠ 0 := by
          rcases h with h | h
          · rw [hp] at h; cases h
          · exact h
        have haR : fl (P c.bands / c.max_band c.bands) ≠ 0 :=
          fl_ne_zero hfl hu (div_ne_zero hP hma)
        have hU : combine_unpremultiply_fl dv c B b =
            fl (fl (fl (P b / c.max_band b) * fl (P c.bands / c.max_band c.bands)) /
              fl (P c.bands / c.max_band c.bands)) := by
          simp only [combine_unpremultiply_fl, hp, Bool.not_false, if_true, halpha,
            if_neg haR, for_bands, if_pos hlt, hcol b hlt, hd b hb,
            hd c.bands (Nat.le_refl _), hdv _ _ haR]
          simp
        rw [hU]
        have s1 := near_fl hfl (near_mul (fl (P c.bands / c.max_band c.bands)) (hq b hb))
        have s2 := near_fl hfl (near_div (fl (P c.bands / c.max_band c.bands)) s1)
        rw [mul_div_cancel_right₀ _ haR] at s2
        exact hback 3 b _ hb (by norm_num) s2
      · have hU : combine_unpremultiply_fl dv c B b = fl (P b / c.max_band b) := by
          simp [combine_unpremultiply_fl, hp, hcol b hlt, hd b hb]
        rw [hU]
        exact hback 1 b _ hb (by norm_num) (hq b hb)

theorem value_fl_colour (fl : ℚ → ℚ) (dv : ℚ → ℚ → ℚ) (sqrt : ℚ → ℚ) (c : VipsComposite)
    (p : Nat → Nat → ℚ) (P : Nat → ℚ) (hpre : c.premultiplied = false)
    (halpha : combine_accumulate_fl fl dv sqrt c p c.bands =
      dv (P c.bands) (c.max_band c.bands))
    (hcol : ∀ b, b < c.bands → combine_accumulate_fl fl dv sqrt c p b =
      if c.premultiplied then dv (P b) (c.max_band b)
      else fl (dv (P b) (c.max_band b) * dv (P c.bands) (c.max_band c.bands)))
    (b : ℕ) (hb : b < c.bands) (x a m : ℚ) (hx : P b = x) (hm : c.max_band b = m)
    (ha : dv (P c.bands) (c.max_band c.bands) = a) (ha0 : a ≠ 0) :
    vips_combine_value_fl fl dv sqrt c p b = fl (dv (fl (dv x m * a)) a * m) := by
  subst hx hm ha
  simp only [vips_combine_value_fl, combine_unpremultiply_fl, hpre, Bool.not_false, if_true,
    halpha, if_neg ha0, for_bands, if_pos hb, hcol b hb]
  simp

theorem rgba8_max_band (pre : Bool) (n : ℕ) (modes : List VipsBlendMode) (b : ℕ)
    (hb : b ≤ 3) : (rgba8 pre n modes).max_band b = 255 :=
  max_band_sRGB 0 0 0 3 (fun _ => 255) _ rfl b hb

theorem round_binary_zero (t : ℕ) : round_binary t 0 = 0 := by simp [round_binary]

theorem vips_composite_blend_fl_exact (sqrt : ℚ → ℚ) (c : VipsComposite)
    (mode : VipsBlendMode) (B p : Nat → ℚ) :
    vips_composite_blend_fl (fun x => x) (fun x y => x / y) sqrt c mode B p =
      vips_composite_blend sqrt c mode B p := by
  cases mode <;> rfl

theorem combine_accumulate_fl_exact (sqrt : ℚ → ℚ) (c : VipsComposite)
    (p : Nat → Nat → ℚ) :
    combine_accumulate_fl (fun x => x) (fun x y => x / y) sqrt c p =
      combine_accumulate sqrt c p := by
  have h : (fun (B : Nat → ℚ) (i : ℕ) =>
      vips_composite_blend_fl (fun x => x) (fun x y => x / y) sqrt c (c.mode (i - 1)) B
        (p i)) = fun B i => vips_composite_blend sqrt c (c.mode (i - 1)) B (p i) := by
    funext B i
    exact vips_composite_blend_fl_exact sqrt c _ B (p i)
  simp only [combine_accumulate_fl, combine_accumulate, blend_layers_fl, blend_layers, h]

theorem vips_combine_pixels_fl_exact (sqrt : ℚ → ℚ) (T : VipsBandFormat) (min_T max_T : ℤ)
    (c : VipsComposite) (q : Nat → ℚ) (p : Nat → Nat → ℚ) :
    vips_combine_pixels_fl (fun x => x) (fun x y => x / y) (fun x => x) sqrt T min_T max_T
      c q p = vips_combine_pixels sqrt T min_T max_T c q p := by
  have hc : ∀ v, cast_T_fl (fun x => x) T v = cast_T T v := fun v => by cases T <;> rfl
  have hu : ∀ B, combine_unpremultiply_fl (fun x y => x / y) c B =
      combine_unpremultiply c B := fun _ => rfl
  funext b
  simp only [vips_combine_pixels_fl, vips_combine_value_fl, vips_combine_pixels,
    combine_write, combine_accumulate_fl_exact, hu, hc]

/-! ### Machine arithmetic: passthrough, `SOURCE` and `MULTIPLY` -/

theorem round_double_one : round_double 1 = 1 := by
  have h := round_binary_cert 52 1 (-52) 4503599627370496 (by norm_num) (by norm_num)
    (by norm_num) (by norm_num)
  rw [round_double, h]
  norm_num

theorem div_double_eq (x y : ℚ) (_ : y ≠ 0) : div_double x y = round_double (x / y) := rfl

theorem lab_multiply2_max_band :
    lab_multiply2.max_band 0 = 100 ∧ lab_multiply2.max_band 1 = 128 ∧
    lab_multiply2.max_band 2 = 128 ∧ lab_multiply2.max_band 3 = 255 := by
  simp [lab_multiply2, vips_composite_max_band, set_band, for_bands]

/-- The `double` operations that take the 8-bit value 3 with alpha 3 through the
unpremultiplied combiner: `3 / 255`, its product with the alpha `3 / 255`, the quotient by
that alpha, the product with 255. The result is the `double` next below 3. -/
theorem three_through_doubles :
    round_double (3 / 255) = 6781891203569688 * 2 ^ (-59 : ℤ) ∧
    round_double (6781891203569688 * 2 ^ (-59 : ℤ) * (6781891203569688 * 2 ^ (-59 : ℤ))) =
      5106365141511294 * 2 ^ (-65 : ℤ) ∧
    round_double (5106365141511294 * 2 ^ (-65 : ℤ) / (6781891203569688 * 2 ^ (-59 : ℤ))) =
      6781891203569687 * 2 ^ (-59 : ℤ) ∧
    round_double (6781891203569687 * 2 ^ (-59 : ℤ) * 255) =
      6755399441055743 * 2 ^ (-51 : ℤ) := by
  refine ⟨?_, ?_, ?_, ?_⟩
  · apply round_binary_cert 52 _ (-59) 6781891203569688 <;> norm_num
  · apply round_binary_cert 52 _ (-65) 5106365141511294 <;> norm_num
  · apply round_binary_cert 52 _ (-59) 6781891203569687 <;> norm_num
  · apply round_binary_cert 52 _ (-51) 6755399441055743 <;> norm_num

/-- C9, as amended: for a single-layer stack (`n = 1`) with non-zero limits, in `double`
arithmetic whose operations have relative error at most `u` (the division is arbitrary on a
zero divisor): when `premultiplied` is unset and the pixel's alpha is 0, every output band
is 0; otherwise the value computed for each band before the store is within relative error
`(1 + u) ^ 4 - 1` of the input value, so that each of the six integer instantiations stores
the input value or the integer next to it towards 0 (the input a value of the element type
within range, small enough for the error bound to stay below 1), `double` stores a value
within that relative error of the input and `float`, converted with relative error at most
`us`, a value within relative error `(1 + us) * (1 + u) ^ 4 - 1` of it. -/
theorem C9_single_layer_passthrough (fl : ℚ → ℚ) (dv : ℚ → ℚ → ℚ) (st : ℚ → ℚ) (u : ℚ)
    (sqrt : ℚ → ℚ) (T : VipsBandFormat) (min_T max_T : ℤ) (c : VipsComposite)
    (q : Nat → ℚ) (p : Nat → Nat → ℚ) (hfl : ∀ x, |fl x - x| ≤ u * |x|)
    (hdv : ∀ x y, y ≠ 0 → dv x y = fl (x / y)) (hu : u < 1) (hst : st 0 = 0)
    (hn : c.n = 1) (hmax : ∀ b, b ≤ c.bands → c.max_band b ≠ 0)
    (hmin : min_T ≤ 0) (hmaxT : 0 ≤ max_T) :
    (c.premultiplied = false → p 0 c.bands = 0 → ∀ b, b ≤ c.bands →
      vips_combine_pixels_fl fl dv st sqrt T min_T max_T c q p b = 0) ∧
    (c.premultiplied = true ∨ p 0 c.bands ≠ 0 → ∀ b, b ≤ c.bands →
      |vips_combine_value_fl fl dv sqrt c p b - p 0 b| ≤ rel_err u 4 * |p 0 b| ∧
      ((T, min_T, max_T) ∈ integer_instances → in_type_range T min_T max_T (p 0 b) →
        rel_err u 4 * |p 0 b| < 1 →
        vips_combine_pixels_fl fl dv st sqrt T min_T max_T c q p b = p 0 b ∨
        (0 < p 0 b ∧
          vips_combine_pixels_fl fl dv st sqrt T min_T max_T c q p b = p 0 b - 1) ∨
        (p 0 b < 0 ∧
          vips_combine_pixels_fl fl dv st sqrt T min_T max_T c q p b = p 0 b + 1)) ∧
      (T = .DOUBLE → min_T = 0 → max_T = 0 →
        |vips_combine_pixels_fl fl dv st sqrt T min_T max_T c q p b - p 0 b| ≤
          rel_err u 4 * |p 0 b|) ∧
      (T = .FLOAT → min_T = 0 → max_T = 0 → ∀ us, (∀ y, |st y - y| ≤ us * |y|) →
        |vips_combine_pixels_fl fl dv st sqrt T min_T max_T c q p b - p 0 b| ≤
          ((1 + us) * (1 + u) ^ 4 - 1) * |p 0 b|)) := by
  have key := value_of_loaded hfl hdv hu c (p 0) (combine_accumulate_fl fl dv sqrt c p) hmax
    (accumulate_fl_single fl dv sqrt c p hn).1 (accumulate_fl_single fl dv sqrt c p hn).2
  constructor
  · intro hp hP b hb
    exact stored_zero fl dv st sqrt T min_T max_T c q p hst hmin hmaxT b hb
      (key.1 hp hP b hb)
  · intro h b hb
    have hv : |vips_combine_value_fl fl dv sqrt c p b - p 0 b| ≤ rel_err u 4 * |p 0 b| :=
      key.2 h b hb
    exact ⟨hv, stored_near fl dv st u 4 sqrt T min_T max_T c q p b hb _ hv⟩

/-- C9 as amended, at a concrete input: the 8-bit pixel `(3, 3, 3, 3)`, unpremultiplied, in
IEEE `double` arithmetic; band 0 of the output is the input value or the integer next to it
towards 0. -/
theorem C9_single_layer_passthrough_witness :
    vips_combine_pixels_fl round_double div_double round_float (fun x => x) .UCHAR 0
      UCHAR_MAX (rgba8 false 1 []) (fun _ => 0) (fun _ => pel4 3 3 3 3) 0 =
        pel4 3 3 3 3 0 ∨
    (0 < pel4 3 3 3 3 0 ∧
      vips_combine_pixels_fl round_double div_double round_float (fun x => x) .UCHAR 0
        UCHAR_MAX (rgba8 false 1 []) (fun _ => 0) (fun _ => pel4 3 3 3 3) 0 =
          pel4 3 3 3 3 0 - 1) ∨
    (pel4 3 3 3 3 0 < 0 ∧
      vips_combine_pixels_fl round_double div_double round_float (fun x => x) .UCHAR 0
        UCHAR_MAX (rgba8 false 1 []) (fun _ => 0) (fun _ => pel4 3 3 3 3) 0 =
          pel4 3 3 3 3 0 + 1) :=
  ((C9_single_layer_passthrough round_double div_double round_float (1 / 2 ^ 53)
    (fun x => x) .UCHAR 0 UCHAR_MAX (rgba8 false 1 []) (fun _ => 0) (fun _ => pel4 3 3 3 3)
    round_double_rel_err div_double_eq (by norm_num) (round_binary_zero 23) rfl
    (rgba8_max_band_ne_zero false 1 []) (by decide)
    (by decide)).2 (Or.inr (by norm_num [rgba8, pel4])) 0 (by decide)).2.1
    (by simp [integer_instances])
    (by
      simpa using pel4_uchar_in_range 3 3 3 3 (by norm_num) (by norm_num) (by norm_num)
        (by norm_num) 0)
    (by norm_num [rel_err, pel4])

/-- C9 as stated fails, in two ways. The single 8-bit pixel `(10, 20, 30, 0)`, within range,
with `premultiplied` unset, comes out with band 0 equal to 0, not 10. In IEEE `double`
arithmetic the single 8-bit pixel `(3, 3, 3, 3)`, `premultiplied` unset, comes out with
band 0 equal to 2, not 3: `3 / 255 * (3 / 255) / (3 / 255) * 255` is computed as the
`double` next below 3, which the store truncates. -/
theorem C9_passthrough_counterexample :
    (vips_combine_pixels_fl round_double div_double round_float (fun x => x) .UCHAR 0
        UCHAR_MAX (rgba8 false 1 []) (fun _ => 0) (fun _ => pel4 10 20 30 0) 0 = 0 ∧
      vips_combine_pixels_fl round_double div_double round_float (fun x => x) .UCHAR 0
        UCHAR_MAX (rgba8 false 1 []) (fun _ => 0) (fun _ => pel4 10 20 30 0) 0 ≠
          pel4 10 20 30 0 0) ∧
    (vips_combine_pixels_fl round_double div_double round_float (fun x => x) .UCHAR 0
        UCHAR_MAX (rgba8 false 1 []) (fun _ => 0) (fun _ => pel4 3 3 3 3) 0 = 2 ∧
      vips_combine_pixels_fl round_double div_double round_float (fun x => x) .UCHAR 0
        UCHAR_MAX (rgba8 false 1 []) (fun _ => 0) (fun _ => pel4 3 3 3 3) 0 ≠
          pel4 3 3 3 3 0) := by
  have hz : vips_combine_pixels_fl round_double div_double round_float (fun x => x) .UCHAR 0
      UCHAR_MAX (rgba8 false 1 []) (fun _ => 0) (fun _ => pel4 10 20 30 0) 0 = 0 := by
    have hacc := accumulate_fl_single round_double div_double (fun x => x) (rgba8 false 1 [])
      (fun _ => pel4 10 20 30 0) rfl
    exact stored_zero round_double div_double round_float (fun x => x) .UCHAR 0 UCHAR_MAX
      (rgba8 false 1 []) (fun _ => 0) (fun _ => pel4 10 20 30 0) (round_binary_zero 23)
      (by decide) (by decide) 0 (by decide)
      ((value_of_loaded round_double_rel_err div_double_eq (by norm_num) (rgba8 false 1 [])
        (pel4 10 20 30 0) _ (rgba8_max_band_ne_zero false 1 []) hacc.1 hacc.2).1 rfl rfl 0
        (by decide))
  have h3 : vips_combine_pixels_fl round_double div_double round_float (fun x => x) .UCHAR 0
      UCHAR_MAX (rgba8 false 1 []) (fun _ => 0) (fun _ => pel4 3 3 3 3) 0 = 2 := by
    obtain ⟨r1, r2, r3, r4⟩ := three_through_doubles
    have hacc := accumulate_fl_single round_double div_double (fun x => x) (rgba8 false 1 [])
      (fun _ => pel4 3 3 3 3) rfl
    have hv := value_fl_colour round_double div_double (fun x => x) (rgba8 false 1 [])
      (fun _ => pel4 3 3 3 3) (pel4 3 3 3 3) rfl hacc.1 hacc.2 0 (by decide) 3
      (6781891203569688 * 2 ^ (-59 : ℤ)) 255 rfl (rgba8_max_band false 1 [] 0 (by decide))
      (by
        show div_double (3 : ℚ) ((rgba8 false 1 []).max_band 3) = _
        rw [rgba8_max_band false 1 [] 3 (Nat.le_refl 3)]; exact r1)
      (by norm_num)
    simp only [div_double] at hv
    rw [r1, r2, r3, r4] at hv
    rw [pixels_fl_eq _ _ _ _ _ _ _ _ _ _ 0 (by decide), hv]
    rw [if_pos (by decide),
      VIPS_CLIP_of_mem (by norm_num [UCHAR_MAX]) (by norm_num [UCHAR_MAX])]
    exact trunc_eq _ 2 (by norm_num) (by norm_num) (by norm_num)
  refine ⟨⟨hz, ?_⟩, ⟨h3, ?_⟩⟩
  · rw [hz]; norm_num [pel4]
  · rw [h3]; norm_num [pel4]

/-- C10, as amended: for a stack of `n >= 2` layers whose last blend mode is `SOURCE`, with
non-zero limits, in `double` arithmetic whose operations have relative error at most `u`
(the division is arbitrary on a zero divisor): when `premultiplied` is unset and the top
pixel's alpha is 0, every output band is 0; otherwise the value computed for each band
before the store is within relative error `(1 + u) ^ 4 - 1` of the top pixel's value, so
that each of the six integer instantiations stores that value or the integer next to it
towards 0 (a value of the element type within range, small enough for the error bound to
stay below 1), `double` stores a value within that relative error of it and `float`,
converted with relative error at most `us`, a value within relative error
`(1 + us) * (1 + u) ^ 4 - 1` of it. -/
theorem C10_source_gives_top_layer (fl : ℚ → ℚ) (dv : ℚ → ℚ → ℚ) (st : ℚ → ℚ) (u : ℚ)
    (sqrt : ℚ → ℚ) (T : VipsBandFormat) (min_T max_T : ℤ) (c : VipsComposite)
    (q : Nat → ℚ) (p : Nat → Nat → ℚ) (hfl : ∀ x, |fl x - x| ≤ u * |x|)
    (hdv : ∀ x y, y ≠ 0 → dv x y = fl (x / y)) (hu : u < 1) (hst : st 0 = 0)
    (hn : 2 ≤ c.n) (hsrc : c.mode (c.n - 2) = .SOURCE)
    (hmax : ∀ b, b ≤ c.bands → c.max_band b ≠ 0) (hmin : min_T ≤ 0) (hmaxT : 0 ≤ max_T) :
    (c.premultiplied = false → p (c.n - 1) c.bands = 0 → ∀ b, b ≤ c.bands →
      vips_combine_pixels_fl fl dv st sqrt T min_T max_T c q p b = 0) ∧
    (c.premultiplied = true ∨ p (c.n - 1) c.bands ≠ 0 → ∀ b, b ≤ c.bands →
      |vips_combine_value_fl fl dv sqrt c p b - p (c.n - 1) b| ≤
        rel_err u 4 * |p (c.n - 1) b| ∧
      ((T, min_T, max_T) ∈ integer_instances →
        in_type_range T min_T max_T (p (c.n - 1) b) → rel_err u 4 * |p (c.n - 1) b| < 1 →
        vips_combine_pixels_fl fl dv st sqrt T min_T max_T c q p b = p (c.n - 1) b ∨
        (0 < p (c.n - 1) b ∧
          vips_combine_pixels_fl fl dv st sqrt T min_T max_T c q p b = p (c.n - 1) b - 1) ∨
        (p (c.n - 1) b < 0 ∧
          vips_combine_pixels_fl fl dv st sqrt T min_T max_T c q p b = p (c.n - 1) b + 1)) ∧
      (T = .DOUBLE → min_T = 0 → max_T = 0 →
        |vips_combine_pixels_fl fl dv st sqrt T min_T max_T c q p b - p (c.n - 1) b| ≤
          rel_err u 4 * |p (c.n - 1) b|) ∧
      (T = .FLOAT → min_T = 0 → max_T = 0 → ∀ us, (∀ y, |st y - y| ≤ us * |y|) →
        |vips_combine_pixels_fl fl dv st sqrt T min_T max_T c q p b - p (c.n - 1) b| ≤
          ((1 + us) * (1 + u) ^ 4 - 1) * |p (c.n - 1) b|)) := by
  have key := value_of_loaded hfl hdv hu c (p (c.n - 1))
    (combine_accumulate_fl fl dv sqrt c p) hmax
    (accumulate_fl_source fl dv sqrt c p hn hsrc).1
    (accumulate_fl_source fl dv sqrt c p hn hsrc).2
  constructor
  · intro hp hP b hb
    exact stored_zero fl dv st sqrt T min_T max_T c q p hst hmin hmaxT b hb
      (key.1 hp hP b hb)
  · intro h b hb
    have hv : |vips_combine_value_fl fl dv sqrt c p b - p (c.n - 1) b| ≤
        rel_err u 4 * |p (c.n - 1) b| := key.2 h b hb
    exact ⟨hv, stored_near fl dv st u 4 sqrt T min_T max_T c q p b hb _ hv⟩

/-- C10 as amended, at a concrete input: three 8-bit layers with modes `[OVER, SOURCE]`,
unpremultiplied, the top pixel `(3, 3, 3, 3)`, in IEEE `double` arithmetic; band 0 of the
output is band 0 of the top layer or the integer next to it towards 0. -/
theorem C10_source_gives_top_layer_witness :
    vips_combine_pixels_fl round_double div_double round_float (fun x => x) .UCHAR 0
      UCHAR_MAX (rgba8 false 3 [.OVER, .SOURCE]) (fun _ => 0)
      (fun i => if i = 2 then pel4 3 3 3 3 else pel4 9 9 9 255) 0 = pel4 3 3 3 3 0 ∨
    (0 < pel4 3 3 3 3 0 ∧
      vips_combine_pixels_fl round_double div_double round_float (fun x => x) .UCHAR 0
        UCHAR_MAX (rgba8 false 3 [.OVER, .SOURCE]) (fun _ => 0)
        (fun i => if i = 2 then pel4 3 3 3 3 else pel4 9 9 9 255) 0 = pel4 3 3 3 3 0 - 1) ∨
    (pel4 3 3 3 3 0 < 0 ∧
      vips_combine_pixels_fl round_double div_double round_float (fun x => x) .UCHAR 0
        UCHAR_MAX (rgba8 false 3 [.OVER, .SOURCE]) (fun _ => 0)
        (fun i => if i = 2 then pel4 3 3 3 3 else pel4 9 9 9 255) 0 = pel4 3 3 3 3 0 + 1) :=
  ((C10_source_gives_top_layer round_double div_double round_float (1 / 2 ^ 53)
    (fun x => x) .UCHAR 0 UCHAR_MAX (rgba8 false 3 [.OVER, .SOURCE]) (fun _ => 0)
    (fun i => if i = 2 then pel4 3 3 3 3 else pel4 9 9 9 255) round_double_rel_err
    div_double_eq (by norm_num) (round_binary_zero 23) (by decide) rfl
    (rgba8_max_band_ne_zero false 3 [.OVER, .SOURCE]) (by decide)
    (by decide)).2 (Or.inr (by norm_num [rgba8, pel4])) 0 (by decide)).2.1
    (by simp [integer_instances])
    (by
      simpa [rgba8] using pel4_uchar_in_range 3 3 3 3 (by norm_num) (by norm_num)
        (by norm_num) (by norm_num) 0)
    (by norm_num [rel_err, pel4, rgba8])

/-- C10 as stated fails, in two ways, for two 8-bit layers blended with `SOURCE`,
`premultiplied` unset. With the top pixel `(10, 20, 30, 0)`, within range, band 0 of the
output is 0, not 10. In IEEE `double` arithmetic, with the top pixel `(3, 3, 3, 3)`, band 0
of the output is 2, not 3. -/
theorem C10_source_counterexample :
    (vips_combine_pixels_fl round_double div_double round_float (fun x => x) .UCHAR 0
        UCHAR_MAX (rgba8 false 2 [.SOURCE]) (fun _ => 0)
        (fun i => if i = 1 then pel4 10 20 30 0 else pel4 255 0 0 255) 0 = 0 ∧
      vips_combine_pixels_fl round_double div_double round_float (fun x => x) .UCHAR 0
        UCHAR_MAX (rgba8 false 2 [.SOURCE]) (fun _ => 0)
        (fun i => if i = 1 then pel4 10 20 30 0 else pel4 255 0 0 255) 0 ≠
          (fun i => if i = 1 then pel4 10 20 30 0 else pel4 255 0 0 255) (2 - 1) 0) ∧
    (vips_combine_pixels_fl round_double div_double round_float (fun x => x) .UCHAR 0
        UCHAR_MAX (rgba8 false 2 [.SOURCE]) (fun _ => 0)
        (fun i => if i = 1 then pel4 3 3 3 3 else pel4 255 0 0 255) 0 = 2 ∧
      vips_combine_pixels_fl round_double div_double round_float (fun x => x) .UCHAR 0
        UCHAR_MAX (rgba8 false 2 [.SOURCE]) (fun _ => 0)
        (fun i => if i = 1 then pel4 3 3 3 3 else pel4 255 0 0 255) 0 ≠
          (fun i => if i = 1 then pel4 3 3 3 3 else pel4 255 0 0 255) (2 - 1) 0) := by
  have hz : vips_combine_pixels_fl round_double div_double round_float (fun x => x) .UCHAR 0
      UCHAR_MAX (rgba8 false 2 [.SOURCE]) (fun _ => 0)
      (fun i => if i = 1 then pel4 10 20 30 0 else pel4 255 0 0 255) 0 = 0 := by
    have hacc := accumulate_fl_source round_double div_double (fun x => x)
      (rgba8 false 2 [.SOURCE])
      (fun i => if i = 1 then pel4 10 20 30 0 else pel4 255 0 0 255) (by decide) rfl
    exact stored_zero round_double div_double round_float (fun x => x) .UCHAR 0 UCHAR_MAX
      (rgba8 false 2 [.SOURCE]) (fun _ => 0)
      (fun i => if i = 1 then pel4 10 20 30 0 else pel4 255 0 0 255) (round_binary_zero 23)
      (by decide) (by decide) 0 (by decide)
      ((value_of_loaded round_double_rel_err div_double_eq (by norm_num)
        (rgba8 false 2 [.SOURCE]) (pel4 10 20 30 0) _
        (rgba8_max_band_ne_zero false 2 [.SOURCE]) hacc.1 hacc.2).1 rfl rfl 0 (by decide))
  have h3 : vips_combine_pixels_fl round_double div_double round_float (fun x => x) .UCHAR 0
      UCHAR_MAX (rgba8 false 2 [.SOURCE]) (fun _ => 0)
      (fun i => if i = 1 then pel4 3 3 3 3 else pel4 255 0 0 255) 0 = 2 := by
    obtain ⟨r1, r2, r3, r4⟩ := three_through_doubles
    have hacc := accumulate_fl_source round_double div_double (fun x => x)
      (rgba8 false 2 [.SOURCE])
      (fun i => if i = 1 then pel4 3 3 3 3 else pel4 255 0 0 255) (by decide) rfl
    have hv := value_fl_colour round_double div_double (fun x => x) (rgba8 false 2 [.SOURCE])
      (fun i => if i = 1 then pel4 3 3 3 3 else pel4 255 0 0 255) (pel4 3 3 3 3) rfl
      hacc.1 hacc.2 0 (by decide) 3
      (6781891203569688 * 2 ^ (-59 : ℤ)) 255 rfl
      (rgba8_max_band false 2 [.SOURCE] 0 (by decide))
      (by
        show div_double (3 : ℚ) ((rgba8 false 2 [.SOURCE]).max_band 3) = _
        rw [rgba8_max_band false 2 [.SOURCE] 3 (Nat.le_refl 3)]; exact r1)
      (by norm_num)
    simp only [div_double] at hv
    rw [r1, r2, r3, r4] at hv
    rw [pixels_fl_eq _ _ _ _ _ _ _ _ _ _ 0 (by decide), hv]
    rw [if_pos (by decide),
      VIPS_CLIP_of_mem (by norm_num [UCHAR_MAX]) (by norm_num [UCHAR_MAX])]
    exact trunc_eq _ 2 (by norm_num) (by norm_num) (by norm_num)
  refine ⟨⟨hz, ?_⟩, ⟨h3, ?_⟩⟩
  · rw [hz]; norm_num [pel4]
  · rw [h3]; norm_num [pel4]

theorem accumulate_fl_multiply_white (fl : ℚ → ℚ) (dv : ℚ → ℚ → ℚ) (sqrt : ℚ → ℚ)
    (c : VipsComposite) (p : Nat → Nat → ℚ) (hfl0 : fl 0 = 0) (hfl1 : fl 1 = 1)
    (hdv : ∀ x y, y ≠ 0 → dv x y = fl (x / y)) (hn : c.n = 2)
    (hpre : c.premultiplied = false) (hmode : c.mode 0 = .MULTIPLY)
    (hmax : ∀ b, b ≤ c.bands → c.max_band b ≠ 0)
    (hwhite : ∀ b, b ≤ c.bands → p 0 b = c.max_band b)
    (htop : p 1 c.bands = c.max_band c.bands) :
    combine_accumulate_fl fl dv sqrt c p c.bands = 1 ∧
    ∀ b, b < c.bands → combine_accumulate_fl fl dv sqrt c p b =
      fl (fl (fl (fl (fl (p 1 b / c.max_band b))))) := by
  have hma := hmax c.bands (Nat.le_refl _)
  have hB1 : ∀ b, b ≤ c.bands → dv (p 0 b) (c.max_band b) = 1 := fun b hb => by
    rw [hdv _ _ (hmax b hb), hwhite b hb, div_self (hmax b hb), hfl1]
  have hA1 : dv (p 1 c.bands) (c.max_band c.bands) = 1 := by
    rw [hdv _ _ hma, htop, div_self hma, hfl1]
  constructor
  · simp [combine_accumulate_fl, hn, hpre, blend_layers_fl_two, hmode,
      vips_composite_blend_fl, set_band, for_bands, hA1, hB1 c.bands (Nat.le_refl _), hfl0,
      hfl1]
  · intro b hb
    have hne : b ≠ c.bands := Nat.ne_of_lt hb
    have hlt : b < c.bands + 1 := Nat.lt_succ_of_lt hb
    simp [combine_accumulate_fl, hn, hpre, blend_layers_fl_two, hmode,
      vips_composite_blend_fl, set_band, for_bands, hA1, hB1 c.bands (Nat.le_refl _),
      hB1 b (Nat.le_of_lt hb), hfl0, hfl1, hne, hlt, hb, hdv _ _ (hmax b (Nat.le_of_lt hb))]

theorem value_fl_multiply_white (fl : ℚ → ℚ) (dv : ℚ → ℚ → ℚ) (sqrt : ℚ → ℚ)
    (c : VipsComposite) (p : Nat → Nat → ℚ) (hfl0 : fl 0 = 0) (hfl1 : fl 1 = 1)
    (hdv : ∀ x y, y ≠ 0 → dv x y = fl (x / y)) (hn : c.n = 2)
    (hpre : c.premultiplied = false) (hmode : c.mode 0 = .MULTIPLY)
    (hmax : ∀ b, b ≤ c.bands → c.max_band b ≠ 0)
    (hwhite : ∀ b, b ≤ c.bands → p 0 b = c.max_band b)
    (htop : p 1 c.bands = c.max_band c.bands) :
    vips_combine_value_fl fl dv sqrt c p c.bands = fl (c.max_band c.bands) ∧
    ∀ b, b < c.bands → vips_combine_value_fl fl dv sqrt c p b =
      fl (fl (fl (fl (fl (fl (fl (p 1 b / c.max_band b)))))) * c.max_band b) := by
  have hacc := accumulate_fl_multiply_white fl dv sqrt c p hfl0 hfl1 hdv hn hpre hmode hmax
    hwhite htop
  have h1 : ∀ x, dv x 1 = fl x := fun x => by rw [hdv x 1 one_ne_zero, div_one]
  constructor
  · simp [vips_combine_value_fl, combine_unpremultiply_fl, hpre, hacc.1, for_bands]
  · intro b hb
    simp [vips_combine_value_fl, combine_unpremultiply_fl, hpre, hacc.1, for_bands, hb,
      hacc.2 b hb, h1]

/-- C18, as amended: for a two-layer unpremultiplied stack blended with
`VIPS_BLEND_MODE_MULTIPLY` whose bottom pixel is solid white (every band, alpha included, at
its limit) and whose top pixel is solid (alpha at its limit), with non-zero limits, in
`double` arithmetic whose operations have relative error at most `u` and leave 1 unchanged:
the value computed for each colour band before the store is within relative error
`(1 + u) ^ 7 - 1` of the top pixel's value, so that each of the six integer instantiations
stores that value or the integer next to it towards 0 (a value of the element type within
range, small enough for the error bound to stay below 1), `double` stores a value within
that relative error of it and `float`, converted with relative error at most `us`, a value
within relative error `(1 + us) * (1 + u) ^ 7 - 1` of it; the output alpha is the alpha
limit when that is a `double`, a value of the element type and within the clipping
range. -/
theorem C18_multiply_white_identity (fl : ℚ → ℚ) (dv : ℚ → ℚ → ℚ) (st : ℚ → ℚ) (u : ℚ)
    (sqrt : ℚ → ℚ) (T : VipsBandFormat) (min_T max_T : ℤ) (c : VipsComposite)
    (q : Nat → ℚ) (p : Nat → Nat → ℚ) (hfl : ∀ x, |fl x - x| ≤ u * |x|)
    (hfl1 : fl 1 = 1) (hdv : ∀ x y, y ≠ 0 → dv x y = fl (x / y)) (hn : c.n = 2)
    (hpre : c.premultiplied = false) (hmode : c.mode 0 = .MULTIPLY)
    (hmax : ∀ b, b ≤ c.bands → c.max_band b ≠ 0)
    (hwhite : ∀ b, b ≤ c.bands → p 0 b = c.max_band b)
    (htop : p 1 c.bands = c.max_band c.bands) :
    (∀ b, b < c.bands →
      |vips_combine_value_fl fl dv sqrt c p b - p 1 b| ≤ rel_err u 7 * |p 1 b| ∧
      ((T, min_T, max_T) ∈ integer_instances → in_type_range T min_T max_T (p 1 b) →
        rel_err u 7 * |p 1 b| < 1 →
        vips_combine_pixels_fl fl dv st sqrt T min_T max_T c q p b = p 1 b ∨
        (0 < p 1 b ∧
          vips_combine_pixels_fl fl dv st sqrt T min_T max_T c q p b = p 1 b - 1) ∨
        (p 1 b < 0 ∧
          vips_combine_pixels_fl fl dv st sqrt T min_T max_T c q p b = p 1 b + 1)) ∧
      (T = .DOUBLE → min_T = 0 → max_T = 0 →
        |vips_combine_pixels_fl fl dv st sqrt T min_T max_T c q p b - p 1 b| ≤
          rel_err u 7 * |p 1 b|) ∧
      (T = .FLOAT → min_T = 0 → max_T = 0 → ∀ us, (∀ y, |st y - y| ≤ us * |y|) →
        |vips_combine_pixels_fl fl dv st sqrt T min_T max_T c q p b - p 1 b| ≤
          ((1 + us) * (1 + u) ^ 7 - 1) * |p 1 b|)) ∧
    (fl (c.max_band c.bands) = c.max_band c.bands →
      cast_T_fl st T (c.max_band c.bands) = c.max_band c.bands →
      (min_T ≠ 0 ∨ max_T ≠ 0 →
        (min_T : ℚ) ≤ c.max_band c.bands ∧ c.max_band c.bands ≤ max_T) →
      vips_combine_pixels_fl fl dv st sqrt T min_T max_T c q p c.bands =
        c.max_band c.bands) := by
  have hval := value_fl_multiply_white fl dv sqrt c p (fl_zero hfl) hfl1 hdv hn hpre hmode
    hmax hwhite htop
  constructor
  · intro b hb
    have hv : |vips_combine_value_fl fl dv sqrt c p b - p 1 b| ≤ rel_err u 7 * |p 1 b| := by
      rw [hval.2 b hb]
      have s := near_fl hfl (near_mul (c.max_band b) (near_fl hfl (near_fl hfl (near_fl hfl
        (near_fl hfl (near_fl hfl (near_fl hfl (near_self u (p 1 b / c.max_band b)))))))))
      rw [div_mul_cancel₀ _ (hmax b (Nat.le_of_lt hb))] at s
      exact s
    exact ⟨hv, stored_near fl dv st u 7 sqrt T min_T max_T c q p b (Nat.le_of_lt hb) _
      hv⟩
  · intro h1 h2 h3
    rw [pixels_fl_eq _ _ _ _ _ _ _ _ _ _ c.bands (Nat.le_refl _), hval.1, h1]
    split_ifs with hc
    · rw [VIPS_CLIP_of_mem (h3 hc).1 (h3 hc).2, h2]
    · exact h2

/-- C18 as amended, at a concrete input: the solid 8-bit colour `(10, 20, 30)` multiplied
onto solid white in IEEE `double` arithmetic; band 1 of the output is 20 or the integer next
to it towards 0. -/
theorem C18_multiply_white_identity_witness :
    vips_combine_pixels_fl round_double div_double round_float (fun x => x) .UCHAR 0
      UCHAR_MAX (rgba8 false 2 [.MULTIPLY]) (fun _ => 0)
      (fun i => if i = 1 then pel4 10 20 30 255 else pel4 255 255 255 255) 1 =
        pel4 10 20 30 255 1 ∨
    (0 < pel4 10 20 30 255 1 ∧
      vips_combine_pixels_fl round_double div_double round_float (fun x => x) .UCHAR 0
        UCHAR_MAX (rgba8 false 2 [.MULTIPLY]) (fun _ => 0)
        (fun i => if i = 1 then pel4 10 20 30 255 else pel4 255 255 255 255) 1 =
          pel4 10 20 30 255 1 - 1) ∨
    (pel4 10 20 30 255 1 < 0 ∧
      vips_combine_pixels_fl round_double div_double round_float (fun x => x) .UCHAR 0
        UCHAR_MAX (rgba8 false 2 [.MULTIPLY]) (fun _ => 0)
        (fun i => if i = 1 then pel4 10 20 30 255 else pel4 255 255 255 255) 1 =
          pel4 10 20 30 255 1 + 1) :=
  ((C18_multiply_white_identity round_double div_double round_float (1 / 2 ^ 53)
    (fun x => x) .UCHAR 0 UCHAR_MAX (rgba8 false 2 [.MULTIPLY]) (fun _ => 0)
    (fun i => if i = 1 then pel4 10 20 30 255 else pel4 255 255 255 255)
    round_double_rel_err round_double_one div_double_eq rfl rfl rfl
    (rgba8_max_band_ne_zero false 2 [.MULTIPLY])
    (fun b hb => by
      have hb4 : b < 4 := Nat.lt_succ_of_le hb
      rw [rgba8_max_band false 2 [.MULTIPLY] b hb]
      interval_cases b <;> simp [pel4])
    (by
      show pel4 10 20 30 255 3 = (rgba8 false 2 [.MULTIPLY]).max_band 3
      rw [rgba8_max_band false 2 [.MULTIPLY] 3 (Nat.le_refl 3)]
      simp [pel4])).1 1 (by decide)).2.1
    (by simp [integer_instances])
    (by
      simpa using pel4_uchar_in_range 10 20 30 255 (by norm_num) (by norm_num)
        (by norm_num) (by norm_num) 1)
    (by norm_num [rel_err, pel4])

/-- C18 as stated fails in IEEE `double` arithmetic: with the Lab limit table
`(100, 128, 128, 255)` and 16-bit signed pixels, the solid colour `(29, 0, 0)` multiplied
onto solid white `(100, 128, 128, 255)` comes out with band 0 equal to 28, not 29
(`29 / 100 * 100` is computed as the `double` next below 29, which the store truncates). -/
theorem C18_multiply_white_counterexample :
    vips_combine_pixels_fl round_double div_double round_float (fun x => x) .SHORT SHRT_MIN
      SHRT_MAX lab_multiply2 (fun _ => 0)
      (fun i => if i = 1 then pel4 29 0 0 255 else pel4 100 128 128 255) 0 = 28 ∧
    vips_combine_pixels_fl round_double div_double round_float (fun x => x) .SHORT SHRT_MIN
      SHRT_MAX lab_multiply2 (fun _ => 0)
      (fun i => if i = 1 then pel4 29 0 0 255 else pel4 100 128 128 255) 0 ≠
        (fun i => if i = 1 then pel4 29 0 0 255 else pel4 100 128 128 255) 1 0 := by
  have h : vips_combine_pixels_fl round_double div_double round_float (fun x => x) .SHORT
      SHRT_MIN SHRT_MAX lab_multiply2 (fun _ => 0)
      (fun i => if i = 1 then pel4 29 0 0 255 else pel4 100 128 128 255) 0 = 28 := by
    have r1 : round_double (29 / 100) = 5224175567749775 * 2 ^ (-54 : ℤ) := by
      apply round_binary_cert 52 _ (-54) 5224175567749775 <;> norm_num
    have r2 : round_double (5224175567749775 * 2 ^ (-54 : ℤ)) =
        5224175567749775 * 2 ^ (-54 : ℤ) := by
      apply round_binary_cert 52 _ (-54) 5224175567749775 <;> norm_num
    have r3 : round_double (5224175567749775 * 2 ^ (-54 : ℤ) * 100) =
        8162774324609023 * 2 ^ (-48 : ℤ) := by
      apply round_binary_cert 52 _ (-48) 8162774324609023 <;> norm_num
    obtain ⟨m0, m1, m2, m3⟩ := lab_multiply2_max_band
    have hmax : ∀ b, b ≤ lab_multiply2.bands → lab_multiply2.max_band b ≠ 0 := by
      intro b hb
      have hb4 : b < 4 := Nat.lt_succ_of_le hb
      interval_cases b
      · rw [m0]; norm_num
      · rw [m1]; norm_num
      · rw [m2]; norm_num
      · rw [m3]; norm_num
    have hv := (value_fl_multiply_white round_double div_double (fun x => x) lab_multiply2
      (fun i => if i = 1 then pel4 29 0 0 255 else pel4 100 128 128 255)
      (round_binary_zero 52) round_double_one div_double_eq rfl rfl rfl hmax
      (by
        intro b hb
        have hb4 : b < 4 := Nat.lt_succ_of_le hb
        interval_cases b
        · rw [m0]; simp [pel4]
        · rw [m1]; simp [pel4]
        · rw [m2]; simp [pel4]
        · rw [m3]; simp [pel4])
      (by
        show pel4 29 0 0 255 3 = lab_multiply2.max_band 3
        rw [m3]; simp [pel4])).2 0 (by decide)
    rw [m0] at hv
    have e : (if 1 = 1 then pel4 29 0 0 255 else pel4 100 128 128 255) 0 = (29 : ℚ) := by
      simp [pel4]
    rw [e, r1, r2, r2, r2, r2, r2, r3] at hv
    rw [pixels_fl_eq _ _ _ _ _ _ _ _ _ _ 0 (by decide), hv]
    rw [if_pos (by decide),
      VIPS_CLIP_of_mem (by norm_num [SHRT_MIN]) (by norm_num [SHRT_MAX])]
    exact trunc_eq _ 28 (by norm_num) (by norm_num) (by norm_num)
  refine ⟨h, ?_⟩
  rw [h]; norm_num [pel4]

end Composite
